import Mathlib

/-!
# Turbonomic Terraform provider: reservations, templates and the stat decoder

A shallow embedding of

* `turbonomic/resource_turbo_reservation.go` (`setResourceDataFromReservation`,
  `refreshReservation`, `resourceTurboReservationCreate` with its
  `StateChangeConf`, `resourceTurboReservationDelete`),
* `turbonomic/api/reservations.go` (`CreateReservation`, `ReadReservation`,
  `DeleteReservation`),
* `turbonomic/api/core.go` (`StatApiDTO.UnmarshalJSON`),
* `turbonomic/resource_turbo_template.go` (`diffSuppressTemplateClassName`,
  `mapstructToStatApiDTO`, `statApiDTOToMapstruct`, `resourceApiDTOToSet`,
  `setResourceDataFromTemplate`),
* `turbonomic/data_source_turbo_template.go` (`dataSourceTurboTemplateRead`), and
* `turbonomic/api/templates.go`, `turbonomic/api/deployment_profiles.go` (the
  conversions `TemplateApiInputDTO`, `DeploymentProfileProviderApiInputDTO`,
  `DeploymentProfileTargetApiInputDTO`),

together with the part of Go's `encoding/json`, of the Terraform `ResourceData`
and of `StateChangeConf.WaitForState` that these functions rely on.
-/

set_option exponentiation.threshold 4096

namespace Turbonomic

/-! ## Go runtime values -/

/-- Go `error` values, by dynamic type. -/
inductive GoError where
  /-- The value built by `fmt.Errorf`, carrying the rendered message. -/
  | errorString (msg : String)
  /-- A `*json.SyntaxError`: the body is not valid JSON. -/
  | jsonSyntaxError (msg : String) (offset : Nat)
  /-- A `*json.UnmarshalTypeError`: JSON value `value` does not fit Go type `goType`. -/
  | jsonUnmarshalTypeError (value : String) (goType : String)
  /-- An error handed up by the HTTP client (`NewRequest`, `SendAndParse`). -/
  | transportError (msg : String)
  /-- A `*resource.TimeoutError` of `WaitForState` (its `LastError` is nil),
  the timeout in seconds. -/
  | timeoutError (lastState : String) (timeout : Nat) (expectedState : List String)
  /-- A `*resource.UnexpectedStateError` of `WaitForState` (its `LastError` is nil). -/
  | unexpectedStateError (state : String) (expectedState : List String)
  /-- A `*resource.NotFoundError` of `WaitForState`. -/
  | notFoundError (retries : Nat)
  /-- A `*json.UnsupportedValueError`: `json.Marshal` met a float it cannot
  write, rendered as `str`. -/
  | jsonUnsupportedValueError (str : String)
  deriving DecidableEq, Repr

/-- The rendering `Duration.String()` of a whole number of seconds. -/
def durationString (secs : Nat) : String :=
  if secs / 3600 > 0 then
    toString (secs / 3600) ++ "h" ++ toString (secs % 3600 / 60) ++ "m" ++
      toString (secs % 60) ++ "s"
  else if secs % 3600 / 60 > 0 then
    toString (secs % 3600 / 60) ++ "m" ++ toString (secs % 60) ++ "s"
  else toString (secs % 60) ++ "s"

/-- The message of a `*resource.TimeoutError` without `LastError`. -/
def timeoutMessage (lastState : String) (timeout : Nat) (expectedState : List String) :
    String :=
  let expected :=
    if expectedState.length > 0 then
      "state to become '" ++ ", ".intercalate expectedState ++ "'"
    else "resource to be gone"
  let extraInfo :=
    (if lastState ≠ "" then ["last state: '" ++ lastState ++ "'"] else []) ++
    (if timeout > 0 then ["timeout: " ++ durationString timeout] else [])
  let suffix := if extraInfo.length > 0 then " (" ++ ", ".intercalate extraInfo ++ ")" else ""
  "timeout while waiting for " ++ expected ++ suffix

/-- The message of an error (`err.Error()`). -/
def GoError.Error : GoError → String
  | .errorString msg => msg
  | .jsonSyntaxError msg _ => msg
  | .jsonUnmarshalTypeError value goType =>
      "json: cannot unmarshal " ++ value ++ " into Go value of type " ++ goType
  | .transportError msg => msg
  | .timeoutError lastState timeout expectedState =>
      timeoutMessage lastState timeout expectedState
  | .unexpectedStateError state expectedState =>
      "unexpected state '" ++ state ++ "', wanted target '" ++
        ", ".intercalate expectedState ++ "'. last error: %!s(<nil>)"
  | .notFoundError retries =>
      if retries > 0 then "couldn't find resource (" ++ toString retries ++ " retries)"
      else "couldn't find resource"
  | .jsonUnsupportedValueError str => "json: unsupported value: " ++ str

/-- Go floating-point values (`float32`, `float64`). `finite mant exp` stands for
the representable value nearest to `mant * 10 ^ exp`; every finite value has
such a form, the rounding itself is not modelled. -/
inductive GoFloat where
  | finite (mant : Int) (exp : Int)
  | posInf
  | negInf
  | nan
  deriving DecidableEq

/-- How a Go call ends: it returns, or a run-time panic unwinds it. -/
inductive Outcome (α : Type) where
  | returned (a : α)
  | panicked (msg : String)
  deriving DecidableEq

/-- Dynamic values held by an `interface{}`. -/
inductive GoValue where
  | nil
  | bool (b : Bool)
  | int (n : Int)
  | float64 (f : GoFloat)
  | string (s : String)
  | slice (l : List GoValue)
  | map (m : List (String × GoValue))

/-- A `map[string]interface{}`: keys are unique, kept in first-insertion order. -/
abbrev GoMap := List (String × GoValue)

/-- The assignment `m[key] = v`. -/
def mapSet (key : String) (v : GoValue) : GoMap → GoMap
  | [] => [(key, v)]
  | (k, w) :: rest => if k = key then (key, v) :: rest else (k, w) :: mapSet key v rest

/-- The index expression `m[key]`: the nil interface for a missing key. -/
def mapIndex (m : GoMap) (key : String) : GoValue :=
  match m.find? (fun kv => kv.1 = key) with
  | some kv => kv.2
  | none => .nil

/-- The comma-ok type assertion `v.(string)`. -/
def GoValue.assertString : GoValue → String × Bool
  | .string s => (s, true)
  | _ => ("", false)

/-- The comma-ok type assertion `v.(int)`. -/
def GoValue.assertInt : GoValue → Int × Bool
  | .int n => (n, true)
  | _ => (0, false)

/-- The comma-ok type assertion `v.(float64)`. -/
def GoValue.assertFloat64 : GoValue → GoFloat × Bool
  | .float64 f => (f, true)
  | _ => (.finite 0 0, false)

/-! ## `api/reservations.go`: the response shape -/

/-- Generic object identifier block. -/
structure Identifier where
  UUID : String := ""
  DisplayName : String := ""
  ClassName : String := ""
  deriving DecidableEq

/-- The unexported `stat` struct of `reservations.go`. -/
structure stat where
  Name : String := ""
  Value : GoFloat := .finite 0 0
  deriving DecidableEq

structure ComputeResource where
  Provider : Identifier := {}
  Stats : List stat := []
  deriving DecidableEq

structure StorageResource where
  Provider : Identifier := {}
  Stats : List stat := []
  /-- Go field `Type` (a reserved word here). -/
  Type_ : String := ""
  deriving DecidableEq

structure Placement where
  ComputeResources : List ComputeResource := []
  StorageResources : List StorageResource := []
  deriving DecidableEq

structure DemandEntity where
  UUID : String := ""
  DisplayName : String := ""
  Template : Identifier := {}
  DeploymentProfile : Identifier := {}
  Placements : Placement := {}
  deriving DecidableEq

structure ReservationResponse where
  UUID : String := ""
  DisplayName : String := ""
  Count : Int := 0
  Status : String := ""
  ReserveDateTime : String := ""
  ExpireDateTime : String := ""
  DeployDateTIme : String := ""
  ReserveCount : Int := 0
  DeployCount : Int := 0
  DemandEntities : List DemandEntity := []
  deriving DecidableEq

/-- What `client.ReadReservation(uuid)` hands back on one call:
`(nil, err)` or `(&response, nil)`. -/
abbrev ReadReservationFn := String → Except GoError ReservationResponse

/-! ## Terraform `schema.ResourceData` -/

/-- Values of the attributes declared in the schemas of the resources and data
sources (`TypeString`, `TypeBool`, `TypeSet` of strings, `TypeFloat`, and a
`TypeSet` of resource blocks, given by the items `schema.NewSet` is built from). -/
inductive AttrValue where
  | str (s : String)
  | bool (b : Bool)
  | strSet (l : List String)
  | float (f : GoFloat)
  | set (items : List GoMap)

/-- The resource state the provider functions write to: the resource ID and
the attributes written so far. -/
structure ResourceData where
  id : String := ""
  attrs : List (String × AttrValue) := []

/-- Replace the entry for `key`, or add one. -/
def setAttr (key : String) (v : AttrValue) :
    List (String × AttrValue) → List (String × AttrValue)
  | [] => [(key, v)]
  | (k, w) :: rest => if k = key then (key, v) :: rest else (k, w) :: setAttr key v rest

/-- Read an attribute: `d.Get(key)` with `none` for a key never set. -/
def ResourceData.Get (d : ResourceData) (key : String) : Option AttrValue :=
  d.attrs.lookup key

/-- The call `d.Set(key, value)` for a key of the schema. -/
def ResourceData.Set (d : ResourceData) (key : String) (v : AttrValue) : ResourceData :=
  { d with attrs := setAttr key v d.attrs }

/-- The call `d.Id()`. -/
def ResourceData.Id (d : ResourceData) : String := d.id

/-! ## `resource_turbo_reservation.go` -/

/-- Go's `%+v` rendering of a `*ReservationResponse` whose `DemandEntities`
slice has length zero (the only place the source renders one). -/
def fmtReservationNoEntities (r : ReservationResponse) : String :=
  "&\x7bUUID:" ++ r.UUID ++ " DisplayName:" ++ r.DisplayName ++
  " Count:" ++ toString r.Count ++ " Status:" ++ r.Status ++
  " ReserveDateTime:" ++ r.ReserveDateTime ++ " ExpireDateTime:" ++ r.ExpireDateTime ++
  " DeployDateTIme:" ++ r.DeployDateTIme ++ " ReserveCount:" ++ toString r.ReserveCount ++
  " DeployCount:" ++ toString r.DeployCount ++ " DemandEntities:[]\x7d"

/-- The error `setResourceDataFromReservation` builds for a response without
demand entities. -/
def malformedResponseError (r : ReservationResponse) : GoError :=
  .errorString ("Reservation response is not in the expected format. \n" ++
    "DemandEnitites is not equal to 1. \n" ++
    "Response: [" ++ fmtReservationNoEntities r ++ "]")

/-- The Go run-time panic of an index expression `s[0]` on an empty slice. -/
def indexPanic : String := "runtime error: index out of range [0] with length 0"

/-- `setResourceDataFromReservation(d, r)`: the new resource state and the
returned error, or the panic of an index expression. -/
def setResourceDataFromReservation (d : ResourceData) (r : ReservationResponse) :
    Outcome (ResourceData × Option GoError) :=
  if r.DemandEntities.length < 1 then
    .returned (d, some (malformedResponseError r))
  else
    match r.DemandEntities[0]? with
    | none => .panicked indexPanic
    | some e =>
      match e.Placements.ComputeResources[0]? with
      | none => .panicked indexPanic
      | some c =>
        let d1 := d.Set "compute_provider" (.str c.Provider.DisplayName)
        match e.Placements.StorageResources[0]? with
        | none => .panicked indexPanic
        | some s =>
          let d2 := d1.Set "storage_provider" (.str s.Provider.DisplayName)
          let d3 := d2.Set "status" (.str r.Status)
          .returned (d3, none)

/-- The three values a `resource.StateRefreshFunc` returns. -/
structure RefreshResult where
  result : Option ReservationResponse
  state : String
  err : Option GoError
  deriving DecidableEq

/-- The error returned for status `PLACEMENT_FAILED`. -/
def placementFailedError : GoError :=
  .errorString
    "reservation unfulfilled, environment does not have resources to place the workload"

/-- The error returned for a status outside the switch:
`fmt.Errorf("%s, unrecognized reservation status", resDetail.Status)`. -/
def unrecognizedStatusError (status : String) : GoError :=
  .errorString (status ++ ", unrecognized reservation status")

/-- One call of the closure returned by `refreshReservation(d, meta)`.
`ReadReservation` is the client method as it answers at this poll. The result
is the returned triple and the resource state after the call. -/
def refreshReservation (d : ResourceData) (ReadReservation : ReadReservationFn) :
    Outcome (RefreshResult × ResourceData) :=
  match ReadReservation d.Id with
  | .error err => .returned (⟨none, "Failed", some err⟩, d)
  | .ok resDetail =>
    if resDetail.Status = "IN_PROGRESS" then
      .returned (⟨some resDetail, resDetail.Status, none⟩, d)
    else if resDetail.Status = "RETRYING" then
      .returned (⟨some resDetail, resDetail.Status, none⟩, d)
    else if resDetail.Status = "FUTURE" then
      .returned (⟨some resDetail, resDetail.Status, none⟩, d)
    else if resDetail.Status = "LOADING" then
      .returned (⟨some resDetail, resDetail.Status, none⟩, d)
    else if resDetail.Status = "UNFULFILLED" then
      .returned (⟨some resDetail, resDetail.Status, none⟩, d)
    else if resDetail.Status = "PLACEMENT_SUCCEEDED" then
      match setResourceDataFromReservation d resDetail with
      | .panicked msg => .panicked msg
      | .returned (d1, _) => .returned (⟨some resDetail, resDetail.Status, none⟩, d1)
    else if resDetail.Status = "RESERVED" then
      match setResourceDataFromReservation d resDetail with
      | .panicked msg => .panicked msg
      | .returned (d1, _) => .returned (⟨some resDetail, resDetail.Status, none⟩, d1)
    else if resDetail.Status = "PLACEMENT_FAILED" then
      .returned (⟨some resDetail, resDetail.Status, some placementFailedError⟩, d)
    else
      .returned (⟨some resDetail, resDetail.Status,
        some (unrecognizedStatusError resDetail.Status)⟩, d)

/-- The fields of `resource.StateChangeConf` that `resourceTurboReservationCreate`
fills in (durations in seconds). -/
structure StateChangeConf where
  Pending : List String
  Target : List String
  Timeout : Nat
  MinTimeout : Nat
  Delay : Nat
  deriving DecidableEq

/-- The wait configuration of `resourceTurboReservationCreate`. -/
def stateConf : StateChangeConf where
  Pending := ["IN_PROGRESS", "LOADING", "RETRYING", "FUTURE", "UNFULFILLED"]
  Target := ["PLACEMENT_SUCCEEDED", "RESERVED"]
  Timeout := 2 * 60
  MinTimeout := 3
  Delay := 5

/-! ## `encoding/json`: documents

The byte-level scanner of `encoding/json` is not embedded. A body is given by
what the scanner makes of the bytes: a syntax error, or the document tree. -/

/-- A JSON number literal. The decoder keeps the literal and converts it on
demand, so the two shapes are kept apart: `int n` is a literal of digits with
an optional minus sign, `dec mant exp` a literal with a fraction or an exponent,
of value `mant * 10 ^ exp`. -/
inductive JNumber where
  | int (n : Int)
  | dec (mant : Int) (exp : Int)
  deriving DecidableEq

/-- The number a literal denotes. -/
def JNumber.toRat : JNumber → ℚ
  | .int n => n
  | .dec mant exp => mant * (10 : ℚ) ^ exp

/-- A JSON document. Object members are kept in document order, duplicates
included; keys and strings are the unquoted texts. -/
inductive JSON where
  | null
  | bool (b : Bool)
  | num (n : JNumber)
  | str (s : String)
  | arr (elems : List JSON)
  | obj (members : List (String × JSON))

/-- The name `json.UnmarshalTypeError` gives to the kind of a JSON value. -/
def JSON.kind : JSON → String
  | .null => "null"
  | .bool _ => "bool"
  | .num _ => "number"
  | .str _ => "string"
  | .arr _ => "array"
  | .obj _ => "object"

/-- A response body `b []byte` as `json.Unmarshal` sees it: `invalid` when
`checkValid` rejects the bytes, `valid doc` when they spell the document `doc`. -/
inductive Body where
  | invalid (msg : String) (offset : Nat)
  | valid (doc : JSON)

/-! ## `encoding/json`: the decoder -/

/-- Magnitudes from here on round to an infinity: halfway between the largest
`float64` and `2 ^ 1024`. -/
def float64Limit : Nat := 2 ^ 1024 - 2 ^ 970

/-- Whether the magnitude of a literal is below `float64Limit`, in integers. -/
def JNumber.inFloat64Range : JNumber → Bool
  | .int n => n.natAbs < float64Limit
  | .dec mant exp =>
    if 0 ≤ exp then mant.natAbs * 10 ^ exp.toNat < float64Limit
    else mant.natAbs < float64Limit * 10 ^ (-exp).toNat

/-- The float a literal in range converts to. -/
def JNumber.toFloat : JNumber → GoFloat
  | .int n => .finite n 0
  | .dec mant exp => .finite mant exp

/-- The call `strconv.ParseFloat(s, 64)` on a JSON number literal: a range error
(`none`) when the value rounds to an infinity. -/
def parseFloat64 (n : JNumber) : Option GoFloat :=
  if n.inFloat64Range then some n.toFloat else none

/-- The call `strconv.ParseInt(s, 10, 64)` on a JSON number literal: it fails on
a fraction or an exponent and outside the 64-bit range. -/
def parseInt64 : JNumber → Option Int
  | .int n => if -2 ^ 63 ≤ n ∧ n < 2 ^ 63 then some n else none
  | .dec _ _ => none

/-- A `json.UnmarshalTypeError` for document `j` met where `goType` is expected.
(The offset, and for numbers the literal's text, are not kept.) -/
def typeError (j : JSON) (goType : String) : GoError :=
  .jsonUnmarshalTypeError j.kind goType

/-- The decoder's `convertNumber`: a number stored into an `interface{}`. -/
def convertNumber (n : JNumber) : Except GoError GoValue :=
  match parseFloat64 n with
  | some f => .ok (.float64 f)
  | none => .error (typeError (.num n) "float64")

mutual
/-- The decoder's `valueInterface`: a document stored into an `interface{}`. -/
def valueInterface : JSON → Except GoError GoValue
  | .null => .ok .nil
  | .bool b => .ok (.bool b)
  | .num n => convertNumber n
  | .str s => .ok (.string s)
  | .arr elems => (arrayInterface elems).map .slice
  | .obj members => (objectInterface [] members).map .map
/-- The decoder's `arrayInterface`. -/
def arrayInterface : List JSON → Except GoError (List GoValue)
  | [] => .ok []
  | j :: rest => do
    let v ← valueInterface j
    let vs ← arrayInterface rest
    pure (v :: vs)
/-- The decoder's `objectInterface`, and its `object` on a
`map[string]interface{}`: members are stored in order into the map `acc`. -/
def objectInterface (acc : GoMap) : List (String × JSON) → Except GoError GoMap
  | [] => .ok acc
  | (k, j) :: rest => do
    let v ← valueInterface j
    objectInterface (mapSet k v acc) rest
end

/-- A document stored into a `string`: `null` leaves the target as it is. -/
def decodeString (j : JSON) (cur : String) : Except GoError String :=
  match j with
  | .null => .ok cur
  | .str s => .ok s
  | other => .error (typeError other "string")

/-- A document stored into an `int`. -/
def decodeInt (j : JSON) (cur : Int) : Except GoError Int :=
  match j with
  | .null => .ok cur
  | .num n =>
    match parseInt64 n with
    | some i => .ok i
    | none => .error (typeError (.num n) "int")
  | other => .error (typeError other "int")

/-- A document stored into a `bool`. -/
def decodeBool (j : JSON) (cur : Bool) : Except GoError Bool :=
  match j with
  | .null => .ok cur
  | .bool b => .ok b
  | other => .error (typeError other "bool")

/-- Case folding of the decoder's key match: ASCII letters, and the two
non-ASCII characters that fold to ASCII (long s U+017F, Kelvin sign U+212A). -/
def foldChar (c : Char) : Char :=
  if 'a'.toNat ≤ c.toNat ∧ c.toNat ≤ 'z'.toNat then Char.ofNat (c.toNat - 32)
  else if c.toNat = 0x017F then 'S'
  else if c.toNat = 0x212A then 'K'
  else c

/-- The decoder's case-insensitive comparison of a field name and a key. -/
def equalFold (name key : String) : Bool :=
  name.data.map foldChar == key.data.map foldChar

/-- The struct field a member key selects: an exact match is preferred, a
case-insensitive one accepted; `none` when the key is skipped. -/
def matchField (fields : List String) (key : String) : Option String :=
  match fields.find? (fun f => f = key) with
  | some f => some f
  | none => fields.find? (fun f => equalFold f key)

/-- The decoder's `object` on a struct with JSON names `fields`: `null` leaves
the struct as it is; the members of an object are taken in order, each stored
into the field its key selects by `setField`, the others skipped. -/
def decodeStruct {α : Type} (goType : String) (fields : List String)
    (setField : String → JSON → α → Except GoError α) (j : JSON) (cur : α) :
    Except GoError α :=
  match j with
  | .null => .ok cur
  | .obj members =>
    members.foldlM (fun acc kv =>
      match matchField fields kv.1 with
      | none => .ok acc
      | some f => setField f kv.2 acc) cur
  | other => .error (typeError other goType)

/-- The elements of a JSON array stored into a slice: element `i` is stored into
the slice's element `i` when there is one, into a zero element otherwise. -/
def decodeElems {α : Type} (zero : α) (decodeElem : JSON → α → Except GoError α) :
    List JSON → List α → Except GoError (List α)
  | [], _ => .ok []
  | j :: js, cur => do
    let e ← decodeElem j (cur.headD zero)
    let es ← decodeElems zero decodeElem js cur.tail
    pure (e :: es)

/-- The decoder's `array` on a slice: `null` makes it nil. (A nil and an empty
slice are both the empty list.) -/
def decodeSlice {α : Type} (goType : String) (zero : α)
    (decodeElem : JSON → α → Except GoError α) (j : JSON) (cur : List α) :
    Except GoError (List α) :=
  match j with
  | .null => .ok []
  | .arr elems => decodeElems zero decodeElem elems cur
  | other => .error (typeError other goType)

/-- The call `json.Unmarshal(b, &v)` for a target decoded by `decode`: on
success the new value of `v`. -/
def jsonUnmarshal {α : Type} (decode : JSON → α → Except GoError α) (b : Body) (v : α) :
    Except GoError α :=
  match b with
  | .invalid msg offset => .error (.jsonSyntaxError msg offset)
  | .valid doc => decode doc v

/-- The decoder on a `map[string]interface{}` target. -/
def decodeMapInterface (j : JSON) (cur : GoMap) : Except GoError GoMap :=
  match j with
  | .null => .ok []
  | .obj members => objectInterface cur members
  | other => .error (typeError other "map[string]interface \x7b\x7d")

/-! ## `api/core.go` -/

structure Link where
  Href : String := ""
  Rel : String := ""
  Templated : Bool := false
  deriving DecidableEq

structure BaseApiDTO where
  ClassName : String := ""
  DisplayName : String := ""
  Links : List Link := []
  UUID : String := ""
  deriving DecidableEq

structure StatFilterApiDTO where
  /-- Go field `Type` (a reserved word here). -/
  Type_ : String := ""
  Value : String := ""
  deriving DecidableEq

structure StatValueApiDTO where
  Avg : Int := 0
  Max : Int := 0
  Min : Int := 0
  Total : Int := 0
  deriving DecidableEq

def ValueInfinity : String := "Infinity"

structure StatApiDTO where
  Capacity : StatValueApiDTO := {}
  ClassName : String := ""
  DisplayName : String := ""
  Filters : List StatFilterApiDTO := []
  Links : List Link := []
  Name : String := ""
  NumRelatedEntities : Int := 0
  RelatedEntity : BaseApiDTO := {}
  RelatedEntityType : String := ""
  Reserved : StatValueApiDTO := {}
  Units : String := ""
  UUID : String := ""
  Value : GoFloat := .finite 0 0
  Values : StatValueApiDTO := {}
  deriving DecidableEq

/-- The decoder on a `Link` (JSON names `href`, `rel`, `templated`). -/
def Link.decode : JSON → Link → Except GoError Link :=
  decodeStruct "api.Link" ["href", "rel", "templated"] (fun f v cur =>
    if f = "href" then (decodeString v cur.Href).map (fun x => { cur with Href := x })
    else if f = "rel" then (decodeString v cur.Rel).map (fun x => { cur with Rel := x })
    else (decodeBool v cur.Templated).map (fun x => { cur with Templated := x }))

/-- The decoder on a `BaseApiDTO` (JSON names `className`, `displayName`,
`links`, `uuid`). -/
def BaseApiDTO.decode : JSON → BaseApiDTO → Except GoError BaseApiDTO :=
  decodeStruct "api.BaseApiDTO" ["className", "displayName", "links", "uuid"] (fun f v cur =>
    if f = "className" then
      (decodeString v cur.ClassName).map (fun x => { cur with ClassName := x })
    else if f = "displayName" then
      (decodeString v cur.DisplayName).map (fun x => { cur with DisplayName := x })
    else if f = "links" then
      (decodeSlice "[]api.Link" {} Link.decode v cur.Links).map (fun x => { cur with Links := x })
    else (decodeString v cur.UUID).map (fun x => { cur with UUID := x }))

/-- The decoder on a `StatFilterApiDTO` (JSON names `type`, `value`). -/
def StatFilterApiDTO.decode : JSON → StatFilterApiDTO → Except GoError StatFilterApiDTO :=
  decodeStruct "api.StatFilterApiDTO" ["type", "value"] (fun f v cur =>
    if f = "type" then (decodeString v cur.Type_).map (fun x => { cur with Type_ := x })
    else (decodeString v cur.Value).map (fun x => { cur with Value := x }))

/-- The decoder on a `StatValueApiDTO` (JSON names `avg`, `max`, `min`, `total`). -/
def StatValueApiDTO.decode : JSON → StatValueApiDTO → Except GoError StatValueApiDTO :=
  decodeStruct "api.StatValueApiDTO" ["avg", "max", "min", "total"] (fun f v cur =>
    if f = "avg" then (decodeInt v cur.Avg).map (fun x => { cur with Avg := x })
    else if f = "max" then (decodeInt v cur.Max).map (fun x => { cur with Max := x })
    else if f = "min" then (decodeInt v cur.Min).map (fun x => { cur with Min := x })
    else (decodeInt v cur.Total).map (fun x => { cur with Total := x }))

/-- The local `tmpJSON` of `UnmarshalJSON`: the embedded, complex types. -/
structure TmpJSON where
  Capacity : StatValueApiDTO := {}
  Filters : List StatFilterApiDTO := []
  Links : List Link := []
  RelatedEntity : BaseApiDTO := {}
  Reserved : StatValueApiDTO := {}
  Values : StatValueApiDTO := {}
  deriving DecidableEq

/-- The decoder on `tmpJSON` (JSON names `capacity`, `filters`, `links`,
`relatedEntity`, `reserved`, `values`). -/
def TmpJSON.decode : JSON → TmpJSON → Except GoError TmpJSON :=
  decodeStruct "struct" ["capacity", "filters", "links", "relatedEntity", "reserved", "values"]
    (fun f v cur =>
      if f = "capacity" then
        (StatValueApiDTO.decode v cur.Capacity).map (fun x => { cur with Capacity := x })
      else if f = "filters" then
        (decodeSlice "[]api.StatFilterApiDTO" {} StatFilterApiDTO.decode v cur.Filters).map
          (fun x => { cur with Filters := x })
      else if f = "links" then
        (decodeSlice "[]api.Link" {} Link.decode v cur.Links).map (fun x => { cur with Links := x })
      else if f = "relatedEntity" then
        (BaseApiDTO.decode v cur.RelatedEntity).map (fun x => { cur with RelatedEntity := x })
      else if f = "reserved" then
        (StatValueApiDTO.decode v cur.Reserved).map (fun x => { cur with Reserved := x })
      else (StatValueApiDTO.decode v cur.Values).map (fun x => { cur with Values := x }))

/-- The local `objJSON` of `UnmarshalJSON`: `Value interface{}`. -/
structure ObjJSON where
  Value : GoValue := .nil

/-- The decoder on `objJSON` (JSON name `value`). -/
def ObjJSON.decode : JSON → ObjJSON → Except GoError ObjJSON :=
  decodeStruct "struct" ["value"] (fun _ v cur =>
    (valueInterface v).map (fun x => { cur with Value := x }))

/-- Lines 87 to 92 of `core.go`: the six nested fields are taken from `tmpJSON`. -/
def StatApiDTO.assignNested (obj : StatApiDTO) (tmpJSON : TmpJSON) : StatApiDTO :=
  { obj with
    Capacity := tmpJSON.Capacity
    Filters := tmpJSON.Filters
    Links := tmpJSON.Links
    RelatedEntity := tmpJSON.RelatedEntity
    Reserved := tmpJSON.Reserved
    Values := tmpJSON.Values }

/-- Lines 100 to 106 of `core.go`: the seven scalar fields are taken from
`objMap` by comma-ok type assertions, whose second result is dropped. -/
def StatApiDTO.assignScalars (obj : StatApiDTO) (objMap : GoMap) : StatApiDTO :=
  { obj with
    ClassName := (mapIndex objMap "className").assertString.1
    DisplayName := (mapIndex objMap "displayName").assertString.1
    Name := (mapIndex objMap "name").assertString.1
    NumRelatedEntities := (mapIndex objMap "numRelatedEntities").assertInt.1
    RelatedEntityType := (mapIndex objMap "relatedEntityType").assertString.1
    Units := (mapIndex objMap "units").assertString.1
    UUID := (mapIndex objMap "uuid").assertString.1 }

/-- Lines 119 to 125 of `core.go`: `Value` is taken from `objJSON.Value` when
that is a `float64`, set to `math.Inf(1)` when it is the string `"Infinity"`,
and not assigned otherwise. -/
def StatApiDTO.assignValue (obj : StatApiDTO) (objJSON : ObjJSON) : StatApiDTO :=
  if objJSON.Value.assertFloat64.2 then
    { obj with Value := objJSON.Value.assertFloat64.1 }
  else if objJSON.Value.assertString.2 then
    if objJSON.Value.assertString.1 = ValueInfinity then
      { obj with Value := .posInf }
    else obj
  else obj

/-- The method `(obj *StatApiDTO) UnmarshalJSON(b []byte) error`: the receiver
after the call, and the returned error. -/
def StatApiDTO.UnmarshalJSON (obj : StatApiDTO) (b : Body) : StatApiDTO × Option GoError :=
  -- temporary struct to unmarshal embedded, complex types
  match jsonUnmarshal TmpJSON.decode b {} with
  | .error jsonDecErr => (obj, some jsonDecErr)
  | .ok tmpJSON =>
    let obj1 := obj.assignNested tmpJSON
    -- the rest of the primitive attributes, through a map
    match jsonUnmarshal decodeMapInterface b [] with
    | .error jsonDecErr => (obj1, some jsonDecErr)
    | .ok objMap =>
      let obj2 := obj1.assignScalars objMap
      -- temporary struct to handle API irregularities
      match jsonUnmarshal ObjJSON.decode b {} with
      | .error jsonDecErr => (obj2, some jsonDecErr)
      | .ok objJSON => (obj2.assignValue objJSON, none)

/-- The document an object holds for the struct field of JSON name `field`, as
the decoder finds it: that of the last member whose key selects the field
(exactly or case-insensitively), `none` when no key does. -/
def heldFor (field : String) : List (String × JSON) → Option JSON
  | [] => none
  | kv :: rest =>
    match heldFor field rest with
    | some j => some j
    | none => if matchField [field] kv.1 = some field then some kv.2 else none

/-- The document an object holds under the key `key` of a
`map[string]interface{}`, where keys are compared exactly: that of the last
member with this key, `none` when there is none. -/
def heldExact (key : String) : List (String × JSON) → Option JSON
  | [] => none
  | kv :: rest =>
    match heldExact key rest with
    | some j => some j
    | none => if kv.1 = key then some kv.2 else none

/-- The string a scalar key stands for: the string it holds, the empty string
when the key is absent or holds a document of another kind. -/
def scalarString (key : String) (members : List (String × JSON)) : String :=
  match heldExact key members with
  | some (.str s) => s
  | _ => ""

/-- No member key selects the struct field `field` among `fields`, neither
exactly nor case-insensitively. -/
def keyMissing (fields : List String) (field : String) (members : List (String × JSON)) :
    Prop :=
  ∀ kv ∈ members, matchField fields kv.1 ≠ some field

instance (fields : List String) (field : String) (members : List (String × JSON)) :
    Decidable (keyMissing fields field members) := by
  unfold keyMissing
  infer_instance

/-- The JSON names of the fields of `tmpJSON`. -/
def nestedFields : List String :=
  ["capacity", "filters", "links", "relatedEntity", "reserved", "values"]

/-! ## `api/reservations.go`: the request shape and the client methods

`api/client.go` is not part of the sources at hand: the constructor `NewRequest`
and the exchange `SendAndParse` are taken as they are given. -/

structure ReservationDeploymentParameter where
  DeploymentProfileID : String := ""
  HighAvailability : Bool := false
  Priority : Bool := false
  deriving DecidableEq

structure ReservationPlacementParameter where
  ConstraintIDs : List String := []
  Count : Int := 0
  EntityNames : List String := []
  GeographicRedundancy : Bool := false
  TemplateID : String := ""
  deriving DecidableEq

structure ReservationParameter where
  DeploymentParameters : ReservationDeploymentParameter := {}
  PlacementParameters : ReservationPlacementParameter := {}
  deriving DecidableEq

structure ReservationCreate where
  Action : String := ""
  DemandName : String := ""
  DeployDateTime : String := ""
  ExpireDateTime : String := ""
  Parameters : List ReservationParameter := []
  ReserveDateTime : String := ""
  deriving DecidableEq

/-- API endpoint for managing reservations. -/
def ReservationsPrefix : String := "reservations"

/-- A string member under `omitempty`. -/
def omitEmptyString (key value : String) : List (String × JSON) :=
  if value = "" then [] else [(key, .str value)]

/-- A boolean member under `omitempty`. -/
def omitEmptyBool (key : String) (value : Bool) : List (String × JSON) :=
  if value then [(key, .bool true)] else []

/-- An integer member under `omitempty`. -/
def omitEmptyInt (key : String) (value : Int) : List (String × JSON) :=
  if value = 0 then [] else [(key, .num (.int value))]

/-- An array member under `omitempty`. -/
def omitEmptyArray (key : String) (elems : List JSON) : List (String × JSON) :=
  if elems.length = 0 then [] else [(key, .arr elems)]

/-- The encoding `json.Marshal` gives a `ReservationDeploymentParameter`. -/
def ReservationDeploymentParameter.toJSON (p : ReservationDeploymentParameter) : JSON :=
  .obj (omitEmptyString "deploymentProfileID" p.DeploymentProfileID ++
    omitEmptyBool "highAvailability" p.HighAvailability ++
    omitEmptyBool "priority" p.Priority)

/-- The encoding `json.Marshal` gives a `ReservationPlacementParameter`. -/
def ReservationPlacementParameter.toJSON (p : ReservationPlacementParameter) : JSON :=
  .obj (omitEmptyArray "constraintIDs" (p.ConstraintIDs.map .str) ++
    omitEmptyInt "count" p.Count ++
    omitEmptyArray "entityNames" (p.EntityNames.map .str) ++
    omitEmptyBool "geographicRedundancy" p.GeographicRedundancy ++
    omitEmptyString "templateID" p.TemplateID)

/-- The encoding `json.Marshal` gives a `ReservationParameter`: a struct member
is never omitted. -/
def ReservationParameter.toJSON (p : ReservationParameter) : JSON :=
  .obj [("deploymentParameters", p.DeploymentParameters.toJSON),
    ("placementParameters", p.PlacementParameters.toJSON)]

/-- The call `json.Marshal(rCreate)`: the encoding of the request, as a
document. No field of a `ReservationCreate` can make it fail. -/
def jsonMarshalReservationCreate (rCreate : ReservationCreate) : Except GoError JSON :=
  .ok (.obj (omitEmptyString "action" rCreate.Action ++
    omitEmptyString "demandName" rCreate.DemandName ++
    omitEmptyString "deployDateTime" rCreate.DeployDateTime ++
    omitEmptyString "expireDateTime" rCreate.ExpireDateTime ++
    omitEmptyArray "parameters" (rCreate.Parameters.map ReservationParameter.toJSON) ++
    omitEmptyString "reserveDateTime" rCreate.ReserveDateTime))

/-- The query of a URL as `url.Values`: the values of each key. -/
abbrev Values := List (String × List String)

/-- The call `v.Set(key, value)`: the key is given this single value,
replacing what it had. -/
def Values.Set (v : Values) (key value : String) : Values :=
  v.filter (fun kv => kv.1 ≠ key) ++ [(key, [value])]

/-- An `*http.Request` as far as the client methods shape it: the method, the
URL without its query, the query, and the body as a document. -/
structure Request where
  Method : String
  URL : String
  Query : Values := []
  Body : Option JSON := none

/-- What the provider does to the outside, in order: the client methods it
calls and the requests that go out. -/
inductive Event where
  | CreateReservation (rCreate : ReservationCreate) (blocking : Bool)
  | ReadReservation (uuid : String)
  | DeleteReservation (uuid : String)
  | sent (req : Request)

/-- The events so far. -/
abbrev Trace := List Event

/-- The UUIDs of the `ReadReservation` calls of a trace, in order. -/
def readsOf : Trace → List String
  | [] => []
  | .ReadReservation uuid :: rest => uuid :: readsOf rest
  | _ :: rest => readsOf rest

/-- The UUIDs of the `DeleteReservation` calls of a trace, in order. -/
def deletesOf : Trace → List String
  | [] => []
  | .DeleteReservation uuid :: rest => uuid :: deletesOf rest
  | _ :: rest => deletesOf rest

/-- The `*api.Client`: its request constructor, and how the remote service
answers a request given all that happened before. -/
structure Client where
  NewRequest : String → String → Option JSON → Except GoError Request
  answer : Trace → Request → Except GoError ReservationResponse

/-- The call `c.SendAndParse(req, &response)`: the request goes out and the
answer is the parsed response or an error. -/
def Client.SendAndParse (c : Client) (req : Request) (t : Trace) :
    Except GoError ReservationResponse × Trace :=
  (c.answer t req, t ++ [.sent req])

/-- The method `(c *Client) DeleteReservation(uuid string) error`. -/
def Client.DeleteReservation (c : Client) (uuid : String) (t : Trace) :
    Option GoError × Trace :=
  let t1 := t ++ [.DeleteReservation uuid]
  match c.NewRequest "DELETE" ("/" ++ ReservationsPrefix ++ "/" ++ uuid) none with
  | .error reqErr => (some reqErr, t1)
  | .ok req =>
    match c.SendAndParse req t1 with
    | (.error sendErr, t2) => (some sendErr, t2)
    | (.ok _, t2) => (none, t2)

/-- The method `(c *Client) ReadReservation(uuid string)
(*ReservationResponse, error)`. The query is parsed and encoded back. -/
def Client.ReadReservation (c : Client) (uuid : String) (t : Trace) :
    Except GoError ReservationResponse × Trace :=
  let t1 := t ++ [.ReadReservation uuid]
  match c.NewRequest "GET" ("/" ++ ReservationsPrefix ++ "/" ++ uuid) none with
  | .error reqErr => (.error reqErr, t1)
  | .ok req =>
    let reqQuery := req.Query
    c.SendAndParse { req with Query := reqQuery } t1

/-- The method `(c *Client) CreateReservation(rCreate *ReservationCreate,
blocking bool) (*ReservationResponse, error)`. -/
def Client.CreateReservation (c : Client) (rCreate : ReservationCreate) (blocking : Bool)
    (t : Trace) : Except GoError ReservationResponse × Trace :=
  let t1 := t ++ [.CreateReservation rCreate blocking]
  match jsonMarshalReservationCreate rCreate with
  | .error jsonEncErr => (.error jsonEncErr, t1)
  | .ok resJSON =>
    match c.NewRequest "POST" ("/" ++ ReservationsPrefix) (some resJSON) with
    | .error reqErr => (.error reqErr, t1)
    | .ok req =>
      let reqQuery :=
        if blocking then req.Query.Set "apiCallBlock" "true"
        else req.Query.Set "apiCallBlock" "false"
      c.SendAndParse { req with Query := reqQuery } t1

/-! ## Terraform `resource.StateChangeConf.WaitForState`

The wait is library code. Time is not modelled: the number `polls` stands for
how many calls of the refresh function complete before `Timeout` has elapsed
(the delays between them only decide that number). -/

/-- The default of `NotFoundChecks`. -/
def defaultNotFoundChecks : Nat := 20

/-- The refresh loop of `WaitForState` with `ContinuousTargetOccurence` at its
default 1: `polls` refreshes are left, `notfoundTick` counts the nil results in a
row, `lastState` is the state of the last result. The outcome is the pair
`WaitForState` returns and the state the refresh function leaves. -/
def waitLoop {σ : Type} (conf : StateChangeConf)
    (refresh : σ → Outcome (RefreshResult × σ)) :
    Nat → Nat → String → σ →
      Outcome ((Option ReservationResponse × Option GoError) × σ)
  | 0, _, lastState, st =>
    .returned ((none, some (.timeoutError lastState conf.Timeout conf.Target)), st)
  | polls + 1, notfoundTick, _, st =>
    match refresh st with
    | .panicked msg => .panicked msg
    | .returned (res, st1) =>
      match res.err with
      | some err => .returned ((res.result, some err), st1)
      | none =>
        match res.result with
        | none =>
          if conf.Target.length = 0 then .returned ((none, none), st1)
          else if notfoundTick + 1 > defaultNotFoundChecks then
            .returned ((none, some (.notFoundError (notfoundTick + 1))), st1)
          else waitLoop conf refresh polls (notfoundTick + 1) res.state st1
        | some result =>
          if res.state ∈ conf.Target then .returned ((some result, none), st1)
          else if res.state ∈ conf.Pending then waitLoop conf refresh polls 0 res.state st1
          else if conf.Pending.length > 0 then
            .returned ((some result,
              some (.unexpectedStateError res.state conf.Target)), st1)
          else waitLoop conf refresh polls 0 res.state st1

/-- The call `conf.WaitForState()` when `polls` refreshes fit into the timeout. -/
def WaitForState {σ : Type} (conf : StateChangeConf)
    (refresh : σ → Outcome (RefreshResult × σ)) (polls : Nat) (st : σ) :
    Outcome ((Option ReservationResponse × Option GoError) × σ) :=
  waitLoop conf refresh polls 0 "" st

/-! ## `resource_turbo_reservation.go`: create and delete -/

/-- The call `d.SetId(id)`. -/
def ResourceData.SetId (d : ResourceData) (id : String) : ResourceData :=
  { d with id := id }

/-- The call `d.GetOk(key)` followed by `attr.(string)` on a `TypeString`
attribute: the string when it is set and not empty. -/
def ResourceData.GetOkString (d : ResourceData) (key : String) : Option String :=
  match d.Get key with
  | some (.str s) => if s = "" then none else some s
  | _ => none

/-- The call `d.GetOk(key)` followed by `convertStringSet(attr.(*schema.Set))` on
the `TypeSet` attribute: the elements, in the order of `set.List()`, when the
set is not empty. -/
def ResourceData.GetOkStringSet (d : ResourceData) (key : String) : Option (List String) :=
  match d.Get key with
  | some (.strSet l) => if l.length = 0 then none else some l
  | _ => none

/-- The call `d.Get(key).(bool)` on a `TypeBool` attribute of default `false`. -/
def ResourceData.GetBool (d : ResourceData) (key : String) : Bool :=
  match d.Get key with
  | some (.bool b) => b
  | _ => false

/-- The request `resourceTurboReservationCreate` builds from the configuration
(lines 167 to 211). -/
def buildReservationCreate (d : ResourceData) : ReservationCreate :=
  let action := (d.GetOkString "action").getD ""
  let resDepParam : ReservationDeploymentParameter :=
    { DeploymentProfileID := (d.GetOkString "deployment_profile_id").getD "" }
  let resPlcParam : ReservationPlacementParameter :=
    match d.GetOkString "entity_name" with
    | some name => { EntityNames := [name], Count := 1 }
    | none => {}
  let demandName := (d.GetOkString "entity_name").getD ""
  let resPlcParam1 : ReservationPlacementParameter :=
    { resPlcParam with TemplateID := (d.GetOkString "template_id").getD "" }
  let reserve := (d.GetOkString "reservation_reserve_time").getD ""
  let expire := (d.GetOkString "reservation_expire_time").getD ""
  let resPlcParam2 : ReservationPlacementParameter :=
    { resPlcParam1 with ConstraintIDs := (d.GetOkStringSet "constraint_ids").getD [] }
  { Action := action
    DemandName := demandName
    ExpireDateTime := expire
    ReserveDateTime := reserve
    Parameters :=
      [{ PlacementParameters := resPlcParam2, DeploymentParameters := resDepParam }] }

/-- One call of the refresh function `refreshReservation(d, meta)` during the
wait: the status read goes through the client, which extends the trace. -/
def refreshStep (client : Client) (st : ResourceData × Trace) :
    Outcome (RefreshResult × (ResourceData × Trace)) :=
  match refreshReservation st.1 (fun uuid => (client.ReadReservation uuid st.2).1) with
  | .panicked msg => .panicked msg
  | .returned (res, d1) => .returned (res, (d1, (client.ReadReservation st.1.Id st.2).2))

/-- The error `resourceTurboReservationCreate` returns for a failed wait:
`fmt.Errorf("error waiting for turbonomic reservation id: %s Error: %s",
res.UUID, err)`. -/
def waitFailure (uuid : String) (err : GoError) : GoError :=
  .errorString ("error waiting for turbonomic reservation id: " ++ uuid ++ " Error: " ++
    err.Error)

/-- The function `resourceTurboReservationCreate(d, meta)`, with `client` for
`meta.(*api.Client)` and `polls` refreshes fitting into the timeout of the wait:
the resource data and the returned error, and the trace. -/
def resourceTurboReservationCreate (d : ResourceData) (client : Client) (polls : Nat)
    (t : Trace) : Outcome ((ResourceData × Option GoError) × Trace) :=
  let resCreate := buildReservationCreate d
  match client.CreateReservation resCreate (d.GetBool "reservation_blocking_req") t with
  | (.error err, t1) => .returned ((d, some err), t1)
  | (.ok res, t1) =>
    let d1 := d.SetId res.UUID
    -- Wait for the Reservation resource to be ready
    match WaitForState stateConf (refreshStep client) polls (d1, t1) with
    | .panicked msg => .panicked msg
    | .returned ((_, none), (d2, t2)) => .returned ((d2, none), t2)
    | .returned ((_, some err), (d2, t2)) =>
      let t3 := (client.DeleteReservation res.UUID t2).2
      .returned ((d2.SetId "", some (waitFailure res.UUID err)), t3)

/-- The function `resourceTurboReservationDelete(d, meta)`: the returned error
and the trace. -/
def resourceTurboReservationDelete (d : ResourceData) (client : Client) (t : Trace) :
    Option GoError × Trace :=
  match client.ReadReservation d.Id t with
  | (.ok _, t1) => client.DeleteReservation d.Id t1
  | (.error _, t1) => (none, t1)

/-- The first status reads for `uuid`, from trace `t` on, succeed with the
responses `rs`, in this order. -/
def ReadsAnswer (client : Client) (uuid : String) : Trace → List ReservationResponse → Prop
  | _, [] => True
  | t, r :: rest =>
    (client.ReadReservation uuid t).1 = .ok r ∧
      ReadsAnswer client uuid (client.ReadReservation uuid t).2 rest

/-- The result of an outcome, whatever the second component. -/
def Outcome.result {α β : Type} : Outcome (α × β) → Outcome α
  | .returned (a, _) => .returned a
  | .panicked msg => .panicked msg

/-! ## `resource_turbo_template.go`: helpers -/

/-- The call `strings.HasPrefix(s, pre)`. -/
def stringsHasPrefix (s pre : String) : Bool :=
  pre.data.isPrefixOf s.data

/-- The function `diffSuppressTemplateClassName(k, old, new, d)`. -/
def diffSuppressTemplateClassName (_k old new : String) (_d : ResourceData) : Bool :=
  stringsHasPrefix old new

/-- The function `mapstructToStatApiDTO(m)`. -/
def mapstructToStatApiDTO (m : GoMap) : StatApiDTO :=
  let obj : StatApiDTO := {}
  let obj1 : StatApiDTO :=
    if !(mapIndex m "name").assertString.2 then { obj with Name := "" }
    else { obj with Name := (mapIndex m "name").assertString.1 }
  let obj2 : StatApiDTO :=
    if !(mapIndex m "units").assertString.2 then { obj1 with Units := "" }
    else { obj1 with Units := (mapIndex m "units").assertString.1 }
  let obj3 : StatApiDTO :=
    if !(mapIndex m "value").assertFloat64.2 then { obj2 with Value := .finite 0 0 }
    else { obj2 with Value := (mapIndex m "value").assertFloat64.1 }
  obj3

/-- The function `statApiDTOToMapstruct(obj)`. -/
def statApiDTOToMapstruct (obj : StatApiDTO) : GoMap :=
  [("name", .string obj.Name), ("units", .string obj.Units), ("value", .float64 obj.Value)]

/-! ## `api/core.go`, `api/deployment_profiles.go`, `api/templates.go`: the shapes -/

structure NameValueInputDTO where
  Name : String := ""
  Value : String := ""
  deriving DecidableEq

structure ResourceApiDTO where
  Provider : BaseApiDTO := {}
  Stats : List StatApiDTO := []
  Template : String := ""
  /-- Go field `Type` (a reserved word here). -/
  Type_ : String := ""
  deriving DecidableEq

structure DeploymentProfileParamApiDTO where
  ParameterType : String := ""
  Properties : List NameValueInputDTO := []
  deriving DecidableEq

structure DeploymentProfileProviderApiDTO where
  Parameters : List DeploymentProfileParamApiDTO := []
  Provider : BaseApiDTO := {}
  deriving DecidableEq

structure DeploymentProfileTargetApiDTO where
  Providers : List DeploymentProfileProviderApiDTO := []
  TargetType : String := ""
  deriving DecidableEq

structure DeploymentProfileApiDTO where
  Account : BaseApiDTO := {}
  ClassName : String := ""
  DeployParameters : List DeploymentProfileTargetApiDTO := []
  DisplayName : String := ""
  Links : List Link := []
  UUID : String := ""
  deriving DecidableEq

/-- Deployment profile provider definition used as input to the POST and PUT
endpoints. -/
structure DeploymentProfileProviderApiInputDTO where
  Parameters : List DeploymentProfileParamApiDTO := []
  ProviderId : String := ""
  deriving DecidableEq

/-- Deployment profile target definition used as input to the POST and PUT
endpoints. -/
structure DeploymentProfileTargetApiInputDTO where
  Providers : List DeploymentProfileProviderApiInputDTO := []
  TargetType : String := ""
  deriving DecidableEq

/-- Template definition used as input to the POST and PUT endpoints. -/
structure TemplateApiInputDTO where
  ClassName : String := ""
  CmdWithArgs : String := ""
  ComputeResources : List ResourceApiDTO := []
  DeploymentProfileId : String := ""
  Description : String := ""
  DisplayName : String := ""
  Image : String := ""
  ImageTag : String := ""
  InfrastructureResources : List ResourceApiDTO := []
  NetworkResources : List ResourceApiDTO := []
  Price : GoFloat := .finite 0 0
  StorageResources : List ResourceApiDTO := []
  Vendor : String := ""
  deriving DecidableEq

/-- Template definition used as output from the endpoints. -/
structure TemplateApiDTO where
  ClassName : String := ""
  CmdWithArgs : String := ""
  ComputeResources : List ResourceApiDTO := []
  DbEdition : String := ""
  DbEngine : String := ""
  DeploymentProfile : DeploymentProfileApiDTO := {}
  Description : String := ""
  Discovered : Bool := false
  DisplayName : String := ""
  Image : String := ""
  ImageTag : String := ""
  InfrastructureResources : List ResourceApiDTO := []
  Links : List Link := []
  Model : String := ""
  NetworkResources : List ResourceApiDTO := []
  Price : GoFloat := .finite 0 0
  StorageResources : List ResourceApiDTO := []
  UUID : String := ""
  Vendor : String := ""
  deriving DecidableEq

/-! ## `encoding/json`: the encoder and the decoders of the shapes

`json.Marshal` is given by the document its output spells; the bytes themselves,
and with them the escaping of strings, are not kept. -/

/-- Whether a float is the zero value, which `omitempty` leaves out. -/
def GoFloat.isZero : GoFloat → Bool
  | .finite mant _ => decide (mant = 0)
  | _ => false

/-- The comparison `a == b` of two floats, decided on the decimals they are given
by: the same number is the same float, and `NaN` differs from every float. -/
def GoFloat.eq : GoFloat → GoFloat → Bool
  | .finite m1 e1, .finite m2 e2 =>
    decide (m1 * 10 ^ (e1 - min e1 e2).toNat = m2 * 10 ^ (e2 - min e1 e2).toNat)
  | .posInf, .posInf => true
  | .negInf, .negInf => true
  | _, _ => false

/-- The literal the encoder writes for a finite float. `strconv` writes the
shortest decimal that parses back to the float; here, where rounding is not
modelled, it is the decimal the float is given by, digits alone when that is an
integer. -/
def formatFloat (mant exp : Int) : JNumber :=
  if exp = 0 then .int mant else .dec mant exp

/-- The encoder on a `float64`: an `UnsupportedValueError` for an infinity or
`NaN`. -/
def marshalFloat : GoFloat → Except GoError JSON
  | .finite mant exp => .ok (.num (formatFloat mant exp))
  | .posInf => .error (.jsonUnsupportedValueError "+Inf")
  | .negInf => .error (.jsonUnsupportedValueError "-Inf")
  | .nan => .error (.jsonUnsupportedValueError "NaN")

/-- A float member under `omitempty`. -/
def omitEmptyFloat (key : String) (value : GoFloat) : Except GoError (List (String × JSON)) :=
  if value.isZero then .ok [] else (marshalFloat value).map (fun j => [(key, j)])

/-- The encoder on the elements of a slice, in order: the first error ends it. -/
def marshalElems {α : Type} (enc : α → Except GoError JSON) :
    List α → Except GoError (List JSON)
  | [] => .ok []
  | x :: rest => do
    let j ← enc x
    let js ← marshalElems enc rest
    pure (j :: js)

/-- The encoding `json.Marshal` gives a `Link`. -/
def Link.toJSON (l : Link) : JSON :=
  .obj (omitEmptyString "href" l.Href ++
    omitEmptyString "rel" l.Rel ++
    [("templated", .bool l.Templated)])

/-- The encoding `json.Marshal` gives a `BaseApiDTO`. -/
def BaseApiDTO.toJSON (obj : BaseApiDTO) : JSON :=
  .obj (omitEmptyString "className" obj.ClassName ++
    omitEmptyString "displayName" obj.DisplayName ++
    omitEmptyArray "links" (obj.Links.map Link.toJSON) ++
    omitEmptyString "uuid" obj.UUID)

/-- The encoding `json.Marshal` gives a `NameValueInputDTO`. -/
def NameValueInputDTO.toJSON (obj : NameValueInputDTO) : JSON :=
  .obj (omitEmptyString "name" obj.Name ++
    omitEmptyString "value" obj.Value)

/-- The encoding `json.Marshal` gives a `StatFilterApiDTO`. -/
def StatFilterApiDTO.toJSON (obj : StatFilterApiDTO) : JSON :=
  .obj (omitEmptyString "type" obj.Type_ ++
    omitEmptyString "value" obj.Value)

/-- The encoding `json.Marshal` gives a `StatValueApiDTO`. -/
def StatValueApiDTO.toJSON (obj : StatValueApiDTO) : JSON :=
  .obj (omitEmptyInt "avg" obj.Avg ++
    omitEmptyInt "max" obj.Max ++
    omitEmptyInt "min" obj.Min ++
    omitEmptyInt "total" obj.Total)

/-- The members `json.Marshal` writes for a `StatApiDTO`, given the member of its
`Value`. A struct member is never omitted. -/
def statMembers (obj : StatApiDTO) (value : List (String × JSON)) : List (String × JSON) :=
  [("capacity", obj.Capacity.toJSON)] ++
    omitEmptyString "className" obj.ClassName ++
    omitEmptyString "displayName" obj.DisplayName ++
    omitEmptyArray "filters" (obj.Filters.map StatFilterApiDTO.toJSON) ++
    omitEmptyArray "links" (obj.Links.map Link.toJSON) ++
    omitEmptyString "name" obj.Name ++
    omitEmptyInt "numRelatedEntities" obj.NumRelatedEntities ++
    [("relatedEntity", obj.RelatedEntity.toJSON)] ++
    omitEmptyString "relatedEntityType" obj.RelatedEntityType ++
    [("reserved", obj.Reserved.toJSON)] ++
    omitEmptyString "units" obj.Units ++
    omitEmptyString "uuid" obj.UUID ++
    value ++
    [("values", obj.Values.toJSON)]

/-- The encoding `json.Marshal` gives a `StatApiDTO` (the type has no
`MarshalJSON`): it fails on a `Value` that is not finite. -/
def StatApiDTO.toJSON (obj : StatApiDTO) : Except GoError JSON := do
  let value ← omitEmptyFloat "value" obj.Value
  pure (.obj (statMembers obj value))

/-- The members `json.Marshal` writes for a `ResourceApiDTO`, given the encodings
of its stats. -/
def resourceMembers (obj : ResourceApiDTO) (stats : List JSON) : List (String × JSON) :=
  [("provider", obj.Provider.toJSON)] ++
    omitEmptyArray "stats" stats ++
    omitEmptyString "template" obj.Template ++
    omitEmptyString "type" obj.Type_

/-- The encoding `json.Marshal` gives a `ResourceApiDTO`. -/
def ResourceApiDTO.toJSON (obj : ResourceApiDTO) : Except GoError JSON := do
  let stats ← marshalElems StatApiDTO.toJSON obj.Stats
  pure (.obj (resourceMembers obj stats))

/-- The encoding `json.Marshal` gives a `DeploymentProfileParamApiDTO`. -/
def DeploymentProfileParamApiDTO.toJSON (obj : DeploymentProfileParamApiDTO) : JSON :=
  .obj (omitEmptyString "parameterType" obj.ParameterType ++
    omitEmptyArray "properties" (obj.Properties.map NameValueInputDTO.toJSON))

/-- The encoding `json.Marshal` gives a `DeploymentProfileProviderApiDTO`. -/
def DeploymentProfileProviderApiDTO.toJSON (obj : DeploymentProfileProviderApiDTO) : JSON :=
  .obj (omitEmptyArray "parameters" (obj.Parameters.map DeploymentProfileParamApiDTO.toJSON) ++
    [("provider", obj.Provider.toJSON)])

/-- The encoding `json.Marshal` gives a `DeploymentProfileTargetApiDTO`. -/
def DeploymentProfileTargetApiDTO.toJSON (obj : DeploymentProfileTargetApiDTO) : JSON :=
  .obj (omitEmptyArray "providers" (obj.Providers.map DeploymentProfileProviderApiDTO.toJSON) ++
    omitEmptyString "targetType" obj.TargetType)

/-- The encoding `json.Marshal` gives a `DeploymentProfileApiDTO`. -/
def DeploymentProfileApiDTO.toJSON (obj : DeploymentProfileApiDTO) : JSON :=
  .obj ([("account", obj.Account.toJSON)] ++
    omitEmptyString "className" obj.ClassName ++
    omitEmptyArray "deployParameters"
      (obj.DeployParameters.map DeploymentProfileTargetApiDTO.toJSON) ++
    omitEmptyString "displayName" obj.DisplayName ++
    omitEmptyArray "links" (obj.Links.map Link.toJSON) ++
    omitEmptyString "uuid" obj.UUID)

/-- The members `json.Marshal` writes for a `TemplateApiDTO`, given the
encodings of its four resource lists and the member of its price. -/
def templateMembers (obj : TemplateApiDTO) (computeResources infrastructureResources
    networkResources : List JSON) (price : List (String × JSON))
    (storageResources : List JSON) : List (String × JSON) :=
  omitEmptyString "className" obj.ClassName ++
    omitEmptyString "cmdWithArgs" obj.CmdWithArgs ++
    omitEmptyArray "computeResources" computeResources ++
    omitEmptyString "dbEdition" obj.DbEdition ++
    omitEmptyString "dbEngine" obj.DbEngine ++
    [("deploymentProfile", obj.DeploymentProfile.toJSON)] ++
    omitEmptyString "description" obj.Description ++
    [("discovered", .bool obj.Discovered)] ++
    omitEmptyString "displayName" obj.DisplayName ++
    omitEmptyString "image" obj.Image ++
    omitEmptyString "imageTag" obj.ImageTag ++
    omitEmptyArray "infrastructureResources" infrastructureResources ++
    omitEmptyArray "links" (obj.Links.map Link.toJSON) ++
    omitEmptyString "model" obj.Model ++
    omitEmptyArray "networkResources" networkResources ++
    price ++
    omitEmptyArray "storageResources" storageResources ++
    omitEmptyString "uuid" obj.UUID ++
    omitEmptyString "vendor" obj.Vendor

/-- The encoding `json.Marshal` gives a `TemplateApiDTO`: the fields are written
in the order of the declaration, and the first float that is not finite ends the
call with its error. -/
def TemplateApiDTO.toJSON (obj : TemplateApiDTO) : Except GoError JSON := do
  let computeResources ← marshalElems ResourceApiDTO.toJSON obj.ComputeResources
  let infrastructureResources ← marshalElems ResourceApiDTO.toJSON obj.InfrastructureResources
  let networkResources ← marshalElems ResourceApiDTO.toJSON obj.NetworkResources
  let price ← omitEmptyFloat "price" obj.Price
  let storageResources ← marshalElems ResourceApiDTO.toJSON obj.StorageResources
  pure (.obj (templateMembers obj computeResources infrastructureResources networkResources
    price storageResources))

/-- A document stored into a `float64`. -/
def decodeFloat64 (j : JSON) (cur : GoFloat) : Except GoError GoFloat :=
  match j with
  | .null => .ok cur
  | .num n =>
    match parseFloat64 n with
    | some f => .ok f
    | none => .error (typeError (.num n) "float64")
  | other => .error (typeError other "float64")

/-- The decoder on a `NameValueInputDTO` (JSON names `name`, `value`). -/
def NameValueInputDTO.decode : JSON → NameValueInputDTO → Except GoError NameValueInputDTO :=
  decodeStruct "api.NameValueInputDTO" ["name", "value"] (fun f v cur =>
    if f = "name" then (decodeString v cur.Name).map (fun x => { cur with Name := x })
    else (decodeString v cur.Value).map (fun x => { cur with Value := x }))

/-- The decoder on a `DeploymentProfileParamApiDTO` (JSON names `parameterType`,
`properties`). -/
def DeploymentProfileParamApiDTO.decode :
    JSON → DeploymentProfileParamApiDTO → Except GoError DeploymentProfileParamApiDTO :=
  decodeStruct "api.DeploymentProfileParamApiDTO" ["parameterType", "properties"]
    (fun f v cur =>
      if f = "parameterType" then
        (decodeString v cur.ParameterType).map (fun x => { cur with ParameterType := x })
      else
        (decodeSlice "[]api.NameValueInputDTO" {} NameValueInputDTO.decode v cur.Properties).map
          (fun x => { cur with Properties := x }))

/-- The decoder on a `DeploymentProfileProviderApiInputDTO` (JSON names
`parameters`, `providerId`). -/
def DeploymentProfileProviderApiInputDTO.decode : JSON →
    DeploymentProfileProviderApiInputDTO → Except GoError DeploymentProfileProviderApiInputDTO :=
  decodeStruct "api.DeploymentProfileProviderApiInputDTO" ["parameters", "providerId"]
    (fun f v cur =>
      if f = "parameters" then
        (decodeSlice "[]api.DeploymentProfileParamApiDTO" {} DeploymentProfileParamApiDTO.decode
          v cur.Parameters).map (fun x => { cur with Parameters := x })
      else (decodeString v cur.ProviderId).map (fun x => { cur with ProviderId := x }))

/-- The decoder on a `StatApiDTO`: the type has an `UnmarshalJSON`, which is
called on the document, `null` included. -/
def StatApiDTO.decode (j : JSON) (cur : StatApiDTO) : Except GoError StatApiDTO :=
  match cur.UnmarshalJSON (.valid j) with
  | (obj, none) => .ok obj
  | (_, some err) => .error err

/-- The decoder on a `ResourceApiDTO` (JSON names `provider`, `stats`, `template`,
`type`). -/
def ResourceApiDTO.decode : JSON → ResourceApiDTO → Except GoError ResourceApiDTO :=
  decodeStruct "api.ResourceApiDTO" ["provider", "stats", "template", "type"] (fun f v cur =>
    if f = "provider" then
      (BaseApiDTO.decode v cur.Provider).map (fun x => { cur with Provider := x })
    else if f = "stats" then
      (decodeSlice "[]api.StatApiDTO" {} StatApiDTO.decode v cur.Stats).map
        (fun x => { cur with Stats := x })
    else if f = "template" then
      (decodeString v cur.Template).map (fun x => { cur with Template := x })
    else (decodeString v cur.Type_).map (fun x => { cur with Type_ := x }))

/-- The decoder on a slice of `ResourceApiDTO`. -/
def decodeResources (j : JSON) (cur : List ResourceApiDTO) :
    Except GoError (List ResourceApiDTO) :=
  decodeSlice "[]api.ResourceApiDTO" {} ResourceApiDTO.decode j cur

/-- The JSON names of the fields of a `TemplateApiInputDTO`. -/
def templateInputFields : List String :=
  ["className", "cmdWithArgs", "computeResources", "deploymentProfileId", "description",
    "displayName", "image", "imageTag", "infrastructureResources", "networkResources", "price",
    "storageResources", "vendor"]

/-- The decoder on a `TemplateApiInputDTO`. -/
def TemplateApiInputDTO.decode : JSON → TemplateApiInputDTO → Except GoError TemplateApiInputDTO :=
  decodeStruct "api.TemplateApiInputDTO" templateInputFields (fun f v cur =>
    if f = "className" then
      (decodeString v cur.ClassName).map (fun x => { cur with ClassName := x })
    else if f = "cmdWithArgs" then
      (decodeString v cur.CmdWithArgs).map (fun x => { cur with CmdWithArgs := x })
    else if f = "computeResources" then
      (decodeResources v cur.ComputeResources).map (fun x => { cur with ComputeResources := x })
    else if f = "deploymentProfileId" then
      (decodeString v cur.DeploymentProfileId).map
        (fun x => { cur with DeploymentProfileId := x })
    else if f = "description" then
      (decodeString v cur.Description).map (fun x => { cur with Description := x })
    else if f = "displayName" then
      (decodeString v cur.DisplayName).map (fun x => { cur with DisplayName := x })
    else if f = "image" then
      (decodeString v cur.Image).map (fun x => { cur with Image := x })
    else if f = "imageTag" then
      (decodeString v cur.ImageTag).map (fun x => { cur with ImageTag := x })
    else if f = "infrastructureResources" then
      (decodeResources v cur.InfrastructureResources).map
        (fun x => { cur with InfrastructureResources := x })
    else if f = "networkResources" then
      (decodeResources v cur.NetworkResources).map (fun x => { cur with NetworkResources := x })
    else if f = "price" then
      (decodeFloat64 v cur.Price).map (fun x => { cur with Price := x })
    else if f = "storageResources" then
      (decodeResources v cur.StorageResources).map (fun x => { cur with StorageResources := x })
    else (decodeString v cur.Vendor).map (fun x => { cur with Vendor := x }))

/-- What the decoder stores into a `Price` that is zero from the member a finite
float `mant * 10 ^ exp` contributes under `omitempty`: zero when the member is
left out, what the literal parses to otherwise. -/
def priceOf (mant exp : Int) : Except GoError GoFloat :=
  if mant = 0 then .ok (.finite 0 0)
  else decodeFloat64 (.num (formatFloat mant exp)) (.finite 0 0)

/-- The input form read back from the encoding of the template `t`, given what
the decoders of its four resource lists and of its price return: the first
error among these, in the order of the members, or the strings of `t` with the
decoded lists and price. -/
def templateDecoded (t : TemplateApiDTO)
    (computeResources infrastructureResources networkResources :
      Except GoError (List ResourceApiDTO))
    (price : Except GoError GoFloat) (storageResources : Except GoError (List ResourceApiDTO)) :
    Except GoError TemplateApiInputDTO :=
  match computeResources with
  | .error e => .error e
  | .ok xc =>
    match infrastructureResources with
    | .error e => .error e
    | .ok xi =>
      match networkResources with
      | .error e => .error e
      | .ok xn =>
        match price with
        | .error e => .error e
        | .ok xp =>
          match storageResources with
          | .error e => .error e
          | .ok xs =>
            .ok { ClassName := t.ClassName, CmdWithArgs := t.CmdWithArgs, ComputeResources := xc,
                  Description := t.Description, DisplayName := t.DisplayName, Image := t.Image,
                  ImageTag := t.ImageTag, InfrastructureResources := xi,
                  NetworkResources := xn, Price := xp, StorageResources := xs,
                  Vendor := t.Vendor }

/-- Whether a float is neither an infinity nor `NaN`. -/
def GoFloat.isFinite : GoFloat → Bool
  | .finite _ _ => true
  | _ => false

/-- Some stat of some resource of the list has a `Value` that is not finite. -/
def hasNonFiniteStat (resources : List ResourceApiDTO) : Bool :=
  resources.any (fun res => res.Stats.any (fun stat => !stat.Value.isFinite))

/-- The template holds a float that is not finite: its `Price`, or the `Value` of
some stat in its compute, infrastructure, network or storage resources. -/
def TemplateApiDTO.containsNonFiniteFloat (t : TemplateApiDTO) : Bool :=
  !t.Price.isFinite || hasNonFiniteStat t.ComputeResources ||
    hasNonFiniteStat t.InfrastructureResources || hasNonFiniteStat t.NetworkResources ||
    hasNonFiniteStat t.StorageResources

/-- Whether an integer is one an `int` holds (64 bits). -/
def inInt64 (n : Int) : Bool := decide (-2 ^ 63 ≤ n ∧ n < 2 ^ 63)

/-- Whether a float is one a `float64` holds: an infinity, `NaN`, or a decimal
that does not round to an infinity. -/
def GoFloat.inRange : GoFloat → Bool
  | .finite mant exp => (formatFloat mant exp).inFloat64Range
  | _ => true

/-- Whether the integers of a `StatValueApiDTO` are ones an `int` holds. -/
def StatValueApiDTO.Representable (v : StatValueApiDTO) : Bool :=
  inInt64 v.Avg && inInt64 v.Max && inInt64 v.Min && inInt64 v.Total

/-- Whether the numbers of a `StatApiDTO` are ones the Go types hold. -/
def StatApiDTO.Representable (s : StatApiDTO) : Bool :=
  s.Capacity.Representable && inInt64 s.NumRelatedEntities && s.Reserved.Representable &&
    s.Value.inRange && s.Values.Representable

/-- Whether the numbers of the stats of a resource list are ones the Go types hold. -/
def representableResources (resources : List ResourceApiDTO) : Bool :=
  resources.all (fun res => res.Stats.all StatApiDTO.Representable)

/-- Whether the numbers of a template are ones the Go types hold. Every value a
Go program builds meets this; the unbounded numbers used here need it said. -/
def TemplateApiDTO.Representable (t : TemplateApiDTO) : Bool :=
  t.Price.inRange && representableResources t.ComputeResources &&
    representableResources t.InfrastructureResources &&
    representableResources t.NetworkResources && representableResources t.StorageResources

/-- Two stats agree in `Name`, `Units` and `Value`. -/
def SameStat (a b : StatApiDTO) : Prop :=
  a.Name = b.Name ∧ a.Units = b.Units ∧ GoFloat.eq a.Value b.Value = true

/-- Two resource lists hold the same stats in the same order: as many
resources, each with as many stats, which agree in `Name`, `Units` and `Value`. -/
def SameStats (result source : List ResourceApiDTO) : Prop :=
  List.Forall₂ (fun r s => List.Forall₂ SameStat r.Stats s.Stats) result source

/-- Every member of the list converts into an `interface{}`. -/
def Converts (members : List (String × JSON)) : Prop :=
  ∀ kv ∈ members, ∃ v, valueInterface kv.2 = .ok v

/-! ## `api/deployment_profiles.go` and `api/templates.go`: the conversions

A pointer receiver is an `Option`, `none` for `nil`. The bytes `json.Marshal`
returns are handed to `json.Unmarshal` as the document they spell. -/

/-- The method `(obj *DeploymentProfileProviderApiDTO)
DeploymentProfileProviderApiInputDTO()`. -/
def DeploymentProfileProviderApiDTO.DeploymentProfileProviderApiInputDTO :
    Option DeploymentProfileProviderApiDTO →
      Except GoError (Option DeploymentProfileProviderApiInputDTO)
  | none => .ok none
  | some obj =>
    -- no field of the provider can make `json.Marshal` fail
    let objJSONBytes := obj.toJSON
    match jsonUnmarshal DeploymentProfileProviderApiInputDTO.decode (.valid objJSONBytes) {} with
    | .error jsonDecErr => .error jsonDecErr
    | .ok inObj =>
      -- edge cases
      .ok (some { inObj with ProviderId := obj.Provider.UUID })

/-- The loop of `DeploymentProfileTargetApiInputDTO` over the providers still to
convert: each provider is converted and the result stored at its index; a
conversion error ends the call, a nil result would be dereferenced. -/
def convertProviders :
    List DeploymentProfileProviderApiDTO →
      Outcome (Except GoError (List DeploymentProfileProviderApiInputDTO))
  | [] => .returned (.ok [])
  | val :: rest =>
    match DeploymentProfileProviderApiDTO.DeploymentProfileProviderApiInputDTO (some val) with
    | .error convErr => .returned (.error convErr)
    | .ok none => .panicked "runtime error: invalid memory address or nil pointer dereference"
    | .ok (some convObj) =>
      match convertProviders rest with
      | .panicked msg => .panicked msg
      | .returned (.error convErr) => .returned (.error convErr)
      | .returned (.ok convObjs) => .returned (.ok (convObj :: convObjs))

/-- The method `(obj *DeploymentProfileTargetApiDTO)
DeploymentProfileTargetApiInputDTO()`. -/
def DeploymentProfileTargetApiDTO.DeploymentProfileTargetApiInputDTO :
    Option DeploymentProfileTargetApiDTO →
      Outcome (Except GoError (Option DeploymentProfileTargetApiInputDTO))
  | none => .returned (.ok none)
  | some obj =>
    -- copy same attributes
    let inObj : Turbonomic.DeploymentProfileTargetApiInputDTO :=
      { TargetType := obj.TargetType }
    -- cascading conversion of the deployment profile providers
    match convertProviders obj.Providers with
    | .panicked msg => .panicked msg
    | .returned (.error convErr) => .returned (.error convErr)
    | .returned (.ok providers) => .returned (.ok (some { inObj with Providers := providers }))

/-- The method `(obj *TemplateApiDTO) TemplateApiInputDTO()`. -/
def TemplateApiDTO.TemplateApiInputDTO :
    Option TemplateApiDTO → Except GoError (Option TemplateApiInputDTO)
  | none => .ok none
  | some obj =>
    match obj.toJSON with
    | .error jsonEncErr => .error jsonEncErr
    | .ok objJSONBytes =>
      match jsonUnmarshal TemplateApiInputDTO.decode (.valid objJSONBytes) {} with
      | .error jsonDecErr => .error jsonDecErr
      | .ok inObj =>
        -- edge cases
        .ok (some { inObj with DeploymentProfileId := obj.DeploymentProfile.UUID })

/-! ## `resource_turbo_template.go`: writing a template to the state -/

/-- The function `resourceApiDTOToSet(s)`: the stats of all resources of the
list, each as a map, in order; the attribute value is the set `schema.NewSet`
builds from these items. -/
def resourceApiDTOToSet (s : List ResourceApiDTO) : AttrValue :=
  .set (s.foldl (fun ifaceArr res =>
    res.Stats.foldl (fun arr stat => arr ++ [statApiDTOToMapstruct stat]) ifaceArr) [])

/-- The function `setResourceDataFromTemplate(d, obj)`. -/
def setResourceDataFromTemplate (d : ResourceData) (obj : TemplateApiDTO) : ResourceData :=
  let d := d.SetId obj.UUID
  let d := d.Set "class_name" (.str obj.ClassName)
  let d := d.Set "display_name" (.str obj.DisplayName)
  let d := d.Set "compute_resource" (resourceApiDTOToSet obj.ComputeResources)
  let d := d.Set "infrastructure_resource" (resourceApiDTOToSet obj.InfrastructureResources)
  let d := d.Set "network_resource" (resourceApiDTOToSet obj.NetworkResources)
  let d := d.Set "storage_resource" (resourceApiDTOToSet obj.StorageResources)
  let d := d.Set "deployment_profile_id" (.str obj.DeploymentProfile.UUID)
  let d := d.Set "description" (.str obj.Description)
  let d := d.Set "price" (.float obj.Price)
  let d := d.Set "vendor" (.str obj.Vendor)
  d.Set "discovered" (.bool obj.Discovered)

/-! ## `data_source_turbo_template.go`

The call `client.Templates()` goes through `api/client.go`, which is not part of
the sources at hand: its result is taken as it is given. -/

/-- The call `strings.Contains(s, substr)`. -/
def stringsContains (s substr : String) : Bool :=
  s.data.tails.any (fun t => substr.data.isPrefixOf t)

/-- The call `d.Get(key).(string)` on a `TypeString` attribute: the empty string
when the attribute is not set. -/
def ResourceData.GetString (d : ResourceData) (key : String) : String :=
  match d.Get key with
  | some (.str s) => s
  | _ => ""

/-- The error for a number of matches other than one. -/
def templateMatchCountError (numQueryMatches : Nat) : GoError :=
  .errorString s!"Found [{numQueryMatches}] templates matching the search criteria"

/-- The condition of line 84 to 87 under which a template of the list is kept. -/
def templateMatches (displayName : String) (hasDeploymentProfile : Bool) (vcenter : String)
    (queryObj : TemplateApiDTO) : Bool :=
  queryObj.DisplayName == displayName &&
    ((hasDeploymentProfile && queryObj.DeploymentProfile.UUID != "") ||
      (!hasDeploymentProfile && queryObj.DeploymentProfile.UUID == "")) &&
    (vcenter != "" && stringsContains queryObj.Model vcenter)

/-- The function `dataSourceTurboTemplateRead(d, meta)`, given the result
`Templates` of `client.Templates()`: the resource data after the call and the
returned error. -/
def dataSourceTurboTemplateRead (d : ResourceData)
    (Templates : Except GoError (List TemplateApiDTO)) :
    Outcome (ResourceData × Option GoError) :=
  match Templates with
  | .error queryErr => .returned (d, some queryErr)
  | .ok queryObjs =>
    let numQueryObjs := queryObjs.length
    if numQueryObjs = 0 then
      .returned (d, some (.errorString "Data source template returned 0 results"))
    else
      let displayName := d.GetString "display_name"
      let hasDeploymentProfile := d.GetBool "has_deployment_profile"
      let vcenter := d.GetString "vcenter_server"
      let queryMatches := queryObjs.filter (templateMatches displayName hasDeploymentProfile vcenter)
      let numQueryMatches := queryMatches.length
      if numQueryMatches = 0 then
        .returned (d, some (templateMatchCountError numQueryMatches))
      else if numQueryMatches > 1 then
        .returned (d, some (templateMatchCountError numQueryMatches))
      else
        match queryMatches.head? with
        | none => .panicked indexPanic
        | some queryObj => .returned (setResourceDataFromTemplate d queryObj, none)

/-- The stats of the resources of a list, in the order of the resources and of
their stats, each as the map of its `name`, `units` and `value`. -/
def statMaps (resources : List ResourceApiDTO) : List GoMap :=
  resources.flatMap (fun res => res.Stats.map (fun stat =>
    [("name", .string stat.Name), ("units", .string stat.Units), ("value", .float64 stat.Value)]))

/-- The attributes the template resource and data source keep of a template. -/
def templateKeys : List String :=
  ["class_name", "display_name", "compute_resource", "infrastructure_resource",
    "network_resource", "storage_resource", "deployment_profile_id", "description", "price",
    "vendor", "discovered"]

/-- The state `d1` is the state `d` set from the template `q`: the ID is the
UUID of `q`, each attribute of a template holds the value `q` gives it (a
resource attribute the set of the stats of that resource list), and every other
attribute is as in `d`. -/
def SetFromTemplate (d : ResourceData) (q : TemplateApiDTO) (d1 : ResourceData) : Prop :=
  d1.Id = q.UUID
  ∧ d1.Get "class_name" = some (.str q.ClassName)
  ∧ d1.Get "display_name" = some (.str q.DisplayName)
  ∧ d1.Get "compute_resource" = some (.set (statMaps q.ComputeResources))
  ∧ d1.Get "infrastructure_resource" = some (.set (statMaps q.InfrastructureResources))
  ∧ d1.Get "network_resource" = some (.set (statMaps q.NetworkResources))
  ∧ d1.Get "storage_resource" = some (.set (statMaps q.StorageResources))
  ∧ d1.Get "deployment_profile_id" = some (.str q.DeploymentProfile.UUID)
  ∧ d1.Get "description" = some (.str q.Description)
  ∧ d1.Get "price" = some (.float q.Price)
  ∧ d1.Get "vendor" = some (.str q.Vendor)
  ∧ d1.Get "discovered" = some (.bool q.Discovered)
  ∧ ∀ key, key ∉ templateKeys → d1.Get key = d.Get key

/-- The search criteria of the template data source, as the attributes of `d`
state them: the display name is `display_name`, a deployment profile is attached
exactly when `has_deployment_profile` is set, and `vcenter_server` is not empty
and occurs in the template's model. -/
def MeetsCriteria (d : ResourceData) (q : TemplateApiDTO) : Prop :=
  q.DisplayName = d.GetString "display_name"
  ∧ (q.DeploymentProfile.UUID ≠ "" ↔ d.GetBool "has_deployment_profile" = true)
  ∧ d.GetString "vcenter_server" ≠ ""
  ∧ ∃ before after : String, q.Model = before ++ d.GetString "vcenter_server" ++ after

/-- Exactly one entry of the list `l`, the entry `q`, satisfies `P`. -/
def OnlyMatch {α : Type} (P : α → Prop) (l : List α) (q : α) : Prop :=
  ∃ before after : List α, l = before ++ q :: after ∧ P q
    ∧ (∀ x ∈ before, ¬ P x) ∧ (∀ x ∈ after, ¬ P x)

/-! ## Sample inputs -/

/-- A poll whose read returns the response `r`, whatever the identifier. -/
def readOk (r : ReservationResponse) : ReadReservationFn := fun _ => .ok r

/-- A resource right after `d.SetId(res.UUID)`, nothing else written. -/
def jobData : ResourceData := { id := "job-1" }

/-- A demand entity placed on `host-1` and `lun-1`. -/
def placedEntity : DemandEntity :=
  { Placements :=
      { ComputeResources := [{ Provider := { DisplayName := "host-1" } }]
        StorageResources := [{ Provider := { DisplayName := "lun-1" } }] } }

/-- A client against a scripted remote service: every request can be built; a
`POST` is answered with `created`, the `GET` of the i-th status read with the
i-th entry of `reads` (a transport error once the script is over), a `DELETE`
with `deleteErr`. -/
def scriptedClient (created : ReservationResponse)
    (reads : List (Except GoError ReservationResponse)) (deleteErr : Option GoError) :
    Client where
  NewRequest := fun method url body => .ok { Method := method, URL := url, Body := body }
  answer := fun t req =>
    if req.Method = "POST" then .ok created
    else if req.Method = "GET" then
      match reads.get? ((readsOf t).length - 1) with
      | some r => r
      | none => .error (.transportError "connection refused")
    else
      match deleteErr with
      | some e => .error e
      | none => .ok {}

/-- A client whose requests cannot be built. -/
def brokenClient : Client where
  NewRequest := fun _ _ _ => .error (.transportError "parse: invalid URL")
  answer := fun _ _ => .ok {}

/-- A client whose requests come with a query of their own. -/
def queryClient : Client where
  NewRequest := fun method url body =>
    .ok { Method := method, URL := url, Body := body,
          Query := [("apiCallBlock", ["maybe"]), ("q", ["1"])] }
  answer := fun _ _ => .ok { UUID := "job-1", Status := "LOADING" }

/-- A configuration asking for a placement of `vm-1`. -/
def sampleConfig : ResourceData :=
  { attrs := [("action", .str "PLACEMENT"), ("entity_name", .str "vm-1"),
      ("template_id", .str "T1")] }

/-- The creation answer: the job `job-1`, still loading. -/
def createdJob : ReservationResponse := { UUID := "job-1", Status := "LOADING" }

/-- The terminal answer of the success scenario. -/
def succeededJob : ReservationResponse :=
  { UUID := "job-1", Status := "PLACEMENT_SUCCEEDED", DemandEntities := [placedEntity] }

/-- Three answers that are still in progress. -/
def threePending : List ReservationResponse :=
  [{ Status := "IN_PROGRESS" }, { Status := "IN_PROGRESS" }, { Status := "IN_PROGRESS" }]

/-- A client whose status reads keep answering `IN_PROGRESS`. -/
def pendingClient : Client :=
  scriptedClient createdJob (threePending.map .ok) none

/-- A query of the template data source: display name and vcenter. -/
def templateQuery : ResourceData :=
  { attrs := [("display_name", .str "web"), ("vcenter_server", .str "vc1")] }

/-- A template the query `templateQuery` selects. -/
def webTemplate : TemplateApiDTO :=
  { ClassName := "VirtualMachineProfile", DisplayName := "web", Model := "host.vc1.example",
    UUID := "T1", Price := .finite 25 (-1), Vendor := "acme",
    ComputeResources := [{ Stats := [{ Name := "numOfCpu", Value := .finite 2 0 },
      { Name := "memorySize", Units := "MB", Value := .finite 4096 0 }] }] }

/-- A template of another display name. -/
def otherTemplate : TemplateApiDTO :=
  { DisplayName := "db", Model := "host.vc1.example", UUID := "T2" }

/-- A template with a price, a deployment profile and two compute stats. -/
def sizedTemplate : TemplateApiDTO :=
  { ClassName := "VirtualMachineProfile", DisplayName := "web", Model := "host.vc1.example",
    UUID := "T1", Price := .finite 25 (-1), DeploymentProfile := { UUID := "DP1" },
    ComputeResources := [{ Stats := [{ Name := "numOfCpu", Value := .finite 2 0 },
      { Name := "memorySize", Units := "MB", Value := .finite 4096 0 }] }] }

/-- The input form of `sizedTemplate`. -/
def sizedInput : TemplateApiInputDTO :=
  { ClassName := "VirtualMachineProfile", DisplayName := "web", Price := .finite 25 (-1),
    DeploymentProfileId := "DP1",
    ComputeResources := [{ Stats := [{ Name := "numOfCpu", Value := .finite 2 0 },
      { Name := "memorySize", Units := "MB", Value := .finite 4096 0 }] }] }

/-! ## Theorems: the status refresh of the reservation wait -/

/-- A status outside every case of the switch falls through to `default`. -/
theorem refreshReservation_default (d : ResourceData) (read : ReadReservationFn)
    (r : ReservationResponse) (hread : read d.Id = .ok r)
    (hs : r.Status ∉ ["IN_PROGRESS", "LOADING", "RETRYING", "FUTURE", "UNFULFILLED",
      "PLACEMENT_SUCCEEDED", "RESERVED", "PLACEMENT_FAILED"]) :
    refreshReservation d read =
      .returned (⟨some r, r.Status, some (unrecognizedStatusError r.Status)⟩, d) := by
  simp only [List.mem_cons, List.mem_singleton, List.not_mem_nil, or_false, not_or] at hs
  obtain ⟨h1, h2, h3, h4, h5, h6, h7, h8⟩ := hs
  simp [refreshReservation, hread, h1, h2, h3, h4, h5, h6, h7, h8]

/-- A pending status is returned as it is, with nothing written. -/
theorem refreshReservation_of_pending (d : ResourceData) (read : ReadReservationFn)
    (r : ReservationResponse) (hread : read d.Id = .ok r)
    (hs : r.Status ∈ stateConf.Pending) :
    refreshReservation d read = .returned (⟨some r, r.Status, none⟩, d) := by
  simp only [stateConf, List.mem_cons, List.mem_singleton, List.not_mem_nil, or_false] at hs
  rcases hs with h | h | h | h | h <;> simp [refreshReservation, hread, h]

/-- The extraction on a response whose first demand entity has a compute and a
storage resource. -/
theorem setResourceDataFromReservation_of_first (d : ResourceData) (r : ReservationResponse)
    (e : DemandEntity) (es : List DemandEntity) (c : ComputeResource)
    (cs : List ComputeResource) (s : StorageResource) (ss : List StorageResource)
    (he : r.DemandEntities = e :: es) (hc : e.Placements.ComputeResources = c :: cs)
    (hst : e.Placements.StorageResources = s :: ss) :
    setResourceDataFromReservation d r =
      .returned ((((d.Set "compute_provider" (.str c.Provider.DisplayName)).Set
        "storage_provider" (.str s.Provider.DisplayName)).Set "status" (.str r.Status)), none) := by
  simp [setResourceDataFromReservation, he, hc, hst]

/-- A target status with a complete first demand entity is returned without an
error, after the extraction. -/
theorem refreshReservation_of_target (d : ResourceData) (read : ReadReservationFn)
    (r : ReservationResponse) (e : DemandEntity) (es : List DemandEntity) (c : ComputeResource)
    (cs : List ComputeResource) (s : StorageResource) (ss : List StorageResource)
    (hread : read d.Id = .ok r)
    (hs : r.Status = "PLACEMENT_SUCCEEDED" ∨ r.Status = "RESERVED")
    (he : r.DemandEntities = e :: es) (hc : e.Placements.ComputeResources = c :: cs)
    (hst : e.Placements.StorageResources = s :: ss) :
    refreshReservation d read =
      .returned (⟨some r, r.Status, none⟩,
        (((d.Set "compute_provider" (.str c.Provider.DisplayName)).Set
          "storage_provider" (.str s.Provider.DisplayName)).Set "status" (.str r.Status))) := by
  have hx := setResourceDataFromReservation_of_first d r e es c cs s ss he hc hst
  rcases hs with h | h
  · simp only [refreshReservation, hread, hx, h]
    simp
  · simp only [refreshReservation, hread, hx, h]
    simp

/-- A target status without any demand entity: the extraction returns its
error, the closure drops it and reports the status with a nil error, nothing
written. -/
theorem refreshReservation_of_target_no_entities (d : ResourceData) (read : ReadReservationFn)
    (r : ReservationResponse) (hread : read d.Id = .ok r)
    (hs : r.Status = "PLACEMENT_SUCCEEDED" ∨ r.Status = "RESERVED")
    (he : r.DemandEntities = []) :
    setResourceDataFromReservation d r = .returned (d, some (malformedResponseError r)) ∧
    refreshReservation d read = .returned (⟨some r, r.Status, none⟩, d) := by
  have hx : setResourceDataFromReservation d r =
      .returned (d, some (malformedResponseError r)) := by
    simp [setResourceDataFromReservation, he]
  refine ⟨hx, ?_⟩
  rcases hs with h | h
  · simp only [refreshReservation, hread, hx, h]
    simp
  · simp only [refreshReservation, hread, hx, h]
    simp

/-- The message for `PLACEMENT_FAILED` is not the message of any unrecognized
status: the two end differently. -/
theorem placementFailedError_ne_unrecognized (s : String) :
    placementFailedError ≠ unrecognizedStatusError s := by
  intro h
  simp only [placementFailedError, unrecognizedStatusError, GoError.errorString.injEq] at h
  have h2 := congrArg (fun t => t.data.getLast?) h
  simp only [String.data_append] at h2
  rw [List.getLast?_append_of_ne_nil _ (by decide)] at h2
  revert h2
  decide

/-- C1 (the code at the failing input): on a successful read with status
`RESERVED` and no demand entity, `setResourceDataFromReservation` does return its
malformed-response error, but `refreshReservation` discards it: the poll reports
the target state `RESERVED` with a nil error, and `compute_provider` and
`storage_provider` stay unset. -/
theorem refreshReservation_reserved_without_entities :
    setResourceDataFromReservation jobData { Status := "RESERVED" } =
        .returned (jobData, some (malformedResponseError { Status := "RESERVED" }))
    ∧ refreshReservation jobData (readOk { Status := "RESERVED" }) =
        .returned (⟨some { Status := "RESERVED" }, "RESERVED", none⟩, jobData)
    ∧ "RESERVED" ∈ stateConf.Target
    ∧ jobData.Get "compute_provider" = none
    ∧ jobData.Get "storage_provider" = none := by
  refine ⟨rfl, ?_, ?_, ?_, ?_⟩
  · simp [refreshReservation, readOk, setResourceDataFromReservation]
  · decide
  · rfl
  · rfl

/-- C2: on a successful read whose status is none of the eight strings of the
switch, `refreshReservation` returns the unknown-status error, whose message
starts with (so contains) the raw status string, and leaves the resource data
as it was. -/
theorem refreshReservation_unrecognized_status (d : ResourceData) (read : ReadReservationFn)
    (r : ReservationResponse) (hread : read d.Id = .ok r)
    (hs : r.Status ∉ ["IN_PROGRESS", "LOADING", "RETRYING", "FUTURE", "UNFULFILLED",
      "PLACEMENT_SUCCEEDED", "RESERVED", "PLACEMENT_FAILED"]) :
    refreshReservation d read =
        .returned (⟨some r, r.Status, some (unrecognizedStatusError r.Status)⟩, d)
    ∧ (unrecognizedStatusError r.Status).Error =
        r.Status ++ ", unrecognized reservation status"
    ∧ r.Status.data <:+: (unrecognizedStatusError r.Status).Error.data := by
  refine ⟨refreshReservation_default d read r hread hs, rfl, ?_⟩
  simp only [unrecognizedStatusError, GoError.Error, String.data_append]
  exact List.infix_append' [] _ _

/-- C2 at the status `BOGUS`. -/
theorem refreshReservation_unrecognized_status_witness :
    readOk { Status := "BOGUS" } jobData.Id = .ok { Status := "BOGUS" }
    ∧ refreshReservation jobData (readOk { Status := "BOGUS" }) =
        .returned (⟨some { Status := "BOGUS" }, "BOGUS",
          some (.errorString "BOGUS, unrecognized reservation status")⟩, jobData) :=
  ⟨rfl, (refreshReservation_unrecognized_status jobData (readOk { Status := "BOGUS" })
    { Status := "BOGUS" } rfl (by decide)).1⟩

/-- C3: on a successful read whose status is one of the pending statuses
`IN_PROGRESS`, `LOADING`, `RETRYING`, `FUTURE`, `UNFULFILLED`, `refreshReservation`
returns that status as the state with a nil error and leaves the resource data
as it was; the state is in the wait's `Pending` list and not in its `Target`. -/
theorem refreshReservation_pending_status (d : ResourceData) (read : ReadReservationFn)
    (r : ReservationResponse) (hread : read d.Id = .ok r)
    (hs : r.Status ∈ ["IN_PROGRESS", "LOADING", "RETRYING", "FUTURE", "UNFULFILLED"]) :
    refreshReservation d read = .returned (⟨some r, r.Status, none⟩, d)
    ∧ r.Status ∈ stateConf.Pending ∧ r.Status ∉ stateConf.Target := by
  refine ⟨refreshReservation_of_pending d read r hread hs, hs, ?_⟩
  simp only [List.mem_cons, List.mem_singleton, List.not_mem_nil, or_false] at hs
  rcases hs with h | h | h | h | h <;> rw [h] <;> decide

/-- C3 at the status `LOADING`. -/
theorem refreshReservation_pending_status_witness :
    readOk { Status := "LOADING" } jobData.Id = .ok { Status := "LOADING" }
    ∧ refreshReservation jobData (readOk { Status := "LOADING" }) =
        .returned (⟨some { Status := "LOADING" }, "LOADING", none⟩, jobData) :=
  ⟨rfl, (refreshReservation_pending_status jobData (readOk { Status := "LOADING" })
    { Status := "LOADING" } rfl (by decide)).1⟩

/-- C4: on a successful read whose status is `PLACEMENT_SUCCEEDED` or `RESERVED`
and whose first demand entity has at least one compute and one storage resource,
`refreshReservation` returns that status with a nil error (having written the two
provider names and the status), and the status is in the wait's `Target` list. -/
theorem refreshReservation_target_status (d : ResourceData) (read : ReadReservationFn)
    (r : ReservationResponse) (e : DemandEntity) (es : List DemandEntity) (c : ComputeResource)
    (cs : List ComputeResource) (s : StorageResource) (ss : List StorageResource)
    (hread : read d.Id = .ok r)
    (hs : r.Status = "PLACEMENT_SUCCEEDED" ∨ r.Status = "RESERVED")
    (he : r.DemandEntities = e :: es) (hc : e.Placements.ComputeResources = c :: cs)
    (hst : e.Placements.StorageResources = s :: ss) :
    refreshReservation d read =
        .returned (⟨some r, r.Status, none⟩,
          (((d.Set "compute_provider" (.str c.Provider.DisplayName)).Set
            "storage_provider" (.str s.Provider.DisplayName)).Set "status" (.str r.Status)))
    ∧ r.Status ∈ stateConf.Target := by
  refine ⟨refreshReservation_of_target d read r e es c cs s ss hread hs he hc hst, ?_⟩
  rcases hs with h | h <;> rw [h] <;> decide

/-- C4 at `PLACEMENT_SUCCEEDED` with providers `host-1` and `lun-1`. -/
theorem refreshReservation_target_status_witness :
    refreshReservation jobData
        (readOk { Status := "PLACEMENT_SUCCEEDED", DemandEntities := [placedEntity] }) =
      .returned (⟨some { Status := "PLACEMENT_SUCCEEDED", DemandEntities := [placedEntity] },
          "PLACEMENT_SUCCEEDED", none⟩,
        { id := "job-1"
          attrs := [("compute_provider", .str "host-1"), ("storage_provider", .str "lun-1"),
            ("status", .str "PLACEMENT_SUCCEEDED")] })
    ∧ "PLACEMENT_SUCCEEDED" ∈ stateConf.Target :=
  refreshReservation_target_status jobData
    (readOk { Status := "PLACEMENT_SUCCEEDED", DemandEntities := [placedEntity] })
    { Status := "PLACEMENT_SUCCEEDED", DemandEntities := [placedEntity] } placedEntity []
    { Provider := { DisplayName := "host-1" } } [] { Provider := { DisplayName := "lun-1" } } []
    rfl (Or.inl rfl) rfl rfl rfl

/-- C5: on a successful read with status `PLACEMENT_FAILED`, `refreshReservation`
returns the placement-failed error (the environment lacks the resources), which
differs from the unknown-status error of every string, and leaves the resource
data as it was. -/
theorem refreshReservation_placement_failed (d : ResourceData) (read : ReadReservationFn)
    (r : ReservationResponse) (hread : read d.Id = .ok r)
    (hs : r.Status = "PLACEMENT_FAILED") :
    refreshReservation d read =
        .returned (⟨some r, r.Status, some placementFailedError⟩, d)
    ∧ ∀ s : String, placementFailedError ≠ unrecognizedStatusError s := by
  refine ⟨?_, placementFailedError_ne_unrecognized⟩
  simp [refreshReservation, hread, hs]

/-- C5 at a bare `PLACEMENT_FAILED` response. -/
theorem refreshReservation_placement_failed_witness :
    refreshReservation jobData (readOk { Status := "PLACEMENT_FAILED" }) =
      .returned (⟨some { Status := "PLACEMENT_FAILED" }, "PLACEMENT_FAILED",
        some (.errorString
          "reservation unfulfilled, environment does not have resources to place the workload")⟩,
        jobData) :=
  (refreshReservation_placement_failed jobData (readOk { Status := "PLACEMENT_FAILED" })
    { Status := "PLACEMENT_FAILED" } rfl rfl).1

/-- C6 (counterexample): a successful read with the target status `RESERVED`
whose only demand entity has no compute resource. The index expression
`ComputeResources[0]` panics, so `refreshReservation` returns no nil error
although the status is in the `Target` list. -/
theorem refreshReservation_reserved_panics :
    refreshReservation jobData (readOk { Status := "RESERVED", DemandEntities := [{}] }) =
        .panicked indexPanic
    ∧ (¬ ∃ res d1, refreshReservation jobData
          (readOk { Status := "RESERVED", DemandEntities := [{}] }) = .returned (res, d1)
        ∧ res.err = none)
    ∧ "RESERVED" ∈ stateConf.Pending ++ stateConf.Target := by
  have h : refreshReservation jobData
      (readOk { Status := "RESERVED", DemandEntities := [{}] }) = .panicked indexPanic := by
    simp [refreshReservation, readOk, setResourceDataFromReservation]
  refine ⟨h, ?_, by decide⟩
  rw [h]
  rintro ⟨res, d1, hret, -⟩
  cases hret

/-- C6 (amended): on a successful read whose response, when its status is
`PLACEMENT_SUCCEEDED` or `RESERVED`, carries a first demand entity with at least
one compute and one storage resource, `refreshReservation` returns, reporting the
status as the state, and its error is nil if and only if the status is in the
wait's `Pending` or `Target` list. In particular a status outside the two lists
is always reported with an error. -/
theorem refreshReservation_nil_error_iff (d : ResourceData) (read : ReadReservationFn)
    (r : ReservationResponse) (hread : read d.Id = .ok r)
    (hfirst : r.Status ∈ stateConf.Target →
      ∃ e es c cs s ss, r.DemandEntities = e :: es ∧
        e.Placements.ComputeResources = c :: cs ∧ e.Placements.StorageResources = s :: ss) :
    ∃ res d1, refreshReservation d read = .returned (res, d1) ∧ res.state = r.Status ∧
      (res.err = none ↔ r.Status ∈ stateConf.Pending ++ stateConf.Target) := by
  by_cases hp : r.Status ∈ stateConf.Pending
  · exact ⟨_, _, refreshReservation_of_pending d read r hread hp, rfl,
      by simp [List.mem_append, hp]⟩
  by_cases ht : r.Status ∈ stateConf.Target
  · obtain ⟨e, es, c, cs, s, ss, he, hc, hst⟩ := hfirst ht
    have hs : r.Status = "PLACEMENT_SUCCEEDED" ∨ r.Status = "RESERVED" := by
      simpa [stateConf] using ht
    exact ⟨_, _, refreshReservation_of_target d read r e es c cs s ss hread hs he hc hst, rfl,
      by simp [List.mem_append, ht]⟩
  by_cases hf : r.Status = "PLACEMENT_FAILED"
  · refine ⟨⟨some r, r.Status, some placementFailedError⟩, d, ?_, rfl, ?_⟩
    · simp [refreshReservation, hread, hf]
    · simp [List.mem_append, hp, ht]
  · refine ⟨_, _, refreshReservation_default d read r hread ?_, rfl, ?_⟩
    · simp only [stateConf, List.mem_cons, List.mem_singleton, List.not_mem_nil, or_false,
        not_or] at hp ht ⊢
      exact ⟨hp.1, hp.2.1, hp.2.2.1, hp.2.2.2.1, hp.2.2.2.2, ht.1, ht.2, hf⟩
    · simp [List.mem_append, hp, ht]

/-- C6 (amended) at `RESERVED` with providers `host-1` and `lun-1`. -/
theorem refreshReservation_nil_error_iff_witness :
    ∃ res d1, refreshReservation jobData
        (readOk { Status := "RESERVED", DemandEntities := [placedEntity] }) = .returned (res, d1)
      ∧ res.state = "RESERVED"
      ∧ (res.err = none ↔ "RESERVED" ∈ stateConf.Pending ++ stateConf.Target) :=
  refreshReservation_nil_error_iff jobData
    (readOk { Status := "RESERVED", DemandEntities := [placedEntity] })
    { Status := "RESERVED", DemandEntities := [placedEntity] } rfl
    (fun _ => ⟨placedEntity, [], { Provider := { DisplayName := "host-1" } }, [],
      { Provider := { DisplayName := "lun-1" } }, [], rfl, rfl, rfl⟩)

/-! ## Theorems: the stat decoder -/

/-- The magnitude of an integer, as a rational. -/
theorem abs_intCast_rat (n : Int) : |(n : ℚ)| = ((n.natAbs : ℕ) : ℚ) := by
  rw [← Int.cast_abs, Int.abs_eq_natAbs, Int.cast_natCast]

/-- The integer range test is the comparison of the literal's value with
`float64Limit`. -/
theorem inFloat64Range_iff (n : JNumber) :
    n.inFloat64Range = true ↔ |n.toRat| < (float64Limit : ℚ) := by
  cases n with
  | int n =>
    simp only [JNumber.inFloat64Range, JNumber.toRat, decide_eq_true_eq, abs_intCast_rat,
      Nat.cast_lt]
  | dec mant exp =>
    by_cases h : 0 ≤ exp
    · obtain ⟨k, rfl⟩ := Int.eq_ofNat_of_zero_le h
      have hpos : (0 : ℚ) < 10 ^ k := by positivity
      simp only [JNumber.inFloat64Range, JNumber.toRat, h, if_true, decide_eq_true_eq,
        Int.toNat_ofNat, zpow_natCast, abs_mul, abs_intCast_rat, abs_of_pos hpos]
      rw [← @Nat.cast_lt ℚ]
      push_cast
      rfl
    · have hneg : exp = -((-exp).toNat : ℤ) := by
        rw [Int.toNat_of_nonneg (by omega)]; ring
      have hpos : (0 : ℚ) < 10 ^ (-exp).toNat := by positivity
      simp only [JNumber.inFloat64Range, h, if_false, decide_eq_true_eq, JNumber.toRat]
      rw [← @Nat.cast_lt ℚ]
      push_cast
      conv_rhs => rw [hneg, zpow_neg, zpow_natCast, abs_mul, abs_inv, abs_of_pos hpos,
        abs_intCast_rat, ← div_eq_mul_inv, div_lt_iff₀ hpos]

/-- When the untyped pass stores every member, every member converts. -/
theorem objectInterface_members_ok (members : List (String × JSON)) :
    ∀ (acc m : GoMap), objectInterface acc members = .ok m →
      ∀ kv ∈ members, ∃ v, valueInterface kv.2 = .ok v := by
  induction members with
  | nil => intro acc m _ kv hkv; cases hkv
  | cons hd rest ih =>
    obtain ⟨k, j⟩ := hd
    intro acc m h kv hkv
    simp only [objectInterface, bind, Except.bind] at h
    cases hv : valueInterface j with
    | error e => rw [hv] at h; cases h
    | ok v =>
      rw [hv] at h
      rcases List.mem_cons.mp hkv with rfl | hmem
      · exact ⟨v, hv⟩
      · exact ih _ _ h kv hmem

/-- The only field a key can select in `objJSON` is `value`. -/
theorem matchField_single (field key f : String) (h : matchField [field] key = some f) :
    f = field := by
  unfold matchField at h
  simp only [List.find?_cons, List.find?_nil] at h
  by_cases h1 : field = key
  · simp [h1] at h; rw [← h, h1]
  · simp only [h1, decide_False] at h
    by_cases h2 : equalFold field key = true
    · simp [h2] at h; exact h.symm
    · simp [h2] at h

/-- The third pass on an object all of whose members convert: it succeeds, and
`objJSON.Value` is the conversion of the document held for `value`, or is left
as it was when no key selects the field. -/
theorem ObjJSON_decode_obj (members : List (String × JSON)) :
    ∀ cur : ObjJSON, (∀ kv ∈ members, ∃ v, valueInterface kv.2 = .ok v) →
      ∃ res : ObjJSON, ObjJSON.decode (.obj members) cur = .ok res ∧
        (∀ j, heldFor "value" members = some j → valueInterface j = .ok res.Value) ∧
        (heldFor "value" members = none → res.Value = cur.Value) := by
  induction members with
  | nil =>
    intro cur _
    exact ⟨cur, rfl, by simp [heldFor], fun _ => rfl⟩
  | cons hd rest ih =>
    intro cur hall
    obtain ⟨v, hv⟩ := hall hd (List.mem_cons_self _ _)
    have hrest : ∀ kv ∈ rest, ∃ v, valueInterface kv.2 = .ok v :=
      fun kv hkv => hall kv (List.mem_cons_of_mem _ hkv)
    cases hm : matchField ["value"] hd.1 with
    | none =>
      obtain ⟨res, hres, hsome, hnone⟩ := ih cur hrest
      refine ⟨res, ?_, ?_, ?_⟩
      · simp only [ObjJSON.decode, decodeStruct, List.foldlM_cons, hm, bind, Except.bind] at hres ⊢
        exact hres
      · intro j hj
        cases hh : heldFor "value" rest with
        | some j1 =>
          simp only [heldFor, hh] at hj
          exact hsome j (by rw [hh, hj])
        | none => simp [heldFor, hh, hm] at hj
      · intro hj
        cases hh : heldFor "value" rest with
        | some j1 => simp [heldFor, hh] at hj
        | none => exact hnone hh
    | some f =>
      have hf : f = "value" := matchField_single _ _ _ hm
      subst hf
      obtain ⟨res, hres, hsome, hnone⟩ := ih { cur with Value := v } hrest
      refine ⟨res, ?_, ?_, ?_⟩
      · simp only [ObjJSON.decode, decodeStruct, List.foldlM_cons, hm, hv, Except.map, bind,
          Except.bind] at hres ⊢
        exact hres
      · intro j hj
        cases hh : heldFor "value" rest with
        | some j1 =>
          simp only [heldFor, hh] at hj
          exact hsome j (by rw [hh, hj])
        | none =>
          simp only [heldFor, hh, hm, if_true, Option.some.injEq] at hj
          rw [← hj, hv, hnone hh]
      · intro hj
        cases hh : heldFor "value" rest with
        | some j1 => simp [heldFor, hh] at hj
        | none => simp [heldFor, hh, hm] at hj

/-- On an object body for which the first two passes succeed, `UnmarshalJSON`
succeeds; the third pass yields an `objJSON` whose `Value` is the conversion of
the document held for `value` (nil when there is none), and the receiver ends as
the three assignments leave it. -/
theorem UnmarshalJSON_obj_of_passes (obj : StatApiDTO) (members : List (String × JSON))
    (tmpJSON : TmpJSON) (objMap : GoMap)
    (h1 : jsonUnmarshal TmpJSON.decode (.valid (.obj members)) {} = .ok tmpJSON)
    (h2 : jsonUnmarshal decodeMapInterface (.valid (.obj members)) [] = .ok objMap) :
    ∃ objJSON : ObjJSON,
      (∀ j, heldFor "value" members = some j → valueInterface j = .ok objJSON.Value) ∧
      (heldFor "value" members = none → objJSON.Value = .nil) ∧
      obj.UnmarshalJSON (.valid (.obj members)) =
        (((obj.assignNested tmpJSON).assignScalars objMap).assignValue objJSON, none) := by
  have hall := objectInterface_members_ok members [] objMap
    (by simpa [jsonUnmarshal, decodeMapInterface] using h2)
  obtain ⟨res, hres, hsome, hnone⟩ := ObjJSON_decode_obj members {} hall
  have h3 : jsonUnmarshal ObjJSON.decode (.valid (.obj members)) {} = .ok res := hres
  refine ⟨res, hsome, hnone, ?_⟩
  simp only [StatApiDTO.UnmarshalJSON, h1, h2, h3]

/-- On an object body `UnmarshalJSON` returns a nil error exactly when its first
two `json.Unmarshal` calls do: the third cannot fail once the second has not. -/
theorem UnmarshalJSON_ok_iff_passes (obj : StatApiDTO) (members : List (String × JSON)) :
    (obj.UnmarshalJSON (.valid (.obj members))).2 = none ↔
      (∃ tmpJSON, jsonUnmarshal TmpJSON.decode (.valid (.obj members)) {} = .ok tmpJSON) ∧
      (∃ objMap, jsonUnmarshal decodeMapInterface (.valid (.obj members)) [] = .ok objMap) := by
  constructor
  · intro h
    cases h1 : jsonUnmarshal TmpJSON.decode (.valid (.obj members)) {} with
    | error e => simp [StatApiDTO.UnmarshalJSON, h1] at h
    | ok tmpJSON =>
      cases h2 : jsonUnmarshal decodeMapInterface (.valid (.obj members)) [] with
      | error e => simp [StatApiDTO.UnmarshalJSON, h1, h2] at h
      | ok objMap => exact ⟨⟨tmpJSON, rfl⟩, ⟨objMap, rfl⟩⟩
  · rintro ⟨⟨tmpJSON, h1⟩, ⟨objMap, h2⟩⟩
    obtain ⟨objJSON, -, -, heq⟩ := UnmarshalJSON_obj_of_passes obj members tmpJSON objMap h1 h2
    rw [heq]

/-- C7 (counterexample): two JSON object bodies whose `value` key holds the
string `"Infinity"`. On `{"value": "Infinity", "capacity": 5}` `UnmarshalJSON`
fails: the first pass cannot store the number under `capacity` into a
`StatValueApiDTO`, and the receiver keeps its old `Value`. On
`{"value": "Infinity", "VALUE": 3}` it succeeds with `Value` 3: the third pass
matches keys case-insensitively and the later member is stored last. -/
theorem UnmarshalJSON_infinity_with_bad_capacity :
    heldExact "value" [("value", .str "Infinity"), ("capacity", .num (.int 5))] =
        some (.str "Infinity")
    ∧ StatApiDTO.UnmarshalJSON {}
        (.valid (.obj [("value", .str "Infinity"), ("capacity", .num (.int 5))])) =
      ({}, some (.jsonUnmarshalTypeError "number" "api.StatValueApiDTO"))
    ∧ heldExact "value" [("value", .str "Infinity"), ("VALUE", .num (.int 3))] =
        some (.str "Infinity")
    ∧ StatApiDTO.UnmarshalJSON {}
        (.valid (.obj [("value", .str "Infinity"), ("VALUE", .num (.int 3))])) =
      ({ Value := .finite 3 0 }, none) := by
  refine ⟨rfl, by decide, rfl, by decide⟩

/-- C7 (amended): for every JSON object body in which the last member whose key
is `value`, exactly or case-insensitively, holds the string `"Infinity"`, and on
which the typed decode of the nested keys and the untyped decode into a map
succeed, `UnmarshalJSON` succeeds and sets the record's `Value` to positive
infinity. -/
theorem UnmarshalJSON_value_infinity (obj : StatApiDTO) (members : List (String × JSON))
    (tmpJSON : TmpJSON) (objMap : GoMap)
    (hval : heldFor "value" members = some (.str "Infinity"))
    (h1 : jsonUnmarshal TmpJSON.decode (.valid (.obj members)) {} = .ok tmpJSON)
    (h2 : jsonUnmarshal decodeMapInterface (.valid (.obj members)) [] = .ok objMap) :
    ∃ obj1, obj.UnmarshalJSON (.valid (.obj members)) = (obj1, none) ∧
      obj1.Value = .posInf := by
  obtain ⟨objJSON, hsome, -, heq⟩ := UnmarshalJSON_obj_of_passes obj members tmpJSON objMap h1 h2
  have hv := hsome _ hval
  simp only [valueInterface, Except.ok.injEq] at hv
  refine ⟨_, heq, ?_⟩
  simp [StatApiDTO.assignValue, ← hv, GoValue.assertFloat64, GoValue.assertString, ValueInfinity]

/-- C7 (amended) at the body `{"value": "Infinity", "units": "MB"}`. -/
theorem UnmarshalJSON_value_infinity_witness :
    ∃ obj1, StatApiDTO.UnmarshalJSON { Value := .finite 7 0 }
        (.valid (.obj [("value", .str "Infinity"), ("units", .str "MB")])) = (obj1, none) ∧
      obj1.Value = .posInf :=
  UnmarshalJSON_value_infinity { Value := .finite 7 0 }
    [("value", .str "Infinity"), ("units", .str "MB")] {}
    [("value", .string "Infinity"), ("units", .string "MB")] rfl rfl rfl

/-- C8 (counterexample): two JSON object bodies whose `value` key holds a JSON
number. On `{"value": 1e400}` `UnmarshalJSON` fails: the number is out of the
`float64` range, which the untyped second pass reports. On
`{"value": 3.5, "Value": "Infinity"}` it succeeds with `Value` positive infinity,
not 3.5: the third pass matches keys case-insensitively and the later member is
stored last. -/
theorem UnmarshalJSON_number_out_of_range :
    heldExact "value" [("value", .num (.dec 1 400))] = some (.num (.dec 1 400))
    ∧ StatApiDTO.UnmarshalJSON {} (.valid (.obj [("value", .num (.dec 1 400))])) =
      ({}, some (.jsonUnmarshalTypeError "number" "float64"))
    ∧ heldExact "value" [("value", .num (.dec 35 (-1))), ("Value", .str "Infinity")] =
        some (.num (.dec 35 (-1)))
    ∧ StatApiDTO.UnmarshalJSON {}
        (.valid (.obj [("value", .num (.dec 35 (-1))), ("Value", .str "Infinity")])) =
      ({ Value := .posInf }, none) := by
  refine ⟨rfl, by decide, rfl, by decide⟩

/-- C8 (amended): for every JSON object body in which the last member whose key
is `value`, exactly or case-insensitively, holds a JSON number `x`, and on which
the typed decode of the nested keys and the untyped decode into a map succeed
(so `x` is within the `float64` range), `UnmarshalJSON` succeeds and sets the
record's `Value` to `x`, whatever `Value` the receiver held before. -/
theorem UnmarshalJSON_value_number (obj : StatApiDTO) (members : List (String × JSON))
    (tmpJSON : TmpJSON) (objMap : GoMap) (x : JNumber)
    (hval : heldFor "value" members = some (.num x))
    (h1 : jsonUnmarshal TmpJSON.decode (.valid (.obj members)) {} = .ok tmpJSON)
    (h2 : jsonUnmarshal decodeMapInterface (.valid (.obj members)) [] = .ok objMap) :
    ∃ obj1, obj.UnmarshalJSON (.valid (.obj members)) = (obj1, none) ∧
      obj1.Value = x.toFloat ∧ x.inFloat64Range = true := by
  obtain ⟨objJSON, hsome, -, heq⟩ := UnmarshalJSON_obj_of_passes obj members tmpJSON objMap h1 h2
  have hv := hsome _ hval
  simp only [valueInterface, convertNumber, parseFloat64] at hv
  by_cases hr : x.inFloat64Range = true
  · simp only [hr, if_true, Except.ok.injEq] at hv
    refine ⟨_, heq, ?_, hr⟩
    simp [StatApiDTO.assignValue, ← hv, GoValue.assertFloat64]
  · simp [hr] at hv

/-- C8 (amended) at the body `{"value": 3.5, "name": "cpu"}`, the receiver holding infinity. -/
theorem UnmarshalJSON_value_number_witness :
    ∃ obj1, StatApiDTO.UnmarshalJSON { Value := .posInf }
        (.valid (.obj [("value", .num (.dec 35 (-1))), ("name", .str "cpu")])) = (obj1, none) ∧
      obj1.Value = .finite 35 (-1) ∧ JNumber.inFloat64Range (.dec 35 (-1)) = true :=
  UnmarshalJSON_value_number { Value := .posInf }
    [("value", .num (.dec 35 (-1))), ("name", .str "cpu")] {}
    [("value", .float64 (.finite 35 (-1))), ("name", .string "cpu")] (.dec 35 (-1))
    rfl rfl rfl

/-- C9 (counterexample): two JSON object bodies without a `value` key, and one
whose `value` key holds a string other than `"Infinity"`. On
`{"capacity": "n/a"}` decoding into a new record fails, the first pass rejecting
the string under `capacity`. On `{"VALUE": 3.5}` it succeeds with `Value` 3.5,
the third pass matching the key case-insensitively. On
`{"value": "n/a", "VALUE": 3}` it succeeds with `Value` 3, the later member being
stored last. -/
theorem UnmarshalJSON_without_value_key :
    (∀ kv ∈ [("capacity", JSON.str "n/a")], kv.1 ≠ "value")
    ∧ StatApiDTO.UnmarshalJSON {} (.valid (.obj [("capacity", .str "n/a")])) =
      ({}, some (.jsonUnmarshalTypeError "string" "api.StatValueApiDTO"))
    ∧ (∀ kv ∈ [("VALUE", JSON.num (.dec 35 (-1)))], kv.1 ≠ "value")
    ∧ StatApiDTO.UnmarshalJSON {} (.valid (.obj [("VALUE", .num (.dec 35 (-1)))])) =
      ({ Value := .finite 35 (-1) }, none)
    ∧ heldExact "value" [("value", .str "n/a"), ("VALUE", .num (.int 3))] = some (.str "n/a")
    ∧ StatApiDTO.UnmarshalJSON {}
        (.valid (.obj [("value", .str "n/a"), ("VALUE", .num (.int 3))])) =
      ({ Value := .finite 3 0 }, none) := by
  refine ⟨by decide, by decide, by decide, by decide, rfl, by decide⟩

/-- C9 (amended): for every JSON object body in which no key is `value`, exactly
or case-insensitively, or the last member with such a key holds a string other
than `"Infinity"`, and on which the typed decode of the nested keys and the
untyped decode into a map succeed, decoding it into a new record succeeds and
yields `Value` zero. -/
theorem UnmarshalJSON_value_absent_or_other_string (members : List (String × JSON))
    (tmpJSON : TmpJSON) (objMap : GoMap)
    (hval : heldFor "value" members = none ∨
      ∃ s, s ≠ "Infinity" ∧ heldFor "value" members = some (.str s))
    (h1 : jsonUnmarshal TmpJSON.decode (.valid (.obj members)) {} = .ok tmpJSON)
    (h2 : jsonUnmarshal decodeMapInterface (.valid (.obj members)) [] = .ok objMap) :
    ∃ obj1, StatApiDTO.UnmarshalJSON {} (.valid (.obj members)) = (obj1, none) ∧
      obj1.Value = .finite 0 0 := by
  obtain ⟨objJSON, hsome, hnone, heq⟩ :=
    UnmarshalJSON_obj_of_passes {} members tmpJSON objMap h1 h2
  refine ⟨_, heq, ?_⟩
  rcases hval with hval | ⟨s, hs, hval⟩
  · simp [StatApiDTO.assignValue, hnone hval, GoValue.assertFloat64, GoValue.assertString,
      StatApiDTO.assignScalars, StatApiDTO.assignNested]
  · have hv := hsome _ hval
    simp only [valueInterface, Except.ok.injEq] at hv
    simp [StatApiDTO.assignValue, ← hv, GoValue.assertFloat64, GoValue.assertString,
      ValueInfinity, hs, StatApiDTO.assignScalars, StatApiDTO.assignNested]

/-- C9 (amended) at the body `{"value": "-Infinity", "name": "cpu"}`. -/
theorem UnmarshalJSON_value_absent_or_other_string_witness :
    ∃ obj1, StatApiDTO.UnmarshalJSON {}
        (.valid (.obj [("value", .str "-Infinity"), ("name", .str "cpu")])) = (obj1, none) ∧
      obj1.Value = .finite 0 0 :=
  UnmarshalJSON_value_absent_or_other_string
    [("value", .str "-Infinity"), ("name", .str "cpu")] {}
    [("value", .string "-Infinity"), ("name", .string "cpu")]
    (Or.inr ⟨"-Infinity", by decide, rfl⟩) rfl rfl

/-- C10: for every body that is not syntactically valid JSON, `UnmarshalJSON`
returns the syntax error of the first `json.Unmarshal` call, and the receiver is
left as it was. -/
theorem UnmarshalJSON_invalid_body (obj : StatApiDTO) (msg : String) (offset : Nat) :
    obj.UnmarshalJSON (.invalid msg offset) = (obj, some (.jsonSyntaxError msg offset)) := by
  rfl

/-! ## Theorems: the scalar and nested fields of the stat decoder -/

/-- Indexing a map after an assignment. -/
theorem mapIndex_mapSet (k key : String) (v : GoValue) (m : GoMap) :
    mapIndex (mapSet k v m) key = if k = key then v else mapIndex m key := by
  induction m with
  | nil =>
    by_cases h : k = key <;> simp [mapSet, mapIndex, h]
  | cons hd rest ih =>
    obtain ⟨k0, w⟩ := hd
    by_cases h0 : k0 = k
    · subst h0
      by_cases h : k0 = key <;> simp [mapSet, mapIndex, h]
    · simp only [mapSet, h0, if_false]
      by_cases h1 : k0 = key
      · have hk : ¬ k = key := fun hk => h0 (h1.trans hk.symm)
        simp [mapIndex, h1, hk]
      · have hstep : mapIndex ((k0, w) :: mapSet k v rest) key =
            mapIndex (mapSet k v rest) key := by
          simp [mapIndex, h1]
        rw [hstep, ih]
        simp [mapIndex, h1]

/-- What the map of the second pass holds under a key: the conversion of the
document held under it, or what the map held before. -/
theorem objectInterface_index (key : String) (members : List (String × JSON)) :
    ∀ (acc m : GoMap), objectInterface acc members = .ok m →
      (∀ j, heldExact key members = some j → valueInterface j = .ok (mapIndex m key)) ∧
      (heldExact key members = none → mapIndex m key = mapIndex acc key) := by
  induction members with
  | nil =>
    intro acc m h
    simp only [objectInterface, Except.ok.injEq] at h
    subst h
    exact ⟨by simp [heldExact], fun _ => rfl⟩
  | cons hd rest ih =>
    obtain ⟨k, j0⟩ := hd
    intro acc m h
    simp only [objectInterface, bind, Except.bind] at h
    cases hv : valueInterface j0 with
    | error e => rw [hv] at h; cases h
    | ok v =>
      rw [hv] at h
      obtain ⟨hsome, hnone⟩ := ih _ _ h
      cases hh : heldExact key rest with
      | some j1 =>
        refine ⟨?_, ?_⟩
        · intro j hj
          simp only [heldExact, hh, Option.some.injEq] at hj
          exact hsome j (by rw [hh, hj])
        · intro hj
          simp [heldExact, hh] at hj
      | none =>
        have hm := hnone hh
        rw [mapIndex_mapSet] at hm
        refine ⟨?_, ?_⟩
        · intro j hj
          by_cases hk : k = key
          · simp only [heldExact, hh, hk, if_true, Option.some.injEq] at hj
            rw [← hj, hv, hm, if_pos hk]
          · simp [heldExact, hh, hk] at hj
        · intro hj
          by_cases hk : k = key
          · simp [heldExact, hh, hk] at hj
          · rw [hm, if_neg hk]

/-- The string assertion on a converted document. -/
theorem assertString_of_valueInterface (j : JSON) (v : GoValue)
    (h : valueInterface j = .ok v) :
    v.assertString.1 = (match j with | .str s => s | _ => "") := by
  cases j with
  | null => simp only [valueInterface, Except.ok.injEq] at h; subst h; rfl
  | bool b => simp only [valueInterface, Except.ok.injEq] at h; subst h; rfl
  | num n =>
    simp only [valueInterface, convertNumber] at h
    cases hp : parseFloat64 n with
    | none => rw [hp] at h; cases h
    | some f => rw [hp] at h; simp only [Except.ok.injEq] at h; subst h; rfl
  | str s => simp only [valueInterface, Except.ok.injEq] at h; subst h; rfl
  | arr elems =>
    simp only [valueInterface, Except.map] at h
    cases ha : arrayInterface elems with
    | error e => rw [ha] at h; cases h
    | ok l => rw [ha] at h; simp only [Except.ok.injEq] at h; subst h; rfl
  | obj members =>
    simp only [valueInterface, Except.map] at h
    cases ha : objectInterface [] members with
    | error e => rw [ha] at h; cases h
    | ok l => rw [ha] at h; simp only [Except.ok.injEq] at h; subst h; rfl

/-- The `int` assertion on a converted document never succeeds: numbers are
converted to `float64`. -/
theorem assertInt_of_valueInterface (j : JSON) (v : GoValue)
    (h : valueInterface j = .ok v) : v.assertInt = (0, false) := by
  cases j with
  | null => simp only [valueInterface, Except.ok.injEq] at h; subst h; rfl
  | bool b => simp only [valueInterface, Except.ok.injEq] at h; subst h; rfl
  | num n =>
    simp only [valueInterface, convertNumber] at h
    cases hp : parseFloat64 n with
    | none => rw [hp] at h; cases h
    | some f => rw [hp] at h; simp only [Except.ok.injEq] at h; subst h; rfl
  | str s => simp only [valueInterface, Except.ok.injEq] at h; subst h; rfl
  | arr elems =>
    simp only [valueInterface, Except.map] at h
    cases ha : arrayInterface elems with
    | error e => rw [ha] at h; cases h
    | ok l => rw [ha] at h; simp only [Except.ok.injEq] at h; subst h; rfl
  | obj members =>
    simp only [valueInterface, Except.map] at h
    cases ha : objectInterface [] members with
    | error e => rw [ha] at h; cases h
    | ok l => rw [ha] at h; simp only [Except.ok.injEq] at h; subst h; rfl

/-- A string scalar read from the map of the second pass. -/
theorem assertString_mapIndex (key : String) (members : List (String × JSON)) (objMap : GoMap)
    (h : objectInterface [] members = .ok objMap) :
    (mapIndex objMap key).assertString.1 = scalarString key members := by
  obtain ⟨hsome, hnone⟩ := objectInterface_index key members [] objMap h
  unfold scalarString
  cases hh : heldExact key members with
  | none => rw [hnone hh]; rfl
  | some j =>
    rw [assertString_of_valueInterface j _ (hsome j hh)]
    cases j <;> rfl

/-- The related-entity count read from the map of the second pass is zero. -/
theorem assertInt_mapIndex (key : String) (members : List (String × JSON)) (objMap : GoMap)
    (h : objectInterface [] members = .ok objMap) :
    (mapIndex objMap key).assertInt.1 = 0 := by
  obtain ⟨hsome, hnone⟩ := objectInterface_index key members [] objMap h
  cases hh : heldExact key members with
  | none => rw [hnone hh]; rfl
  | some j => rw [assertInt_of_valueInterface j _ (hsome j hh)]

/-- The last assignment of `UnmarshalJSON` touches `Value` only. -/
theorem assignValue_frame (obj : StatApiDTO) (objJSON : ObjJSON) :
    obj.assignValue objJSON = { obj with Value := (obj.assignValue objJSON).Value } := by
  unfold StatApiDTO.assignValue
  split_ifs <;> rfl

/-- The receiver after the three assignments: its scalar fields are those read
from the map, whatever the third pass found. -/
theorem scalars_after_assignments (obj : StatApiDTO) (tmpJSON : TmpJSON) (objMap : GoMap)
    (objJSON : ObjJSON) (members : List (String × JSON))
    (h : objectInterface [] members = .ok objMap) :
    let obj1 := ((obj.assignNested tmpJSON).assignScalars objMap).assignValue objJSON
    obj1.ClassName = scalarString "className" members ∧
    obj1.DisplayName = scalarString "displayName" members ∧
    obj1.Name = scalarString "name" members ∧
    obj1.RelatedEntityType = scalarString "relatedEntityType" members ∧
    obj1.Units = scalarString "units" members ∧
    obj1.UUID = scalarString "uuid" members ∧
    obj1.NumRelatedEntities = 0 := by
  intro obj1
  have hframe := assignValue_frame ((obj.assignNested tmpJSON).assignScalars objMap) objJSON
  have e1 : obj1.ClassName = (mapIndex objMap "className").assertString.1 := by
    show (StatApiDTO.assignValue _ objJSON).ClassName = _
    rw [hframe]; rfl
  have e2 : obj1.DisplayName = (mapIndex objMap "displayName").assertString.1 := by
    show (StatApiDTO.assignValue _ objJSON).DisplayName = _
    rw [hframe]; rfl
  have e3 : obj1.Name = (mapIndex objMap "name").assertString.1 := by
    show (StatApiDTO.assignValue _ objJSON).Name = _
    rw [hframe]; rfl
  have e4 : obj1.RelatedEntityType = (mapIndex objMap "relatedEntityType").assertString.1 := by
    show (StatApiDTO.assignValue _ objJSON).RelatedEntityType = _
    rw [hframe]; rfl
  have e5 : obj1.Units = (mapIndex objMap "units").assertString.1 := by
    show (StatApiDTO.assignValue _ objJSON).Units = _
    rw [hframe]; rfl
  have e6 : obj1.UUID = (mapIndex objMap "uuid").assertString.1 := by
    show (StatApiDTO.assignValue _ objJSON).UUID = _
    rw [hframe]; rfl
  have e7 : obj1.NumRelatedEntities = (mapIndex objMap "numRelatedEntities").assertInt.1 := by
    show (StatApiDTO.assignValue _ objJSON).NumRelatedEntities = _
    rw [hframe]; rfl
  rw [e1, e2, e3, e4, e5, e6, e7]
  exact ⟨assertString_mapIndex _ _ _ h, assertString_mapIndex _ _ _ h,
    assertString_mapIndex _ _ _ h, assertString_mapIndex _ _ _ h,
    assertString_mapIndex _ _ _ h, assertString_mapIndex _ _ _ h,
    assertInt_mapIndex _ _ _ h⟩

/-- C11 (counterexample): in the body `{"units": 1e400}` the key `units` holds a
non-string value, yet `UnmarshalJSON` fails: the untyped second pass cannot
convert the number, which is out of the `float64` range. -/
theorem UnmarshalJSON_units_out_of_range :
    heldExact "units" [("units", .num (.dec 1 400))] = some (.num (.dec 1 400))
    ∧ StatApiDTO.UnmarshalJSON {} (.valid (.obj [("units", .num (.dec 1 400))])) =
      ({}, some (.jsonUnmarshalTypeError "number" "float64")) := by
  constructor
  · rfl
  · decide

/-- C11 (amended): for every JSON object body on which the typed decode of the
nested keys and the untyped decode into a map succeed, `UnmarshalJSON` succeeds,
and each of the string fields of keys `className`, `displayName`, `name`,
`relatedEntityType`, `units`, `uuid` is `scalarString` of its key: the string the
key holds, the empty string when the key is absent or holds a value of another
kind. -/
theorem UnmarshalJSON_string_scalars (obj : StatApiDTO) (members : List (String × JSON))
    (tmpJSON : TmpJSON) (objMap : GoMap)
    (h1 : jsonUnmarshal TmpJSON.decode (.valid (.obj members)) {} = .ok tmpJSON)
    (h2 : jsonUnmarshal decodeMapInterface (.valid (.obj members)) [] = .ok objMap) :
    ∃ obj1, obj.UnmarshalJSON (.valid (.obj members)) = (obj1, none) ∧
      obj1.ClassName = scalarString "className" members ∧
      obj1.DisplayName = scalarString "displayName" members ∧
      obj1.Name = scalarString "name" members ∧
      obj1.RelatedEntityType = scalarString "relatedEntityType" members ∧
      obj1.Units = scalarString "units" members ∧
      obj1.UUID = scalarString "uuid" members := by
  obtain ⟨objJSON, -, -, heq⟩ := UnmarshalJSON_obj_of_passes obj members tmpJSON objMap h1 h2
  have h2a : objectInterface [] members = .ok objMap := by
    simpa [jsonUnmarshal, decodeMapInterface] using h2
  obtain ⟨e1, e2, e3, e4, e5, e6, -⟩ :=
    scalars_after_assignments obj tmpJSON objMap objJSON members h2a
  exact ⟨_, heq, e1, e2, e3, e4, e5, e6⟩

/-- C11 (amended) at the body `{"name": "cpu", "units": 4, "uuid": null}`, the
receiver holding old strings: `name` is taken, the other five become empty. -/
theorem UnmarshalJSON_string_scalars_witness :
    ∃ obj1, StatApiDTO.UnmarshalJSON { Units := "MB", ClassName := "old" }
        (.valid (.obj [("name", .str "cpu"), ("units", .num (.int 4)), ("uuid", .null)])) =
        (obj1, none) ∧
      obj1.ClassName = "" ∧ obj1.DisplayName = "" ∧ obj1.Name = "cpu" ∧
      obj1.RelatedEntityType = "" ∧ obj1.Units = "" ∧ obj1.UUID = "" :=
  UnmarshalJSON_string_scalars { Units := "MB", ClassName := "old" }
    [("name", .str "cpu"), ("units", .num (.int 4)), ("uuid", .null)] {}
    [("name", .string "cpu"), ("units", .float64 (.finite 4 0)), ("uuid", .nil)] rfl rfl

/-- Whenever `UnmarshalJSON` succeeds on an object body, the related-entity
count of the record is zero. -/
theorem UnmarshalJSON_numRelatedEntities_zero (obj obj1 : StatApiDTO)
    (members : List (String × JSON))
    (h : obj.UnmarshalJSON (.valid (.obj members)) = (obj1, none)) :
    obj1.NumRelatedEntities = 0 := by
  have hok : (obj.UnmarshalJSON (.valid (.obj members))).2 = none := by rw [h]
  obtain ⟨⟨tmpJSON, h1⟩, ⟨objMap, h2⟩⟩ := (UnmarshalJSON_ok_iff_passes obj members).mp hok
  obtain ⟨objJSON, -, -, heq⟩ := UnmarshalJSON_obj_of_passes obj members tmpJSON objMap h1 h2
  have h2a : objectInterface [] members = .ok objMap := by
    simpa [jsonUnmarshal, decodeMapInterface] using h2
  have e7 := (scalars_after_assignments obj tmpJSON objMap objJSON members h2a).2.2.2.2.2.2
  rw [heq] at h
  rw [← (Prod.mk.inj h).1]
  exact e7

/-- C12 (the code at the failing input): the body `{"numRelatedEntities": 3}`
holds the integer 3 under `numRelatedEntities`; `UnmarshalJSON` succeeds and the
record's `NumRelatedEntities` is 0, the assertion `.(int)` failing on the
`float64` the map holds. -/
theorem UnmarshalJSON_numRelatedEntities_dropped :
    heldExact "numRelatedEntities" [("numRelatedEntities", .num (.int 3))] =
        some (.num (.int 3))
    ∧ jsonUnmarshal decodeMapInterface (.valid (.obj [("numRelatedEntities", .num (.int 3))]))
        [] = .ok [("numRelatedEntities", .float64 (.finite 3 0))]
    ∧ (GoValue.float64 (.finite 3 0)).assertInt = (0, false)
    ∧ StatApiDTO.UnmarshalJSON {} (.valid (.obj [("numRelatedEntities", .num (.int 3))])) =
      ({ NumRelatedEntities := 0 }, none) := by
  refine ⟨rfl, rfl, rfl, ?_⟩
  decide

/-- The field a key selects is one of the struct. -/
theorem matchField_mem (fields : List String) (key g : String)
    (h : matchField fields key = some g) : g ∈ fields := by
  unfold matchField at h
  cases h1 : fields.find? (fun f => f = key) with
  | some f =>
    rw [h1] at h
    simp only [Option.some.injEq] at h
    rw [← h]
    exact List.mem_of_find?_eq_some h1
  | none =>
    rw [h1] at h
    exact List.mem_of_find?_eq_some h

/-- A struct decode leaves a component alone when no member key selects the
field that carries it. -/
theorem decodeStruct_obj_preserves {α β : Type} (goType : String) (fields : List String)
    (setField : String → JSON → α → Except GoError α) (proj : α → β) (field : String)
    (hset : ∀ g v cur r, g ∈ fields → g ≠ field → setField g v cur = .ok r →
      proj r = proj cur)
    (members : List (String × JSON)) :
    ∀ cur r, keyMissing fields field members →
      decodeStruct goType fields setField (.obj members) cur = .ok r → proj r = proj cur := by
  induction members with
  | nil =>
    intro cur r _ h
    simp only [decodeStruct, List.foldlM_nil, pure, Except.pure, Except.ok.injEq] at h
    rw [h]
  | cons hd rest ih =>
    intro cur r hmiss h
    have hrest : keyMissing fields field rest :=
      fun kv hkv => hmiss kv (List.mem_cons_of_mem _ hkv)
    have hhd := hmiss hd (List.mem_cons_self _ _)
    simp only [decodeStruct, List.foldlM_cons, bind, Except.bind] at h
    cases hm : matchField fields hd.1 with
    | none =>
      simp only [hm] at h
      exact ih cur r hrest h
    | some g =>
      simp only [hm] at h
      have hg : g ≠ field := fun hg => hhd (by rw [hm, hg])
      cases hs : setField g hd.2 cur with
      | error e => rw [hs] at h; cases h
      | ok cur1 =>
        rw [hs] at h
        rw [ih cur1 r hrest h]
        exact hset g hd.2 cur cur1 (matchField_mem _ _ _ hm) hg hs

/-- The setter of `tmpJSON`, as `TmpJSON.decode` passes it to `decodeStruct`:
storing into one nested field leaves the five others alone. -/
theorem TmpJSON_decode_obj (members : List (String × JSON)) (cur : TmpJSON) :
    ∃ setField, TmpJSON.decode (.obj members) cur =
        decodeStruct "struct" nestedFields setField (.obj members) cur ∧
      (∀ g v c r, g ∈ nestedFields → g ≠ "capacity" → setField g v c = .ok r →
        r.Capacity = c.Capacity) ∧
      (∀ g v c r, g ∈ nestedFields → g ≠ "filters" → setField g v c = .ok r →
        r.Filters = c.Filters) ∧
      (∀ g v c r, g ∈ nestedFields → g ≠ "links" → setField g v c = .ok r →
        r.Links = c.Links) ∧
      (∀ g v c r, g ∈ nestedFields → g ≠ "relatedEntity" → setField g v c = .ok r →
        r.RelatedEntity = c.RelatedEntity) ∧
      (∀ g v c r, g ∈ nestedFields → g ≠ "reserved" → setField g v c = .ok r →
        r.Reserved = c.Reserved) ∧
      (∀ g v c r, g ∈ nestedFields → g ≠ "values" → setField g v c = .ok r →
        r.Values = c.Values) := by
  refine ⟨_, rfl, ?_, ?_, ?_, ?_, ?_, ?_⟩ <;>
  · intro g v c r hmem hg h
    simp only [nestedFields, List.mem_cons, List.mem_singleton, List.not_mem_nil,
      or_false] at hmem
    split_ifs at h <;>
    first
    | contradiction
    | (exfalso; rcases hmem with hm | hm | hm | hm | hm | hm <;> contradiction)
    | (simp only [Except.map] at h
       split at h
       · cases h
       · simp only [Except.ok.injEq] at h
         rw [← h])

/-- The nested fields of the receiver after the three assignments are those of
`tmpJSON`. -/
theorem nested_after_assignments (obj : StatApiDTO) (tmpJSON : TmpJSON) (objMap : GoMap)
    (objJSON : ObjJSON) :
    let obj1 := ((obj.assignNested tmpJSON).assignScalars objMap).assignValue objJSON
    obj1.Capacity = tmpJSON.Capacity ∧ obj1.Filters = tmpJSON.Filters ∧
    obj1.Links = tmpJSON.Links ∧ obj1.RelatedEntity = tmpJSON.RelatedEntity ∧
    obj1.Reserved = tmpJSON.Reserved ∧ obj1.Values = tmpJSON.Values := by
  intro obj1
  have hframe := assignValue_frame ((obj.assignNested tmpJSON).assignScalars objMap) objJSON
  refine ⟨?_, ?_, ?_, ?_, ?_, ?_⟩
  · show (StatApiDTO.assignValue _ objJSON).Capacity = _
    rw [hframe]; rfl
  · show (StatApiDTO.assignValue _ objJSON).Filters = _
    rw [hframe]; rfl
  · show (StatApiDTO.assignValue _ objJSON).Links = _
    rw [hframe]; rfl
  · show (StatApiDTO.assignValue _ objJSON).RelatedEntity = _
    rw [hframe]; rfl
  · show (StatApiDTO.assignValue _ objJSON).Reserved = _
    rw [hframe]; rfl
  · show (StatApiDTO.assignValue _ objJSON).Values = _
    rw [hframe]; rfl

/-- C13 (counterexample): two valid JSON object bodies without any of the six
nested keys. On `{"x": 1e999}` `UnmarshalJSON` fails, the untyped second pass
rejecting the number. On `{"CAPACITY": {"avg": 1}}` it succeeds with
`Capacity.Avg` 1, not zero, the first pass matching the key case-insensitively. -/
theorem UnmarshalJSON_without_nested_keys :
    (∀ kv ∈ [("x", JSON.num (.dec 1 999))], kv.1 ∉ nestedFields)
    ∧ StatApiDTO.UnmarshalJSON {} (.valid (.obj [("x", .num (.dec 1 999))])) =
      ({}, some (.jsonUnmarshalTypeError "number" "float64"))
    ∧ (∀ kv ∈ [("CAPACITY", JSON.obj [("avg", .num (.int 1))])], kv.1 ∉ nestedFields)
    ∧ StatApiDTO.UnmarshalJSON {}
        (.valid (.obj [("CAPACITY", .obj [("avg", .num (.int 1))])])) =
      ({ Capacity := { Avg := 1 } }, none) := by
  refine ⟨by decide, by decide, by decide, by decide⟩

/-- C13 (amended): for every JSON object body on which the typed decode of the
nested keys and the untyped decode into a map succeed, `UnmarshalJSON` succeeds,
and each of the nested fields `capacity`, `filters`, `links`, `relatedEntity`,
`reserved`, `values` that no member key selects, exactly or case-insensitively,
is the zero value in the record, whatever the receiver held. -/
theorem UnmarshalJSON_missing_nested (obj : StatApiDTO) (members : List (String × JSON))
    (tmpJSON : TmpJSON) (objMap : GoMap)
    (h1 : jsonUnmarshal TmpJSON.decode (.valid (.obj members)) {} = .ok tmpJSON)
    (h2 : jsonUnmarshal decodeMapInterface (.valid (.obj members)) [] = .ok objMap) :
    ∃ obj1, obj.UnmarshalJSON (.valid (.obj members)) = (obj1, none) ∧
      (keyMissing nestedFields "capacity" members → obj1.Capacity = {}) ∧
      (keyMissing nestedFields "filters" members → obj1.Filters = []) ∧
      (keyMissing nestedFields "links" members → obj1.Links = []) ∧
      (keyMissing nestedFields "relatedEntity" members → obj1.RelatedEntity = {}) ∧
      (keyMissing nestedFields "reserved" members → obj1.Reserved = {}) ∧
      (keyMissing nestedFields "values" members → obj1.Values = {}) := by
  obtain ⟨objJSON, -, -, heq⟩ := UnmarshalJSON_obj_of_passes obj members tmpJSON objMap h1 h2
  obtain ⟨n1, n2, n3, n4, n5, n6⟩ := nested_after_assignments obj tmpJSON objMap objJSON
  obtain ⟨setField, hdec, s1, s2, s3, s4, s5, s6⟩ := TmpJSON_decode_obj members {}
  have h1a : decodeStruct "struct" nestedFields setField (.obj members) {} = .ok tmpJSON := by
    rw [← hdec]; exact h1
  refine ⟨_, heq, ?_, ?_, ?_, ?_, ?_, ?_⟩
  · intro hm
    rw [n1]
    exact decodeStruct_obj_preserves _ _ _ (fun t => t.Capacity) _ s1 members _ _ hm h1a
  · intro hm
    rw [n2]
    exact decodeStruct_obj_preserves _ _ _ (fun t => t.Filters) _ s2 members _ _ hm h1a
  · intro hm
    rw [n3]
    exact decodeStruct_obj_preserves _ _ _ (fun t => t.Links) _ s3 members _ _ hm h1a
  · intro hm
    rw [n4]
    exact decodeStruct_obj_preserves _ _ _ (fun t => t.RelatedEntity) _ s4 members _ _ hm h1a
  · intro hm
    rw [n5]
    exact decodeStruct_obj_preserves _ _ _ (fun t => t.Reserved) _ s5 members _ _ hm h1a
  · intro hm
    rw [n6]
    exact decodeStruct_obj_preserves _ _ _ (fun t => t.Values) _ s6 members _ _ hm h1a

/-- C13 (amended) at the body `{"capacity": {"max": 8}, "name": "cpu"}`, the
receiver holding old nested values: `capacity` is taken, the five missing
nested fields become zero. -/
theorem UnmarshalJSON_missing_nested_witness :
    ∃ obj1, StatApiDTO.UnmarshalJSON
        { Reserved := { Avg := 5 }, Filters := [{ Value := "old" }], Links := [{ Rel := "r" }] }
        (.valid (.obj [("capacity", .obj [("max", .num (.int 8))]), ("name", .str "cpu")])) =
        (obj1, none) ∧
      (keyMissing nestedFields "capacity"
          [("capacity", .obj [("max", .num (.int 8))]), ("name", .str "cpu")] →
        obj1.Capacity = {}) ∧
      (keyMissing nestedFields "filters"
          [("capacity", .obj [("max", .num (.int 8))]), ("name", .str "cpu")] →
        obj1.Filters = []) ∧
      (keyMissing nestedFields "links"
          [("capacity", .obj [("max", .num (.int 8))]), ("name", .str "cpu")] →
        obj1.Links = []) ∧
      (keyMissing nestedFields "relatedEntity"
          [("capacity", .obj [("max", .num (.int 8))]), ("name", .str "cpu")] →
        obj1.RelatedEntity = {}) ∧
      (keyMissing nestedFields "reserved"
          [("capacity", .obj [("max", .num (.int 8))]), ("name", .str "cpu")] →
        obj1.Reserved = {}) ∧
      (keyMissing nestedFields "values"
          [("capacity", .obj [("max", .num (.int 8))]), ("name", .str "cpu")] →
        obj1.Values = {}) :=
  UnmarshalJSON_missing_nested
    { Reserved := { Avg := 5 }, Filters := [{ Value := "old" }], Links := [{ Rel := "r" }] }
    [("capacity", .obj [("max", .num (.int 8))]), ("name", .str "cpu")]
    { Capacity := { Max := 8 } }
    [("capacity", .map [("max", .float64 (.finite 8 0))]), ("name", .string "cpu")] rfl rfl

/-! ## Theorems: the extraction of the placement result -/

/-- Looking up the key just set. -/
theorem lookup_setAttr_self (key : String) (v : AttrValue) (l : List (String × AttrValue)) :
    (setAttr key v l).lookup key = some v := by
  induction l with
  | nil => simp [setAttr, List.lookup]
  | cons hd rest ih =>
    obtain ⟨k, w⟩ := hd
    by_cases h : k = key
    · simp [setAttr, h, List.lookup]
    · have hb : (key == k) = false := by
        simpa using fun hk : key = k => h hk.symm
      simp [setAttr, h, List.lookup, hb, ih]

/-- Looking up another key than the one just set. -/
theorem lookup_setAttr_ne (key other : String) (v : AttrValue)
    (l : List (String × AttrValue)) (hne : other ≠ key) :
    (setAttr key v l).lookup other = l.lookup other := by
  induction l with
  | nil =>
    have hb : (other == key) = false := by simpa using hne
    simp [setAttr, List.lookup, hb]
  | cons hd rest ih =>
    obtain ⟨k, w⟩ := hd
    by_cases h : k = key
    · subst h
      have hb : (other == k) = false := by simpa using hne
      simp [setAttr, List.lookup, hb]
    · by_cases h2 : other = k
      · subst h2
        simp [setAttr, h, List.lookup]
      · have hb : (other == k) = false := by simpa using h2
        simp [setAttr, h, List.lookup, hb, ih]

/-- `d.Get(key)` right after `d.Set(key, v)`. -/
theorem ResourceData.Get_Set_self (d : ResourceData) (key : String) (v : AttrValue) :
    (d.Set key v).Get key = some v :=
  lookup_setAttr_self key v d.attrs

/-- `d.Get(other)` is not touched by `d.Set(key, v)`. -/
theorem ResourceData.Get_Set_ne (d : ResourceData) (key other : String) (v : AttrValue)
    (hne : other ≠ key) : (d.Set key v).Get other = d.Get other :=
  lookup_setAttr_ne key other v d.attrs hne

/-- C14: for every response with a first demand entity that has a first compute
and a first storage resource, `setResourceDataFromReservation` returns a nil
error; afterwards `compute_provider` and `storage_provider` are the display names
of the providers of these two first resources and `status` is the response
status; every other attribute and the resource ID are as before. The further
entities and resources play no part. -/
theorem setResourceDataFromReservation_sets (d : ResourceData) (r : ReservationResponse)
    (e : DemandEntity) (es : List DemandEntity) (c : ComputeResource)
    (cs : List ComputeResource) (s : StorageResource) (ss : List StorageResource)
    (he : r.DemandEntities = e :: es) (hc : e.Placements.ComputeResources = c :: cs)
    (hst : e.Placements.StorageResources = s :: ss) :
    ∃ d1, setResourceDataFromReservation d r = .returned (d1, none) ∧
      d1.Get "compute_provider" = some (.str c.Provider.DisplayName) ∧
      d1.Get "storage_provider" = some (.str s.Provider.DisplayName) ∧
      d1.Get "status" = some (.str r.Status) ∧
      d1.Id = d.Id ∧
      ∀ key, key ≠ "compute_provider" → key ≠ "storage_provider" → key ≠ "status" →
        d1.Get key = d.Get key := by
  refine ⟨_, setResourceDataFromReservation_of_first d r e es c cs s ss he hc hst,
    ?_, ?_, ?_, rfl, ?_⟩
  · rw [ResourceData.Get_Set_ne _ _ _ _ (by decide), ResourceData.Get_Set_ne _ _ _ _ (by decide),
      ResourceData.Get_Set_self]
  · rw [ResourceData.Get_Set_ne _ _ _ _ (by decide), ResourceData.Get_Set_self]
  · rw [ResourceData.Get_Set_self]
  · intro key h1 h2 h3
    rw [ResourceData.Get_Set_ne _ _ _ _ h3, ResourceData.Get_Set_ne _ _ _ _ h2,
      ResourceData.Get_Set_ne _ _ _ _ h1]

/-- C14 at a response with two demand entities, the resource holding an
`entity_name` and an old `status`. -/
theorem setResourceDataFromReservation_sets_witness :
    ∃ d1, setResourceDataFromReservation
        { id := "job-1", attrs := [("entity_name", .str "vm-1"), ("status", .str "LOADING")] }
        { Status := "RESERVED", DemandEntities := [placedEntity, {}] } = .returned (d1, none) ∧
      d1.Get "compute_provider" = some (.str "host-1") ∧
      d1.Get "storage_provider" = some (.str "lun-1") ∧
      d1.Get "status" = some (.str "RESERVED") ∧
      d1.Id = "job-1" ∧
      ∀ key, key ≠ "compute_provider" → key ≠ "storage_provider" → key ≠ "status" →
        d1.Get key = ResourceData.Get
          { id := "job-1", attrs := [("entity_name", .str "vm-1"), ("status", .str "LOADING")] }
          key :=
  setResourceDataFromReservation_sets
    { id := "job-1", attrs := [("entity_name", .str "vm-1"), ("status", .str "LOADING")] }
    { Status := "RESERVED", DemandEntities := [placedEntity, {}] } placedEntity [{}]
    { Provider := { DisplayName := "host-1" } } [] { Provider := { DisplayName := "lun-1" } } []
    rfl rfl rfl

/-! ## Theorems: traces of the client methods -/

theorem readsOf_append (t u : Trace) : readsOf (t ++ u) = readsOf t ++ readsOf u := by
  induction t with
  | nil => rfl
  | cons e rest ih => cases e <;> simp [readsOf, ih]

theorem deletesOf_append (t u : Trace) : deletesOf (t ++ u) = deletesOf t ++ deletesOf u := by
  induction t with
  | nil => rfl
  | cons e rest ih => cases e <;> simp [deletesOf, ih]

/-- A status read adds one `ReadReservation` call and no delete to the trace. -/
theorem ReadReservation_trace (c : Client) (uuid : String) (t : Trace) :
    readsOf (c.ReadReservation uuid t).2 = readsOf t ++ [uuid] ∧
    deletesOf (c.ReadReservation uuid t).2 = deletesOf t := by
  unfold Client.ReadReservation
  cases c.NewRequest "GET" ("/" ++ ReservationsPrefix ++ "/" ++ uuid) none with
  | error e => simp [readsOf_append, deletesOf_append, readsOf, deletesOf]
  | ok req =>
    simp [Client.SendAndParse, readsOf_append, deletesOf_append, readsOf, deletesOf]

/-- A delete adds one `DeleteReservation` call and no read to the trace. -/
theorem DeleteReservation_trace (c : Client) (uuid : String) (t : Trace) :
    deletesOf (c.DeleteReservation uuid t).2 = deletesOf t ++ [uuid] ∧
    readsOf (c.DeleteReservation uuid t).2 = readsOf t := by
  unfold Client.DeleteReservation
  cases c.NewRequest "DELETE" ("/" ++ ReservationsPrefix ++ "/" ++ uuid) none with
  | error e => simp [readsOf_append, deletesOf_append, readsOf, deletesOf]
  | ok req =>
    simp only [Client.SendAndParse]
    cases c.answer (t ++ [Event.DeleteReservation uuid]) req <;>
      simp [readsOf_append, deletesOf_append, readsOf, deletesOf]

/-- A creation adds neither a read nor a delete to the trace. -/
theorem CreateReservation_trace (c : Client) (rCreate : ReservationCreate) (blocking : Bool)
    (t : Trace) :
    readsOf (c.CreateReservation rCreate blocking t).2 = readsOf t ∧
    deletesOf (c.CreateReservation rCreate blocking t).2 = deletesOf t := by
  unfold Client.CreateReservation
  simp only [jsonMarshalReservationCreate]
  split
  · simp [readsOf_append, deletesOf_append, readsOf, deletesOf]
  · simp [Client.SendAndParse, readsOf_append, deletesOf_append, readsOf, deletesOf]

/-- The extraction keeps the resource ID. -/
theorem setResourceDataFromReservation_id (d d1 : ResourceData) (r : ReservationResponse)
    (e : Option GoError) (h : setResourceDataFromReservation d r = .returned (d1, e)) :
    d1.Id = d.Id := by
  unfold setResourceDataFromReservation at h
  split_ifs at h
  · cases h; rfl
  · split at h
    · cases h
    · split at h
      · cases h
      · split at h
        · cases h
        · cases h; rfl

/-- A refresh keeps the resource ID. -/
theorem refreshReservation_id (d d1 : ResourceData) (read : ReadReservationFn)
    (res : RefreshResult) (h : refreshReservation d read = .returned (res, d1)) :
    d1.Id = d.Id := by
  unfold refreshReservation at h
  split at h
  · cases h; rfl
  · split_ifs at h
    all_goals first
      | (cases h; rfl)
      | (split at h
         · cases h
         · rename_i heq
           cases h
           exact setResourceDataFromReservation_id _ _ _ _ heq)

/-- A refresh step reads once and keeps the resource ID. -/
theorem refreshStep_frame (c : Client) (d d1 : ResourceData) (t t1 : Trace)
    (res : RefreshResult) (h : refreshStep c (d, t) = .returned (res, (d1, t1))) :
    t1 = (c.ReadReservation d.Id t).2 ∧ d1.Id = d.Id := by
  unfold refreshStep at h
  split at h
  · cases h
  · rename_i heq
    cases h
    exact ⟨rfl, refreshReservation_id _ _ _ _ heq⟩

/-- The wait keeps the resource ID and issues no delete. -/
theorem waitLoop_frame (conf : StateChangeConf) (c : Client) :
    ∀ (polls tick : Nat) (last : String) (d : ResourceData) (t : Trace)
      (x : Option ReservationResponse × Option GoError) (d2 : ResourceData) (t2 : Trace),
      waitLoop conf (refreshStep c) polls tick last (d, t) = .returned (x, (d2, t2)) →
      d2.Id = d.Id ∧ deletesOf t2 = deletesOf t := by
  intro polls
  induction polls with
  | zero =>
    intro tick last d t x d2 t2 h
    simp only [waitLoop, Outcome.returned.injEq, Prod.mk.injEq] at h
    obtain ⟨-, hd, ht⟩ := h
    subst hd; subst ht
    exact ⟨rfl, rfl⟩
  | succ n ih =>
    intro tick last d t x d2 t2 h
    simp only [waitLoop] at h
    cases hr : refreshStep c (d, t) with
    | panicked msg => rw [hr] at h; cases h
    | returned p =>
      obtain ⟨res, d1, t1⟩ := p
      rw [hr] at h
      obtain ⟨ht1, hd1⟩ := refreshStep_frame c d d1 t t1 res hr
      have hdel : deletesOf t1 = deletesOf t := by
        rw [ht1]; exact (ReadReservation_trace c d.Id t).2
      have hstop : ∀ y, Outcome.returned (y, (d1, t1)) =
          (Outcome.returned (x, (d2, t2)) :
            Outcome ((Option ReservationResponse × Option GoError) × (ResourceData × Trace))) →
          d2.Id = d.Id ∧ deletesOf t2 = deletesOf t := by
        intro y hy
        simp only [Outcome.returned.injEq, Prod.mk.injEq] at hy
        obtain ⟨-, hd, ht⟩ := hy
        subst hd; subst ht
        exact ⟨hd1, hdel⟩
      have hgo : ∀ k l, waitLoop conf (refreshStep c) n k l (d1, t1) =
          .returned (x, (d2, t2)) → d2.Id = d.Id ∧ deletesOf t2 = deletesOf t := by
        intro k l hk
        obtain ⟨a, b⟩ := ih k l d1 t1 x d2 t2 hk
        exact ⟨a.trans hd1, b.trans hdel⟩
      simp only at h
      split at h
      · exact hstop _ h
      · split at h
        · split_ifs at h
          · exact hstop _ h
          · exact hstop _ h
          · exact hgo _ _ h
        · split_ifs at h
          · exact hstop _ h
          · exact hgo _ _ h
          · exact hstop _ h
          · exact hgo _ _ h

/-! ## Theorems: create and delete of the reservation resource -/

/-- C16: when the creation call returned `res` and the wait ends with an error
`err`, `resourceTurboReservationCreate` calls `DeleteReservation` exactly once
more, with `res.UUID`, sets the resource ID to the empty string and returns a
non-nil error; when the wait ends without error it calls no delete and the
resource ID is `res.UUID`. -/
theorem resourceTurboReservationCreate_compensates (d : ResourceData) (client : Client)
    (polls : Nat) (t t1 : Trace) (res : ReservationResponse)
    (x : Option ReservationResponse) (werr : Option GoError) (d2 : ResourceData) (t2 : Trace)
    (hcreate : client.CreateReservation (buildReservationCreate d)
      (d.GetBool "reservation_blocking_req") t = (.ok res, t1))
    (hwait : WaitForState stateConf (refreshStep client) polls (d.SetId res.UUID, t1) =
      .returned ((x, werr), (d2, t2))) :
    match werr with
    | some err =>
      resourceTurboReservationCreate d client polls t =
          .returned ((d2.SetId "", some (waitFailure res.UUID err)),
            (client.DeleteReservation res.UUID t2).2)
        ∧ deletesOf (client.DeleteReservation res.UUID t2).2 = deletesOf t ++ [res.UUID]
        ∧ (d2.SetId "").Id = ""
    | none =>
      resourceTurboReservationCreate d client polls t = .returned ((d2, none), t2)
        ∧ deletesOf t2 = deletesOf t
        ∧ d2.Id = res.UUID := by
  have hct : deletesOf t1 = deletesOf t := by
    have := (CreateReservation_trace client (buildReservationCreate d)
      (d.GetBool "reservation_blocking_req") t).2
    rwa [hcreate] at this
  obtain ⟨hid, hdel⟩ := waitLoop_frame stateConf client polls 0 "" (d.SetId res.UUID) t1
    (x, werr) d2 t2 hwait
  cases werr with
  | some err =>
    refine ⟨?_, ?_, rfl⟩
    · simp only [resourceTurboReservationCreate, hcreate, hwait]
    · rw [(DeleteReservation_trace client res.UUID t2).1, hdel, hct]
  | none =>
    refine ⟨?_, hdel.trans hct, hid⟩
    simp only [resourceTurboReservationCreate, hcreate, hwait]

/-- C16 at a run whose first status read answers `PLACEMENT_FAILED`: one delete
for `job-1`, the resource ID cleared, the placement-failed error wrapped. -/
theorem resourceTurboReservationCreate_compensates_witness :
    resourceTurboReservationCreate sampleConfig
        (scriptedClient createdJob [.ok { Status := "PLACEMENT_FAILED" }] none) 3 [] =
      .returned ((sampleConfig.SetId "",
          some (waitFailure "job-1" placementFailedError)),
        (Client.DeleteReservation
          (scriptedClient createdJob [.ok { Status := "PLACEMENT_FAILED" }] none) "job-1"
          (Client.ReadReservation
            (scriptedClient createdJob [.ok { Status := "PLACEMENT_FAILED" }] none) "job-1"
            (Client.CreateReservation
              (scriptedClient createdJob [.ok { Status := "PLACEMENT_FAILED" }] none)
              (buildReservationCreate sampleConfig) false []).2).2).2)
    ∧ deletesOf (Client.DeleteReservation
          (scriptedClient createdJob [.ok { Status := "PLACEMENT_FAILED" }] none) "job-1"
          (Client.ReadReservation
            (scriptedClient createdJob [.ok { Status := "PLACEMENT_FAILED" }] none) "job-1"
            (Client.CreateReservation
              (scriptedClient createdJob [.ok { Status := "PLACEMENT_FAILED" }] none)
              (buildReservationCreate sampleConfig) false []).2).2).2 = deletesOf [] ++ ["job-1"]
    ∧ (sampleConfig.SetId "").Id = "" :=
  resourceTurboReservationCreate_compensates sampleConfig
    (scriptedClient createdJob [.ok { Status := "PLACEMENT_FAILED" }] none) 3 []
    (Client.CreateReservation
      (scriptedClient createdJob [.ok { Status := "PLACEMENT_FAILED" }] none)
      (buildReservationCreate sampleConfig) false []).2
    createdJob (some { Status := "PLACEMENT_FAILED" }) (some placementFailedError)
    (sampleConfig.SetId "job-1")
    (Client.ReadReservation
      (scriptedClient createdJob [.ok { Status := "PLACEMENT_FAILED" }] none) "job-1"
      (Client.CreateReservation
        (scriptedClient createdJob [.ok { Status := "PLACEMENT_FAILED" }] none)
        (buildReservationCreate sampleConfig) false []).2).2
    rfl rfl

/-- Two clients that answer status reads alike refresh alike. -/
theorem refreshStep_congr (c1 c2 : Client)
    (hread : ∀ uuid t, c1.ReadReservation uuid t = c2.ReadReservation uuid t) :
    refreshStep c1 = refreshStep c2 := by
  funext st
  have hfun : (fun uuid => (c1.ReadReservation uuid st.2).1) =
      (fun uuid => (c2.ReadReservation uuid st.2).1) := by
    funext uuid; rw [hread]
  simp only [refreshStep, hfun, hread]

/-- C15: let two clients answer `CreateReservation` and `ReadReservation` alike,
so that two runs of `resourceTurboReservationCreate` can differ only in how
`DeleteReservation` ends. Then both runs return the same error (and leave the
same resource data). When the creation returned `res` and the wait ended with
the error `err`, the returned error is `waitFailure res.UUID err`, made of the
job UUID and the wait error only. -/
theorem resourceTurboReservationCreate_error_precedence (d : ResourceData) (c1 c2 : Client)
    (polls : Nat) (t : Trace)
    (hcreate : ∀ rCreate blocking t0,
      c1.CreateReservation rCreate blocking t0 = c2.CreateReservation rCreate blocking t0)
    (hread : ∀ uuid t0, c1.ReadReservation uuid t0 = c2.ReadReservation uuid t0) :
    (resourceTurboReservationCreate d c1 polls t).result =
        (resourceTurboReservationCreate d c2 polls t).result
    ∧ ∀ res t1 x err st,
        c1.CreateReservation (buildReservationCreate d)
          (d.GetBool "reservation_blocking_req") t = (.ok res, t1) →
        WaitForState stateConf (refreshStep c1) polls (d.SetId res.UUID, t1) =
          .returned ((x, some err), st) →
        (resourceTurboReservationCreate d c1 polls t).result =
          .returned (st.1.SetId "", some (waitFailure res.UUID err)) := by
  constructor
  · simp only [resourceTurboReservationCreate, ← hcreate, ← refreshStep_congr c1 c2 hread]
    cases hc : c1.CreateReservation (buildReservationCreate d)
      (d.GetBool "reservation_blocking_req") t with
    | mk r t1 =>
      cases r with
      | error e => rfl
      | ok res =>
        simp only
        cases hw : WaitForState stateConf (refreshStep c1) polls (d.SetId res.UUID, t1) with
        | panicked msg => rfl
        | returned p =>
          obtain ⟨⟨x, werr⟩, d2, t2⟩ := p
          cases werr <;> rfl
  · intro res t1 x err st hc hw
    obtain ⟨d2, t2⟩ := st
    simp only [resourceTurboReservationCreate, hc, hw, Outcome.result]

/-- C15 at two runs whose only status read answers `PLACEMENT_FAILED`, the
delete succeeding in one and failing in the other. -/
theorem resourceTurboReservationCreate_error_precedence_witness :
    (resourceTurboReservationCreate sampleConfig
        (scriptedClient createdJob [.ok { Status := "PLACEMENT_FAILED" }] none) 3 []).result =
      (resourceTurboReservationCreate sampleConfig
        (scriptedClient createdJob [.ok { Status := "PLACEMENT_FAILED" }]
          (some (.transportError "503 Service Unavailable"))) 3 []).result :=
  (resourceTurboReservationCreate_error_precedence sampleConfig
    (scriptedClient createdJob [.ok { Status := "PLACEMENT_FAILED" }] none)
    (scriptedClient createdJob [.ok { Status := "PLACEMENT_FAILED" }]
      (some (.transportError "503 Service Unavailable"))) 3 []
    (fun _ _ _ => rfl) (fun _ _ => rfl)).1

/-- C17: when `CreateReservation` fails, `resourceTurboReservationCreate` returns
that very error, leaves the resource data, its ID included, as they were, and
calls neither `ReadReservation` nor `DeleteReservation`. -/
theorem resourceTurboReservationCreate_create_fails (d : ResourceData) (client : Client)
    (polls : Nat) (t t1 : Trace) (err : GoError)
    (hcreate : client.CreateReservation (buildReservationCreate d)
      (d.GetBool "reservation_blocking_req") t = (.error err, t1)) :
    resourceTurboReservationCreate d client polls t = .returned ((d, some err), t1)
    ∧ readsOf t1 = readsOf t ∧ deletesOf t1 = deletesOf t := by
  have htr := CreateReservation_trace client (buildReservationCreate d)
    (d.GetBool "reservation_blocking_req") t
  rw [hcreate] at htr
  refine ⟨?_, htr.1, htr.2⟩
  simp only [resourceTurboReservationCreate, hcreate]

/-- C17 at a client whose request cannot be built. -/
theorem resourceTurboReservationCreate_create_fails_witness :
    resourceTurboReservationCreate sampleConfig brokenClient 3 [] =
      .returned ((sampleConfig, some (.transportError "parse: invalid URL")),
        [.CreateReservation (buildReservationCreate sampleConfig) false])
    ∧ readsOf [Event.CreateReservation (buildReservationCreate sampleConfig) false] =
        readsOf []
    ∧ deletesOf [Event.CreateReservation (buildReservationCreate sampleConfig) false] =
        deletesOf [] :=
  resourceTurboReservationCreate_create_fails sampleConfig brokenClient 3 []
    [.CreateReservation (buildReservationCreate sampleConfig) false]
    (.transportError "parse: invalid URL") rfl

/-- C19: `resourceTurboReservationDelete` first reads the reservation. If the
read fails it returns nil and calls no delete; if the read succeeds it calls
`DeleteReservation` once, with the resource ID, and returns what that call
returns. So it returns an error exactly when the read succeeds and the delete
fails. -/
theorem resourceTurboReservationDelete_spec (d : ResourceData) (client : Client) (t : Trace) :
    (∀ err t1, client.ReadReservation d.Id t = (.error err, t1) →
      resourceTurboReservationDelete d client t = (none, t1) ∧ deletesOf t1 = deletesOf t)
    ∧ (∀ r t1, client.ReadReservation d.Id t = (.ok r, t1) →
      resourceTurboReservationDelete d client t = client.DeleteReservation d.Id t1 ∧
      deletesOf (resourceTurboReservationDelete d client t).2 = deletesOf t ++ [d.Id])
    ∧ ((∃ e, (resourceTurboReservationDelete d client t).1 = some e) ↔
      ∃ r t1, client.ReadReservation d.Id t = (.ok r, t1) ∧
        ∃ e, (client.DeleteReservation d.Id t1).1 = some e) := by
  have htr := (ReadReservation_trace client d.Id t).2
  refine ⟨?_, ?_, ?_⟩
  · intro err t1 h
    rw [h] at htr
    exact ⟨by simp only [resourceTurboReservationDelete, h], htr⟩
  · intro r t1 h
    rw [h] at htr
    have heq : resourceTurboReservationDelete d client t = client.DeleteReservation d.Id t1 := by
      simp only [resourceTurboReservationDelete, h]
    refine ⟨heq, ?_⟩
    rw [heq, (DeleteReservation_trace client d.Id t1).1, htr]
  · cases h : client.ReadReservation d.Id t with
    | mk res t1 =>
      cases res with
      | error err =>
        simp only [resourceTurboReservationDelete, h]
        constructor
        · rintro ⟨e, he⟩; cases he
        · rintro ⟨r, t2, hr, -⟩; cases hr
      | ok r =>
        simp only [resourceTurboReservationDelete, h]
        constructor
        · rintro ⟨e, he⟩; exact ⟨r, t1, rfl, e, he⟩
        · rintro ⟨r2, t2, hr, e, he⟩
          cases hr
          exact ⟨e, he⟩

/-- C19 at a reservation the service no longer knows: the read fails, nothing
is deleted, nil is returned. -/
theorem resourceTurboReservationDelete_spec_witness :
    resourceTurboReservationDelete jobData
        (scriptedClient createdJob [.error (.transportError "404 Not Found")] none) [] =
      (none, (Client.ReadReservation
        (scriptedClient createdJob [.error (.transportError "404 Not Found")] none)
        "job-1" []).2)
    ∧ deletesOf (Client.ReadReservation
        (scriptedClient createdJob [.error (.transportError "404 Not Found")] none)
        "job-1" []).2 = deletesOf [] :=
  (resourceTurboReservationDelete_spec jobData
    (scriptedClient createdJob [.error (.transportError "404 Not Found")] none) []).1
    (.transportError "404 Not Found") _ rfl

/-- C18: let `req` be the request `NewRequest` builds for the `POST` of the
encoded `rCreate`. For either value of `blocking`, `CreateReservation` sends
`req` with its query changed by `Set("apiCallBlock", v)`, where `v` is `"true"`
for `blocking` and `"false"` otherwise: the key has this single value, the other
keys, the method, the URL and the body are those of `req`, which does not
depend on `blocking`. When `NewRequest` fails nothing is sent. -/
theorem CreateReservation_apiCallBlock (c : Client) (rCreate : ReservationCreate) (t : Trace)
    (resJSON : JSON) (hjson : jsonMarshalReservationCreate rCreate = .ok resJSON) :
    (∀ req, c.NewRequest "POST" ("/" ++ ReservationsPrefix) (some resJSON) = .ok req →
      ∀ blocking : Bool, ∃ sentReq : Request,
        c.CreateReservation rCreate blocking t =
          (c.answer (t ++ [.CreateReservation rCreate blocking]) sentReq,
            t ++ [.CreateReservation rCreate blocking, .sent sentReq])
        ∧ sentReq.Query.filter (fun kv => kv.1 = "apiCallBlock") =
          [("apiCallBlock", [if blocking then "true" else "false"])]
        ∧ sentReq.Query.filter (fun kv => kv.1 ≠ "apiCallBlock") =
          req.Query.filter (fun kv => kv.1 ≠ "apiCallBlock")
        ∧ sentReq.Method = req.Method ∧ sentReq.URL = req.URL ∧ sentReq.Body = req.Body)
    ∧ (∀ err, c.NewRequest "POST" ("/" ++ ReservationsPrefix) (some resJSON) = .error err →
      ∀ blocking : Bool,
        c.CreateReservation rCreate blocking t =
          (.error err, t ++ [.CreateReservation rCreate blocking])) := by
  constructor
  · intro req hreq blocking
    refine ⟨{ req with Query :=
      if blocking then req.Query.Set "apiCallBlock" "true"
      else req.Query.Set "apiCallBlock" "false" }, ?_, ?_, ?_, rfl, rfl, rfl⟩
    · simp [Client.CreateReservation, hjson, hreq, Client.SendAndParse]
    · cases blocking <;> simp [Values.Set, List.filter_append, List.filter_filter]
    · cases blocking <;> simp [Values.Set, List.filter_append, List.filter_filter]
  · intro err hreq blocking
    simp only [Client.CreateReservation, hjson, hreq]

/-- C18 at a client whose requests already carry a query, for `blocking` true. -/
theorem CreateReservation_apiCallBlock_witness :
    ∃ sentReq : Request,
      Client.CreateReservation queryClient (buildReservationCreate sampleConfig) true [] =
        (.ok createdJob,
          [.CreateReservation (buildReservationCreate sampleConfig) true, .sent sentReq])
      ∧ sentReq.Query.filter (fun kv => kv.1 = "apiCallBlock") = [("apiCallBlock", ["true"])]
      ∧ sentReq.Query.filter (fun kv => kv.1 ≠ "apiCallBlock") = [("q", ["1"])]
      ∧ sentReq.Method = "POST" ∧ sentReq.URL = "/reservations"
      ∧ sentReq.Body = (jsonMarshalReservationCreate (buildReservationCreate sampleConfig)).toOption :=
  (CreateReservation_apiCallBlock queryClient (buildReservationCreate sampleConfig) [] _
    rfl).1 _ rfl true

/-- A pending status is not a target status. -/
theorem pending_not_target (status : String) (h : status ∈ stateConf.Pending) :
    status ∉ stateConf.Target := by
  simp only [stateConf, List.mem_cons, List.mem_singleton, List.not_mem_nil, or_false] at h
  rcases h with h | h | h | h | h <;> rw [h] <;> decide

/-- The wait over pending answers followed by a complete target answer: it ends
at that answer with a nil error, the three attributes written, after one read
per answer. -/
theorem waitLoop_success (client : Client) (uuid : String) (rf : ReservationResponse)
    (e : DemandEntity) (es : List DemandEntity) (c : ComputeResource)
    (cs : List ComputeResource) (s : StorageResource) (ss : List StorageResource)
    (hfinal : rf.Status = "PLACEMENT_SUCCEEDED" ∨ rf.Status = "RESERVED")
    (he : rf.DemandEntities = e :: es) (hc : e.Placements.ComputeResources = c :: cs)
    (hst : e.Placements.StorageResources = s :: ss) (d : ResourceData) (hid : d.Id = uuid) :
    ∀ (ps : List ReservationResponse) (polls tick : Nat) (last : String) (t : Trace),
      ReadsAnswer client uuid t (ps ++ [rf]) →
      (∀ p ∈ ps, p.Status ∈ stateConf.Pending) → ps.length < polls →
      ∃ t2, waitLoop stateConf (refreshStep client) polls tick last (d, t) =
          .returned ((some rf, none),
            ((((d.Set "compute_provider" (.str c.Provider.DisplayName)).Set
              "storage_provider" (.str s.Provider.DisplayName)).Set "status"
              (.str rf.Status)), t2)) ∧
        readsOf t2 = readsOf t ++ List.replicate (ps.length + 1) uuid := by
  intro ps
  induction ps with
  | nil =>
    intro polls tick last t hreads _ hpolls
    obtain ⟨n, rfl⟩ : ∃ n, polls = n + 1 := ⟨polls - 1, by simp at hpolls; omega⟩
    simp only [List.nil_append, ReadsAnswer] at hreads
    have hread : (fun u => (client.ReadReservation u t).1) d.Id = .ok rf := by
      show (client.ReadReservation d.Id t).1 = .ok rf
      rw [hid]; exact hreads.1
    have href := refreshReservation_of_target d (fun u => (client.ReadReservation u t).1) rf e es
      c cs s ss hread hfinal he hc hst
    have htarget : rf.Status ∈ stateConf.Target := by
      rcases hfinal with h | h <;> rw [h] <;> decide
    refine ⟨(client.ReadReservation d.Id t).2, ?_, ?_⟩
    · simp only [waitLoop, refreshStep, href, htarget, if_true]
    · rw [(ReadReservation_trace client d.Id t).1, hid]
      rfl
  | cons p rest ih =>
    intro polls tick last t hreads hpend hpolls
    obtain ⟨n, rfl⟩ : ∃ n, polls = n + 1 := ⟨polls - 1, by simp at hpolls; omega⟩
    simp only [List.cons_append, ReadsAnswer] at hreads
    have hp : p.Status ∈ stateConf.Pending := hpend p (List.mem_cons_self _ _)
    have hread : (fun u => (client.ReadReservation u t).1) d.Id = .ok p := by
      show (client.ReadReservation d.Id t).1 = .ok p
      rw [hid]; exact hreads.1
    have href := refreshReservation_of_pending d (fun u => (client.ReadReservation u t).1) p
      hread hp
    have hnt := pending_not_target p.Status hp
    obtain ⟨t2, hw, hr⟩ := ih n 0 p.Status (client.ReadReservation d.Id t).2
      (by rw [hid]; exact hreads.2)
      (fun q hq => hpend q (List.mem_cons_of_mem _ hq))
      (by simp only [List.length_cons] at hpolls; omega)
    refine ⟨t2, ?_, ?_⟩
    · simp only [waitLoop, refreshStep, href, hnt, hp, if_true, if_false]
      exact hw
    · rw [hr, (ReadReservation_trace client d.Id t).1, hid, List.append_assoc]
      rfl

/-- C20: let the creation call return `res`, and let the status reads that
follow answer, in order, the pending-status responses `ps` and then `rf`, whose
status is `PLACEMENT_SUCCEEDED` or `RESERVED` and whose first demand entity has a
first compute and a first storage resource; let more than `ps.length` refreshes
fit into the timeout. Then `resourceTurboReservationCreate` returns nil, the
resource ID is `res.UUID`, `compute_provider`, `storage_provider` and `status`
are those of `rf`, exactly `ps.length + 1` reads were issued (none after the
terminal one), and no delete. -/
theorem resourceTurboReservationCreate_success (d : ResourceData) (client : Client)
    (polls : Nat) (t t1 : Trace) (res : ReservationResponse)
    (ps : List ReservationResponse) (rf : ReservationResponse)
    (e : DemandEntity) (es : List DemandEntity) (c : ComputeResource)
    (cs : List ComputeResource) (s : StorageResource) (ss : List StorageResource)
    (hcreate : client.CreateReservation (buildReservationCreate d)
      (d.GetBool "reservation_blocking_req") t = (.ok res, t1))
    (hreads : ReadsAnswer client res.UUID t1 (ps ++ [rf]))
    (hpending : ∀ p ∈ ps, p.Status ∈ stateConf.Pending)
    (hfinal : rf.Status = "PLACEMENT_SUCCEEDED" ∨ rf.Status = "RESERVED")
    (he : rf.DemandEntities = e :: es) (hc : e.Placements.ComputeResources = c :: cs)
    (hst : e.Placements.StorageResources = s :: ss)
    (hpolls : ps.length < polls) :
    ∃ d2 t2, resourceTurboReservationCreate d client polls t = .returned ((d2, none), t2) ∧
      d2.Id = res.UUID ∧
      d2.Get "compute_provider" = some (.str c.Provider.DisplayName) ∧
      d2.Get "storage_provider" = some (.str s.Provider.DisplayName) ∧
      d2.Get "status" = some (.str rf.Status) ∧
      readsOf t2 = readsOf t ++ List.replicate (ps.length + 1) res.UUID ∧
      deletesOf t2 = deletesOf t := by
  obtain ⟨t2, hw, hr⟩ := waitLoop_success client res.UUID rf e es c cs s ss hfinal he hc hst
    (d.SetId res.UUID) rfl ps polls 0 "" t1 hreads hpending hpolls
  have htr := CreateReservation_trace client (buildReservationCreate d)
    (d.GetBool "reservation_blocking_req") t
  rw [hcreate] at htr
  obtain ⟨-, hdel⟩ := waitLoop_frame stateConf client polls 0 "" (d.SetId res.UUID) t1 _ _ t2 hw
  refine ⟨(((d.SetId res.UUID).Set "compute_provider" (.str c.Provider.DisplayName)).Set
    "storage_provider" (.str s.Provider.DisplayName)).Set "status" (.str rf.Status), t2,
    ?_, rfl, ?_, ?_, ?_, ?_, hdel.trans htr.2⟩
  · simp only [resourceTurboReservationCreate, hcreate, WaitForState, hw]
  · rw [ResourceData.Get_Set_ne _ _ _ _ (by decide), ResourceData.Get_Set_ne _ _ _ _ (by decide),
      ResourceData.Get_Set_self]
  · rw [ResourceData.Get_Set_ne _ _ _ _ (by decide), ResourceData.Get_Set_self]
  · rw [ResourceData.Get_Set_self]
  · rw [hr, htr.1]

/-- C20 at the scenario of the specification: the first read answers `LOADING`,
the second `PLACEMENT_SUCCEEDED` with `host-1` and `lun-1`. -/
theorem resourceTurboReservationCreate_success_witness :
    ∃ d2 t2, resourceTurboReservationCreate sampleConfig
        (scriptedClient createdJob [.ok { Status := "LOADING" }, .ok succeededJob] none) 5 [] =
        .returned ((d2, none), t2) ∧
      d2.Id = "job-1" ∧
      d2.Get "compute_provider" = some (.str "host-1") ∧
      d2.Get "storage_provider" = some (.str "lun-1") ∧
      d2.Get "status" = some (.str "PLACEMENT_SUCCEEDED") ∧
      readsOf t2 = readsOf [] ++ List.replicate (1 + 1) "job-1" ∧
      deletesOf t2 = deletesOf [] :=
  resourceTurboReservationCreate_success sampleConfig
    (scriptedClient createdJob [.ok { Status := "LOADING" }, .ok succeededJob] none) 5 []
    _ createdJob [{ Status := "LOADING" }] succeededJob placedEntity []
    { Provider := { DisplayName := "host-1" } } [] { Provider := { DisplayName := "lun-1" } } []
    rfl ⟨rfl, rfl, trivial⟩ (by decide) (Or.inl rfl) rfl rfl rfl (by decide)

/-! ## Theorems: the timeout of the wait -/

/-- The wait over answers that are all pending, as many as refreshes fit into
the timeout: it ends with a timeout error, the resource data untouched, after
one read per answer. -/
theorem waitLoop_timeout (client : Client) (uuid : String) (d : ResourceData)
    (hid : d.Id = uuid) :
    ∀ (ps : List ReservationResponse) (tick : Nat) (last : String) (t : Trace),
      ReadsAnswer client uuid t ps → (∀ p ∈ ps, p.Status ∈ stateConf.Pending) →
      ∃ lastState t2, waitLoop stateConf (refreshStep client) ps.length tick last (d, t) =
          .returned ((none,
            some (.timeoutError lastState stateConf.Timeout stateConf.Target)), (d, t2)) ∧
        readsOf t2 = readsOf t ++ List.replicate ps.length uuid := by
  intro ps
  induction ps with
  | nil =>
    intro tick last t _ _
    exact ⟨last, t, rfl, by simp⟩
  | cons p rest ih =>
    intro tick last t hreads hpend
    simp only [ReadsAnswer] at hreads
    have hp : p.Status ∈ stateConf.Pending := hpend p (List.mem_cons_self _ _)
    have hread : (fun u => (client.ReadReservation u t).1) d.Id = .ok p := by
      show (client.ReadReservation d.Id t).1 = .ok p
      rw [hid]; exact hreads.1
    have href := refreshReservation_of_pending d (fun u => (client.ReadReservation u t).1) p
      hread hp
    have hnt := pending_not_target p.Status hp
    obtain ⟨lastState, t2, hw, hr⟩ := ih 0 p.Status (client.ReadReservation d.Id t).2
      (by rw [hid]; exact hreads.2)
      (fun q hq => hpend q (List.mem_cons_of_mem _ hq))
    refine ⟨lastState, t2, ?_, ?_⟩
    · simp only [List.length_cons, waitLoop, refreshStep, href, hnt, hp, if_true, if_false]
      exact hw
    · rw [hr, (ReadReservation_trace client d.Id t).1, hid, List.append_assoc]
      rfl

/-- C21: let the creation call return `res`, and let every status read that
fits into the timeout budget (the reads answering `ps`, however many the
latency of the polls lets through) answer a pending status. Then the wait ends with a
timeout error over the budget of 2 minutes, and
`resourceTurboReservationCreate` returns a non-nil error that wraps it, after
clearing the resource ID. -/
theorem resourceTurboReservationCreate_timeout (d : ResourceData) (client : Client)
    (t t1 : Trace) (res : ReservationResponse) (ps : List ReservationResponse)
    (hcreate : client.CreateReservation (buildReservationCreate d)
      (d.GetBool "reservation_blocking_req") t = (.ok res, t1))
    (hreads : ReadsAnswer client res.UUID t1 ps)
    (hpending : ∀ p ∈ ps, p.Status ∈ stateConf.Pending) :
    ∃ lastState t2,
      WaitForState stateConf (refreshStep client) ps.length (d.SetId res.UUID, t1) =
        .returned ((none, some (.timeoutError lastState (2 * 60)
          ["PLACEMENT_SUCCEEDED", "RESERVED"])), (d.SetId res.UUID, t2))
      ∧ resourceTurboReservationCreate d client ps.length t =
        .returned ((d.SetId "", some (waitFailure res.UUID
          (.timeoutError lastState (2 * 60) ["PLACEMENT_SUCCEEDED", "RESERVED"]))),
          (client.DeleteReservation res.UUID t2).2)
      ∧ readsOf t2 = readsOf t ++ List.replicate ps.length res.UUID := by
  obtain ⟨lastState, t2, hw, hr⟩ := waitLoop_timeout client res.UUID (d.SetId res.UUID) rfl
    ps 0 "" t1 hreads hpending
  have htr := CreateReservation_trace client (buildReservationCreate d)
    (d.GetBool "reservation_blocking_req") t
  rw [hcreate] at htr
  refine ⟨lastState, t2, hw, ?_, by rw [hr, htr.1]⟩
  simp only [resourceTurboReservationCreate, hcreate, WaitForState, hw]
  rfl

/-- C21 at a run whose three reads within the budget all answer `IN_PROGRESS`. -/
theorem resourceTurboReservationCreate_timeout_witness :
    ∃ lastState t2,
      WaitForState stateConf (refreshStep pendingClient) threePending.length
          (sampleConfig.SetId createdJob.UUID,
            (Client.CreateReservation pendingClient (buildReservationCreate sampleConfig)
              false []).2) =
        .returned ((none, some (.timeoutError lastState (2 * 60)
          ["PLACEMENT_SUCCEEDED", "RESERVED"])), (sampleConfig.SetId createdJob.UUID, t2))
      ∧ resourceTurboReservationCreate sampleConfig pendingClient threePending.length [] =
        .returned ((sampleConfig.SetId "", some (waitFailure createdJob.UUID
          (.timeoutError lastState (2 * 60) ["PLACEMENT_SUCCEEDED", "RESERVED"]))),
          (Client.DeleteReservation pendingClient createdJob.UUID t2).2)
      ∧ readsOf t2 = readsOf [] ++ List.replicate threePending.length createdJob.UUID :=
  resourceTurboReservationCreate_timeout sampleConfig pendingClient []
    (Client.CreateReservation pendingClient (buildReservationCreate sampleConfig) false []).2
    createdJob threePending rfl ⟨rfl, rfl, rfl, trivial⟩ (by decide)

/-! ## Theorems: helpers of the template resource -/

/-- C22: for every attribute key `k` and every class name `c`,
`diffSuppressTemplateClassName(k, c + "Profile", c, d)` is true, and so is
`diffSuppressTemplateClassName(k, s, s, d)` for equal old and new values. -/
theorem diffSuppressTemplateClassName_profile (k c s : String) (d : ResourceData) :
    diffSuppressTemplateClassName k (c ++ "Profile") c d = true ∧
    diffSuppressTemplateClassName k s s d = true := by
  simp [diffSuppressTemplateClassName, stringsHasPrefix, String.data_append]

/-- C28: `setResourceDataFromReservation` on a response without demand entity
returns its error and leaves the resource data as they were; on a response with
a first demand entity it returns (no index expression panics) if and only if the
first entity has a compute resource and a storage resource, and panics
otherwise. -/
theorem setResourceDataFromReservation_index_safety (d : ResourceData)
    (r : ReservationResponse) :
    (r.DemandEntities = [] →
      setResourceDataFromReservation d r = .returned (d, some (malformedResponseError r)))
    ∧ (∀ e es, r.DemandEntities = e :: es →
      ((∃ d1 err, setResourceDataFromReservation d r = .returned (d1, err)) ↔
        (e.Placements.ComputeResources ≠ [] ∧ e.Placements.StorageResources ≠ []))
      ∧ ((setResourceDataFromReservation d r = .panicked indexPanic) ↔
        ¬ (e.Placements.ComputeResources ≠ [] ∧ e.Placements.StorageResources ≠ []))) := by
  constructor
  · intro he
    simp [setResourceDataFromReservation, he]
  · intro e es he
    cases hc : e.Placements.ComputeResources with
    | nil => simp [setResourceDataFromReservation, he, hc]
    | cons c cs =>
      cases hst : e.Placements.StorageResources with
      | nil => simp [setResourceDataFromReservation, he, hc, hst]
      | cons s ss => simp [setResourceDataFromReservation, he, hc, hst]

/-- C28 at a response whose first entity has a compute but no storage
resource: the extraction panics. -/
theorem setResourceDataFromReservation_index_safety_witness :
    ((∃ d1 err, setResourceDataFromReservation jobData
        { Status := "RESERVED",
          DemandEntities := [{ Placements := { ComputeResources := [{}] } }] } =
        .returned (d1, err)) ↔
      ((({ Placements := { ComputeResources := [{}] } } :
          DemandEntity).Placements.ComputeResources ≠ []) ∧
        (({ Placements := { ComputeResources := [{}] } } :
          DemandEntity).Placements.StorageResources ≠ [])))
    ∧ ((setResourceDataFromReservation jobData
        { Status := "RESERVED",
          DemandEntities := [{ Placements := { ComputeResources := [{}] } }] } =
        .panicked indexPanic) ↔
      ¬ ((({ Placements := { ComputeResources := [{}] } } :
          DemandEntity).Placements.ComputeResources ≠ []) ∧
        (({ Placements := { ComputeResources := [{}] } } :
          DemandEntity).Placements.StorageResources ≠ []))) :=
  (setResourceDataFromReservation_index_safety jobData
    { Status := "RESERVED",
      DemandEntities := [{ Placements := { ComputeResources := [{}] } }] }).2
    { Placements := { ComputeResources := [{}] } } [] rfl

/-! ## Theorems: atomicity and frame of the stat decoder -/

/-- The three passes of `UnmarshalJSON` on any body: an error of the first pass
leaves the receiver alone; an error of the second leaves it with the nested
fields assigned; when the first two succeed, so does the third. -/
theorem UnmarshalJSON_by_passes (obj : StatApiDTO) (b : Body) :
    (∀ e, jsonUnmarshal TmpJSON.decode b {} = .error e → obj.UnmarshalJSON b = (obj, some e))
    ∧ (∀ tmpJSON e, jsonUnmarshal TmpJSON.decode b {} = .ok tmpJSON →
        jsonUnmarshal decodeMapInterface b [] = .error e →
        obj.UnmarshalJSON b = (obj.assignNested tmpJSON, some e))
    ∧ (∀ tmpJSON objMap, jsonUnmarshal TmpJSON.decode b {} = .ok tmpJSON →
        jsonUnmarshal decodeMapInterface b [] = .ok objMap →
        ∃ objJSON, jsonUnmarshal ObjJSON.decode b {} = .ok objJSON ∧
          obj.UnmarshalJSON b =
            (((obj.assignNested tmpJSON).assignScalars objMap).assignValue objJSON, none)) := by
  refine ⟨?_, ?_, ?_⟩
  · intro e h
    simp only [StatApiDTO.UnmarshalJSON, h]
  · intro tmpJSON e h1 h2
    simp only [StatApiDTO.UnmarshalJSON, h1, h2]
  · intro tmpJSON objMap h1 h2
    have h3 : ∃ objJSON, jsonUnmarshal ObjJSON.decode b {} = .ok objJSON := by
      cases b with
      | invalid msg offset => simp [jsonUnmarshal] at h1
      | valid doc =>
        cases doc with
        | null => exact ⟨{}, rfl⟩
        | obj members =>
          have hall := objectInterface_members_ok members [] objMap
            (by simpa [jsonUnmarshal, decodeMapInterface] using h2)
          obtain ⟨res, hres, -, -⟩ := ObjJSON_decode_obj members {} hall
          exact ⟨res, hres⟩
        | bool x => simp [jsonUnmarshal, TmpJSON.decode, decodeStruct] at h1
        | num x => simp [jsonUnmarshal, TmpJSON.decode, decodeStruct] at h1
        | str x => simp [jsonUnmarshal, TmpJSON.decode, decodeStruct] at h1
        | arr x => simp [jsonUnmarshal, TmpJSON.decode, decodeStruct] at h1
    obtain ⟨objJSON, h3⟩ := h3
    refine ⟨objJSON, h3, ?_⟩
    simp only [StatApiDTO.UnmarshalJSON, h1, h2, h3]

/-- C26 (counterexample): on the body `{"x": 1e999}` and a receiver whose
`Capacity.Avg` is 3, the first pass succeeds and the second fails on the number;
`UnmarshalJSON` returns that error and the receiver has lost its `Capacity`. -/
theorem UnmarshalJSON_not_atomic :
    jsonUnmarshal TmpJSON.decode (.valid (.obj [("x", .num (.dec 1 999))])) {} = .ok {}
    ∧ jsonUnmarshal decodeMapInterface (.valid (.obj [("x", .num (.dec 1 999))])) [] =
      .error (.jsonUnmarshalTypeError "number" "float64")
    ∧ StatApiDTO.UnmarshalJSON { Capacity := { Avg := 3 }, Name := "cpu" }
        (.valid (.obj [("x", .num (.dec 1 999))])) =
      ({ Capacity := { Avg := 0 }, Name := "cpu" },
        some (.jsonUnmarshalTypeError "number" "float64"))
    ∧ ({ Capacity := { Avg := 0 }, Name := "cpu" } : StatApiDTO) ≠
      { Capacity := { Avg := 3 }, Name := "cpu" } := by
  refine ⟨rfl, rfl, by decide, by decide⟩

/-- C26 (amended): whenever `UnmarshalJSON` returns the error of its first decode
pass the receiver is left completely unchanged, so no field is assigned before
that pass succeeds; when the first pass succeeds and the second fails, the
error is returned with the six nested fields assigned and nothing else; and
whenever the first two passes succeed on a body the third succeeds on it too and
`UnmarshalJSON` returns nil. -/
theorem UnmarshalJSON_atomic_first_pass (obj : StatApiDTO) (b : Body) :
    (∀ e, jsonUnmarshal TmpJSON.decode b {} = .error e → obj.UnmarshalJSON b = (obj, some e))
    ∧ (∀ tmpJSON e, jsonUnmarshal TmpJSON.decode b {} = .ok tmpJSON →
        jsonUnmarshal decodeMapInterface b [] = .error e →
        obj.UnmarshalJSON b =
          ({ obj with
              Capacity := tmpJSON.Capacity, Filters := tmpJSON.Filters,
              Links := tmpJSON.Links, RelatedEntity := tmpJSON.RelatedEntity,
              Reserved := tmpJSON.Reserved, Values := tmpJSON.Values }, some e))
    ∧ (∀ tmpJSON objMap, jsonUnmarshal TmpJSON.decode b {} = .ok tmpJSON →
        jsonUnmarshal decodeMapInterface b [] = .ok objMap →
        (∃ objJSON, jsonUnmarshal ObjJSON.decode b {} = .ok objJSON) ∧
          (obj.UnmarshalJSON b).2 = none) := by
  obtain ⟨p1, p2, p3⟩ := UnmarshalJSON_by_passes obj b
  refine ⟨p1, p2, ?_⟩
  intro tmpJSON objMap h1 h2
  obtain ⟨objJSON, h3, heq⟩ := p3 tmpJSON objMap h1 h2
  exact ⟨⟨objJSON, h3⟩, by rw [heq]⟩

/-- C26 (amended) at the body `{"capacity": 5}`, which the first pass rejects:
the receiver is returned as it was. -/
theorem UnmarshalJSON_atomic_first_pass_witness :
    StatApiDTO.UnmarshalJSON { Capacity := { Avg := 3 }, Name := "cpu" }
        (.valid (.obj [("capacity", .num (.int 5))])) =
      ({ Capacity := { Avg := 3 }, Name := "cpu" },
        some (.jsonUnmarshalTypeError "number" "api.StatValueApiDTO")) :=
  (UnmarshalJSON_atomic_first_pass { Capacity := { Avg := 3 }, Name := "cpu" }
    (.valid (.obj [("capacity", .num (.int 5))]))).1
    (.jsonUnmarshalTypeError "number" "api.StatValueApiDTO") rfl

/-- The `float64` assertion on a converted document succeeds on numbers only. -/
theorem assertFloat64_of_valueInterface (j : JSON) (v : GoValue)
    (h : valueInterface j = .ok v) (hn : ∀ n, j ≠ .num n) : v.assertFloat64.2 = false := by
  cases j with
  | null => simp only [valueInterface, Except.ok.injEq] at h; subst h; rfl
  | bool b => simp only [valueInterface, Except.ok.injEq] at h; subst h; rfl
  | num n => exact absurd rfl (hn n)
  | str s => simp only [valueInterface, Except.ok.injEq] at h; subst h; rfl
  | arr elems =>
    simp only [valueInterface, Except.map] at h
    cases ha : arrayInterface elems with
    | error e => rw [ha] at h; cases h
    | ok l => rw [ha] at h; simp only [Except.ok.injEq] at h; subst h; rfl
  | obj members =>
    simp only [valueInterface, Except.map] at h
    cases ha : objectInterface [] members with
    | error e => rw [ha] at h; cases h
    | ok l => rw [ha] at h; simp only [Except.ok.injEq] at h; subst h; rfl

/-- A converted document whose string assertion gives a non-empty string is
that string. -/
theorem str_of_assertString (j : JSON) (v : GoValue) (s : String)
    (h : valueInterface j = .ok v) (hs : s ≠ "") (hv : v.assertString.1 = s) :
    j = .str s := by
  cases j with
  | null =>
    simp only [valueInterface, Except.ok.injEq] at h; subst h
    exact absurd hv.symm hs
  | bool b =>
    simp only [valueInterface, Except.ok.injEq] at h; subst h
    exact absurd hv.symm hs
  | num n =>
    simp only [valueInterface, convertNumber] at h
    cases hp : parseFloat64 n with
    | none => rw [hp] at h; cases h
    | some f =>
      rw [hp] at h; simp only [Except.ok.injEq] at h; subst h
      exact absurd hv.symm hs
  | str s1 =>
    simp only [valueInterface, Except.ok.injEq] at h; subst h
    simp only [GoValue.assertString] at hv
    rw [hv]
  | arr elems =>
    simp only [valueInterface, Except.map] at h
    cases ha : arrayInterface elems with
    | error e => rw [ha] at h; cases h
    | ok l =>
      rw [ha] at h; simp only [Except.ok.injEq] at h; subst h
      exact absurd hv.symm hs
  | obj members =>
    simp only [valueInterface, Except.map] at h
    cases ha : objectInterface [] members with
    | error e => rw [ha] at h; cases h
    | ok l =>
      rw [ha] at h; simp only [Except.ok.injEq] at h; subst h
      exact absurd hv.symm hs

/-- The last assignment leaves `Value` alone when `objJSON.Value` is neither a
`float64` nor the string `"Infinity"`. -/
theorem assignValue_keeps (obj : StatApiDTO) (objJSON : ObjJSON)
    (hf : objJSON.Value.assertFloat64.2 = false)
    (hs : objJSON.Value.assertString.1 ≠ "Infinity") :
    (obj.assignValue objJSON).Value = obj.Value := by
  unfold StatApiDTO.assignValue
  simp [hf, ValueInfinity, hs]

/-- C27 (counterexample): the body `{"VALUE": 3.5}` has no `value` key and
`UnmarshalJSON` succeeds on it, yet the receiver's `Value`, 7 before the call,
is 3.5 after it: the third pass matches the key case-insensitively. -/
theorem UnmarshalJSON_value_key_case :
    (∀ kv ∈ [("VALUE", JSON.num (.dec 35 (-1)))], kv.1 ≠ "value")
    ∧ StatApiDTO.UnmarshalJSON { Value := .finite 7 0 }
        (.valid (.obj [("VALUE", .num (.dec 35 (-1)))])) =
      ({ Value := .finite 35 (-1) }, none) := by
  refine ⟨by decide, by decide⟩

/-- C27 (amended): let the body be a JSON object in which no key is `value`,
exactly or case-insensitively, or the last such key holds neither a number nor
the string `"Infinity"` (so null, another string, a boolean, an array or an
object). When `UnmarshalJSON` succeeds on it (its first two passes succeed), the
receiver's `Value` is exactly what it was before the call, whereas the six
string scalars and the six nested fields are what the body alone gives. -/
theorem UnmarshalJSON_value_frame (obj : StatApiDTO) (members : List (String × JSON))
    (tmpJSON : TmpJSON) (objMap : GoMap)
    (hnum : ∀ n, heldFor "value" members ≠ some (.num n))
    (hinf : heldFor "value" members ≠ some (.str "Infinity"))
    (h1 : jsonUnmarshal TmpJSON.decode (.valid (.obj members)) {} = .ok tmpJSON)
    (h2 : jsonUnmarshal decodeMapInterface (.valid (.obj members)) [] = .ok objMap) :
    ∃ obj1, obj.UnmarshalJSON (.valid (.obj members)) = (obj1, none) ∧
      obj1.Value = obj.Value ∧
      obj1.ClassName = scalarString "className" members ∧
      obj1.DisplayName = scalarString "displayName" members ∧
      obj1.Name = scalarString "name" members ∧
      obj1.RelatedEntityType = scalarString "relatedEntityType" members ∧
      obj1.Units = scalarString "units" members ∧
      obj1.UUID = scalarString "uuid" members ∧
      obj1.Capacity = tmpJSON.Capacity ∧ obj1.Filters = tmpJSON.Filters ∧
      obj1.Links = tmpJSON.Links ∧ obj1.RelatedEntity = tmpJSON.RelatedEntity ∧
      obj1.Reserved = tmpJSON.Reserved ∧ obj1.Values = tmpJSON.Values := by
  obtain ⟨objJSON, hsome, hnone, heq⟩ :=
    UnmarshalJSON_obj_of_passes obj members tmpJSON objMap h1 h2
  have h2a : objectInterface [] members = .ok objMap := by
    simpa [jsonUnmarshal, decodeMapInterface] using h2
  obtain ⟨e1, e2, e3, e4, e5, e6, -⟩ :=
    scalars_after_assignments obj tmpJSON objMap objJSON members h2a
  obtain ⟨n1, n2, n3, n4, n5, n6⟩ := nested_after_assignments obj tmpJSON objMap objJSON
  have hkeep : (((obj.assignNested tmpJSON).assignScalars objMap).assignValue objJSON).Value =
      obj.Value := by
    cases hh : heldFor "value" members with
    | none =>
      have hv := hnone hh
      rw [assignValue_keeps _ _ (by rw [hv]; rfl) (by rw [hv]; decide)]
      rfl
    | some j =>
      have hv := hsome j hh
      have hf := assertFloat64_of_valueInterface j _ hv
        (fun n hj => hnum n (by rw [hh, hj]))
      have hs : objJSON.Value.assertString.1 ≠ "Infinity" := by
        intro hc
        exact hinf (by rw [hh, str_of_assertString j _ "Infinity" hv (by decide) hc])
      rw [assignValue_keeps _ _ hf hs]
      rfl
  exact ⟨_, heq, hkeep, e1, e2, e3, e4, e5, e6, n1, n2, n3, n4, n5, n6⟩

/-- C27 (amended) at the body `{"value": [1], "name": "cpu"}`, the receiver
holding `Value` 7, a name and a capacity. -/
theorem UnmarshalJSON_value_frame_witness :
    ∃ obj1, StatApiDTO.UnmarshalJSON
        { Value := .finite 7 0, Name := "old", Capacity := { Avg := 3 } }
        (.valid (.obj [("value", .arr [.num (.int 1)]), ("name", .str "cpu")])) =
        (obj1, none) ∧
      obj1.Value = .finite 7 0 ∧
      obj1.ClassName = "" ∧ obj1.DisplayName = "" ∧ obj1.Name = "cpu" ∧
      obj1.RelatedEntityType = "" ∧ obj1.Units = "" ∧ obj1.UUID = "" ∧
      obj1.Capacity = {} ∧ obj1.Filters = [] ∧ obj1.Links = [] ∧ obj1.RelatedEntity = {} ∧
      obj1.Reserved = {} ∧ obj1.Values = {} :=
  UnmarshalJSON_value_frame { Value := .finite 7 0, Name := "old", Capacity := { Avg := 3 } }
    [("value", .arr [.num (.int 1)]), ("name", .str "cpu")] {}
    [("value", .slice [.float64 (.finite 1 0)]), ("name", .string "cpu")]
    (fun _ h => by cases h) (fun h => by cases h) rfl rfl

/-! ## Theorems: the map form of a stat -/

/-- Indexing a map by a key it does not have. -/
theorem mapIndex_absent (m : GoMap) (key : String) (h : ∀ kv ∈ m, kv.1 ≠ key) :
    mapIndex m key = .nil := by
  induction m with
  | nil => rfl
  | cons hd rest ih =>
    have h1 : hd.1 ≠ key := h hd (List.mem_cons_self _ _)
    have h2 := ih (fun kv hkv => h kv (List.mem_cons_of_mem _ hkv))
    simp only [mapIndex, List.find?_cons, h1, decide_False] at h2 ⊢
    exact h2

/-- C25: for every `StatApiDTO` `s`, `mapstructToStatApiDTO(statApiDTOToMapstruct(s))`
has the `Name`, `Units` and `Value` of `s` and every other field zero. For every
map `m` of the schema form, with the keys `name`, `units`, `value` holding a
string, a string and a float and no other key,
`statApiDTOToMapstruct(mapstructToStatApiDTO(m))` has the same value as `m` under
every key. A key of `m` that is missing or holds a value of another type gives
the zero value of its field. -/
theorem mapstruct_round_trip :
    (∀ s : StatApiDTO, mapstructToStatApiDTO (statApiDTOToMapstruct s) =
      { Name := s.Name, Units := s.Units, Value := s.Value })
    ∧ (∀ (m : GoMap) (n u : String) (v : GoFloat),
        mapIndex m "name" = .string n → mapIndex m "units" = .string u →
        mapIndex m "value" = .float64 v →
        (∀ kv ∈ m, kv.1 = "name" ∨ kv.1 = "units" ∨ kv.1 = "value") →
        statApiDTOToMapstruct (mapstructToStatApiDTO m) =
          [("name", .string n), ("units", .string u), ("value", .float64 v)]
        ∧ ∀ key, mapIndex (statApiDTOToMapstruct (mapstructToStatApiDTO m)) key =
          mapIndex m key)
    ∧ (∀ m : GoMap,
        ((mapIndex m "name").assertString.2 = false → (mapstructToStatApiDTO m).Name = "")
        ∧ ((mapIndex m "units").assertString.2 = false → (mapstructToStatApiDTO m).Units = "")
        ∧ ((mapIndex m "value").assertFloat64.2 = false →
          (mapstructToStatApiDTO m).Value = .finite 0 0)) := by
  refine ⟨fun s => rfl, ?_, ?_⟩
  · intro m n u v hn hu hv hkeys
    have heq : statApiDTOToMapstruct (mapstructToStatApiDTO m) =
        [("name", .string n), ("units", .string u), ("value", .float64 v)] := by
      simp [statApiDTOToMapstruct, mapstructToStatApiDTO, hn, hu, hv, GoValue.assertString,
        GoValue.assertFloat64]
    refine ⟨heq, ?_⟩
    intro key
    rw [heq]
    by_cases k1 : key = "name"
    · subst k1; rw [hn]; rfl
    · by_cases k2 : key = "units"
      · subst k2; rw [hu]; rfl
      · by_cases k3 : key = "value"
        · subst k3; rw [hv]; rfl
        · rw [mapIndex_absent m key]
          · simp [mapIndex, Ne.symm k1, Ne.symm k2, Ne.symm k3]
          · intro kv hkv hk
            rcases hkeys kv hkv with h | h | h
            · exact k1 (hk.symm.trans h)
            · exact k2 (hk.symm.trans h)
            · exact k3 (hk.symm.trans h)
  · intro m
    refine ⟨?_, ?_, ?_⟩
    · intro h
      simp only [mapstructToStatApiDTO, h]
      split_ifs <;> simp_all
    · intro h
      simp only [mapstructToStatApiDTO, h]
      split_ifs <;> simp_all
    · intro h
      simp only [mapstructToStatApiDTO, h]
      split_ifs <;> simp_all

/-- C25 at a map of the schema form, in another key order. -/
theorem mapstruct_round_trip_witness :
    statApiDTOToMapstruct (mapstructToStatApiDTO
        [("value", .float64 (.finite 1024 0)), ("name", .string "cpuSpeed"),
          ("units", .string "MHz")]) =
      [("name", .string "cpuSpeed"), ("units", .string "MHz"),
        ("value", .float64 (.finite 1024 0))]
    ∧ ∀ key, mapIndex (statApiDTOToMapstruct (mapstructToStatApiDTO
        [("value", .float64 (.finite 1024 0)), ("name", .string "cpuSpeed"),
          ("units", .string "MHz")])) key =
        mapIndex [("value", .float64 (.finite 1024 0)), ("name", .string "cpuSpeed"),
          ("units", .string "MHz")] key :=
  mapstruct_round_trip.2.1
    [("value", .float64 (.finite 1024 0)), ("name", .string "cpuSpeed"),
      ("units", .string "MHz")] "cpuSpeed" "MHz" (.finite 1024 0) rfl rfl rfl
    (by simp)

/-! ## Theorems: the template data source -/

/-- The call `strings.Contains` holds exactly of the strings that have the
argument between two other strings. -/
theorem stringsContains_iff (s sub : String) :
    stringsContains s sub = true ↔ ∃ before after : String, s = before ++ sub ++ after := by
  unfold stringsContains
  rw [List.any_eq_true]
  constructor
  · rintro ⟨t, ht, hp⟩
    rw [List.mem_tails] at ht
    rw [List.isPrefixOf_iff_prefix] at hp
    obtain ⟨a, ha⟩ := ht
    obtain ⟨b, hb⟩ := hp
    refine ⟨⟨a⟩, ⟨b⟩, String.ext ?_⟩
    simp only [String.data_append]
    rw [← ha, ← hb, List.append_assoc]
  · rintro ⟨a, b, h⟩
    refine ⟨sub.data ++ b.data, ?_, ?_⟩
    · rw [List.mem_tails]
      refine ⟨a.data, ?_⟩
      rw [h]
      simp only [String.data_append, List.append_assoc]
    · rw [List.isPrefixOf_iff_prefix]
      exact ⟨b.data, rfl⟩

/-- The condition of the loop is the search criteria. -/
theorem templateMatches_iff (d : ResourceData) (q : TemplateApiDTO) :
    templateMatches (d.GetString "display_name") (d.GetBool "has_deployment_profile")
        (d.GetString "vcenter_server") q = true ↔ MeetsCriteria d q := by
  unfold templateMatches MeetsCriteria
  rw [← stringsContains_iff]
  cases hb : d.GetBool "has_deployment_profile" <;> simp [hb, and_assoc]

/-- A filter keeps one entry exactly when one entry satisfies the condition. -/
theorem filter_length_one {α : Type} (p : α → Bool) (l : List α) :
    (l.filter p).length = 1 ↔ ∃ q, OnlyMatch (fun x => p x = true) l q := by
  rw [List.length_eq_one]
  constructor
  · rintro ⟨q, hq⟩
    rw [List.filter_eq_cons_iff] at hq
    obtain ⟨l1, l2, hl, h1, hpq, h2⟩ := hq
    rw [List.filter_eq_nil_iff] at h2
    exact ⟨q, l1, l2, hl, hpq, h1, h2⟩
  · rintro ⟨q, l1, l2, hl, hpq, h1, h2⟩
    refine ⟨q, ?_⟩
    rw [List.filter_eq_cons_iff]
    exact ⟨l1, l2, hl, h1, hpq, List.filter_eq_nil_iff.mpr h2⟩

/-- The entry the filter keeps when one entry satisfies the condition. -/
theorem filter_of_onlyMatch {α : Type} (p : α → Bool) (l : List α) (q : α)
    (h : OnlyMatch (fun x => p x = true) l q) : l.filter p = [q] := by
  obtain ⟨l1, l2, hl, hpq, h1, h2⟩ := h
  rw [List.filter_eq_cons_iff]
  exact ⟨l1, l2, hl, h1, hpq, List.filter_eq_nil_iff.mpr h2⟩

/-- The search criteria in place of the loop condition. -/
theorem onlyMatch_criteria (d : ResourceData) (l : List TemplateApiDTO) (q : TemplateApiDTO) :
    OnlyMatch (fun x => templateMatches (d.GetString "display_name")
        (d.GetBool "has_deployment_profile") (d.GetString "vcenter_server") x = true) l q
      ↔ OnlyMatch (MeetsCriteria d) l q := by
  unfold OnlyMatch
  simp only [templateMatches_iff]

/-- The read of the data source on a list with one match. -/
theorem dataSourceTurboTemplateRead_of_match (d : ResourceData) (l : List TemplateApiDTO)
    (q : TemplateApiDTO) (h : OnlyMatch (MeetsCriteria d) l q) :
    dataSourceTurboTemplateRead d (.ok l) =
      .returned (setResourceDataFromTemplate d q, none) := by
  have hf := filter_of_onlyMatch _ l q ((onlyMatch_criteria d l q).mpr h)
  have hl : l.length ≠ 0 := by
    obtain ⟨l1, l2, hl, _⟩ := h
    rw [hl]
    simp
  simp only [dataSourceTurboTemplateRead, hl, if_false, hf]
  rfl

/-- The read of the data source on a list without a single match. -/
theorem dataSourceTurboTemplateRead_of_no_match (d : ResourceData) (l : List TemplateApiDTO)
    (h : ¬ ∃ q, OnlyMatch (MeetsCriteria d) l q) :
    ∃ err, dataSourceTurboTemplateRead d (.ok l) = .returned (d, some err) := by
  have hlen : (l.filter (templateMatches (d.GetString "display_name")
      (d.GetBool "has_deployment_profile") (d.GetString "vcenter_server"))).length ≠ 1 := by
    intro h1
    rw [filter_length_one] at h1
    obtain ⟨q, hq⟩ := h1
    exact h ⟨q, (onlyMatch_criteria d l q).mp hq⟩
  simp only [dataSourceTurboTemplateRead]
  split_ifs with h0 h1 h2
  · exact ⟨_, rfl⟩
  · exact ⟨_, rfl⟩
  · exact ⟨_, rfl⟩
  · omega

/-- The inner loop of `resourceApiDTOToSet` appends the map of each stat. -/
theorem foldl_stats (l : List StatApiDTO) :
    ∀ acc : List GoMap,
      l.foldl (fun arr stat => arr ++ [statApiDTOToMapstruct stat]) acc =
        acc ++ l.map (fun stat =>
          [("name", .string stat.Name), ("units", .string stat.Units),
            ("value", .float64 stat.Value)]) := by
  induction l with
  | nil => intro acc; simp
  | cons x rest ih =>
    intro acc
    simp only [List.foldl_cons, ih, List.map_cons, List.append_assoc, List.singleton_append]
    rfl

/-- The outer loop of `resourceApiDTOToSet` appends the maps of each resource. -/
theorem foldl_resources (s : List ResourceApiDTO) :
    ∀ acc : List GoMap,
      s.foldl (fun ifaceArr res =>
        res.Stats.foldl (fun arr stat => arr ++ [statApiDTOToMapstruct stat]) ifaceArr) acc =
        acc ++ statMaps s := by
  induction s with
  | nil => intro acc; simp [statMaps]
  | cons x rest ih =>
    intro acc
    rw [List.foldl_cons, foldl_stats, ih]
    simp only [statMaps, List.flatMap_cons, List.append_assoc]

/-- The set `resourceApiDTOToSet` builds holds the maps of the stats of the
list, in order. -/
theorem resourceApiDTOToSet_eq (s : List ResourceApiDTO) :
    resourceApiDTOToSet s = .set (statMaps s) := by
  unfold resourceApiDTOToSet
  rw [foldl_resources, List.nil_append]

/-- What `setResourceDataFromTemplate` writes: the ID, the eleven attributes of
the template, and nothing else. -/
theorem setResourceDataFromTemplate_writes (d : ResourceData) (q : TemplateApiDTO) :
    SetFromTemplate d q (setResourceDataFromTemplate d q) := by
  unfold SetFromTemplate setResourceDataFromTemplate
  refine ⟨rfl, ?_, ?_, ?_, ?_, ?_, ?_, ?_, ?_, ?_, ?_, ?_, ?_⟩
  · simp [ResourceData.Get_Set_self, ResourceData.Get_Set_ne]
  · simp [ResourceData.Get_Set_self, ResourceData.Get_Set_ne]
  · simp [ResourceData.Get_Set_self, ResourceData.Get_Set_ne, resourceApiDTOToSet_eq]
  · simp [ResourceData.Get_Set_self, ResourceData.Get_Set_ne, resourceApiDTOToSet_eq]
  · simp [ResourceData.Get_Set_self, ResourceData.Get_Set_ne, resourceApiDTOToSet_eq]
  · simp [ResourceData.Get_Set_self, ResourceData.Get_Set_ne, resourceApiDTOToSet_eq]
  · simp [ResourceData.Get_Set_self, ResourceData.Get_Set_ne]
  · simp [ResourceData.Get_Set_self, ResourceData.Get_Set_ne]
  · simp [ResourceData.Get_Set_self, ResourceData.Get_Set_ne]
  · simp [ResourceData.Get_Set_self, ResourceData.Get_Set_ne]
  · simp [ResourceData.Get_Set_self, ResourceData.Get_Set_ne]
  · intro key hkey
    simp only [templateKeys, List.mem_cons, List.mem_singleton, List.not_mem_nil, or_false,
      not_or] at hkey
    obtain ⟨k1, k2, k3, k4, k5, k6, k7, k8, k9, k10, k11⟩ := hkey
    rw [ResourceData.Get_Set_ne _ _ _ _ k11, ResourceData.Get_Set_ne _ _ _ _ k10,
      ResourceData.Get_Set_ne _ _ _ _ k9, ResourceData.Get_Set_ne _ _ _ _ k8,
      ResourceData.Get_Set_ne _ _ _ _ k7, ResourceData.Get_Set_ne _ _ _ _ k6,
      ResourceData.Get_Set_ne _ _ _ _ k5, ResourceData.Get_Set_ne _ _ _ _ k4,
      ResourceData.Get_Set_ne _ _ _ _ k3, ResourceData.Get_Set_ne _ _ _ _ k2,
      ResourceData.Get_Set_ne _ _ _ _ k1]
    rfl

/-- C29: given a template list, empty or not, `dataSourceTurboTemplateRead`
returns a nil error if and only if exactly one template of the list meets the search
criteria (display name equal to `display_name`, a deployment profile UUID that is
non-empty exactly when `has_deployment_profile` is true, `vcenter_server`
non-empty and a substring of the model). It then has set the state from that
template: the ID is its UUID, the attributes `class_name`, `display_name`,
`deployment_profile_id`, `description`, `price`, `vendor` and `discovered` hold its
fields, the four resource attributes hold the sets of the stats of its resource
lists, and no other attribute is touched. Otherwise it returns an error with the
state untouched. With `vcenter_server` unset or empty it returns an error for
every template list. -/
theorem dataSourceTurboTemplateRead_unique_match (d : ResourceData)
    (templates : List TemplateApiDTO) :
    ((∃ d1, dataSourceTurboTemplateRead d (.ok templates) = .returned (d1, none))
      ↔ ∃ q, OnlyMatch (MeetsCriteria d) templates q)
    ∧ (∀ q, OnlyMatch (MeetsCriteria d) templates q →
        ∃ d1, dataSourceTurboTemplateRead d (.ok templates) = .returned (d1, none)
          ∧ SetFromTemplate d q d1)
    ∧ ((¬ ∃ q, OnlyMatch (MeetsCriteria d) templates q) →
        ∃ err, dataSourceTurboTemplateRead d (.ok templates) = .returned (d, some err))
    ∧ ((d.Get "vcenter_server" = none ∨ d.Get "vcenter_server" = some (.str "")) →
        ∀ l, ∃ err, dataSourceTurboTemplateRead d (.ok l) = .returned (d, some err)) := by
  refine ⟨⟨?_, ?_⟩, ?_, ?_, ?_⟩
  · rintro ⟨d1, h1⟩
    by_contra hno
    obtain ⟨err, he⟩ := dataSourceTurboTemplateRead_of_no_match d templates hno
    rw [he] at h1
    cases h1
  · rintro ⟨q, hq⟩
    exact ⟨_, dataSourceTurboTemplateRead_of_match d templates q hq⟩
  · intro q hq
    exact ⟨_, dataSourceTurboTemplateRead_of_match d templates q hq,
      setResourceDataFromTemplate_writes d q⟩
  · intro hno
    exact dataSourceTurboTemplateRead_of_no_match d templates hno
  · intro hv l
    apply dataSourceTurboTemplateRead_of_no_match
    rintro ⟨q, _, _, _, hq, _⟩
    have hempty : d.GetString "vcenter_server" = "" := by
      unfold ResourceData.GetString
      rcases hv with hv | hv <;> rw [hv]
    exact hq.2.2.1 hempty

/-- C29 on a list of two templates of which the second is the only match: the
state after the read has the ID and the attributes of that template, and keeps
the query attributes. -/
theorem dataSourceTurboTemplateRead_unique_match_witness :
    OnlyMatch (MeetsCriteria templateQuery) [otherTemplate, webTemplate] webTemplate
    ∧ ∃ d1, dataSourceTurboTemplateRead templateQuery (.ok [otherTemplate, webTemplate]) =
        .returned (d1, none)
      ∧ SetFromTemplate templateQuery webTemplate d1
      ∧ d1.Id = "T1"
      ∧ d1.Get "class_name" = some (.str "VirtualMachineProfile")
      ∧ d1.Get "display_name" = some (.str "web")
      ∧ d1.Get "compute_resource" = some (.set
          [[("name", .string "numOfCpu"), ("units", .string ""),
              ("value", .float64 (.finite 2 0))],
            [("name", .string "memorySize"), ("units", .string "MB"),
              ("value", .float64 (.finite 4096 0))]])
      ∧ d1.Get "storage_resource" = some (.set [])
      ∧ d1.Get "price" = some (.float (.finite 25 (-1)))
      ∧ d1.Get "vendor" = some (.str "acme")
      ∧ d1.Get "discovered" = some (.bool false)
      ∧ d1.Get "vcenter_server" = some (.str "vc1") :=
  have h : OnlyMatch (MeetsCriteria templateQuery) [otherTemplate, webTemplate] webTemplate :=
    ⟨[otherTemplate], [], rfl,
      ⟨rfl, by decide, by decide, "host.", ".example", by decide⟩,
      by
        intro x hx hm
        rw [List.mem_singleton] at hx
        rw [hx] at hm
        exact absurd hm.1 (by decide),
      by simp⟩
  have hw := (dataSourceTurboTemplateRead_unique_match templateQuery
    [otherTemplate, webTemplate]).2.1 webTemplate h
  match hw with
  | ⟨d1, hread, hset⟩ =>
    match hset with
    | ⟨h1, h2, h3, h4, _, _, h7, _, _, h10, h11, h12, hframe⟩ =>
      ⟨h, d1, hread, hset, h1, h2, h3, h4, h7, h10, h11, h12,
        (hframe "vcenter_server" (by decide)).trans rfl⟩

/-! ## Theorems: decoding what the encoder wrote -/

/-- The decoder on a struct takes the members of an object in two runs. -/
theorem decodeStruct_append {α : Type} (goType : String) (fields : List String)
    (setField : String → JSON → α → Except GoError α) (a b : List (String × JSON)) (cur : α) :
    decodeStruct goType fields setField (.obj (a ++ b)) cur =
      match decodeStruct goType fields setField (.obj a) cur with
      | .ok mid => decodeStruct goType fields setField (.obj b) mid
      | .error e => .error e := by
  simp only [decodeStruct, List.foldlM_append]
  generalize List.foldlM (m := Except GoError) _ cur a = r
  cases r <;> rfl

/-- Two runs of the decoder that succeed. -/
theorem decodeStruct_append_ok {α : Type} (goType : String) (fields : List String)
    (setField : String → JSON → α → Except GoError α) (a b : List (String × JSON))
    (cur mid fin : α)
    (h1 : decodeStruct goType fields setField (.obj a) cur = .ok mid)
    (h2 : decodeStruct goType fields setField (.obj b) mid = .ok fin) :
    decodeStruct goType fields setField (.obj (a ++ b)) cur = .ok fin := by
  rw [decodeStruct_append, h1]
  exact h2

/-- A first run of the decoder that fails. -/
theorem decodeStruct_append_error {α : Type} (goType : String) (fields : List String)
    (setField : String → JSON → α → Except GoError α) (a b : List (String × JSON))
    (cur : α) (e : GoError)
    (h1 : decodeStruct goType fields setField (.obj a) cur = .error e) :
    decodeStruct goType fields setField (.obj (a ++ b)) cur = .error e := by
  rw [decodeStruct_append, h1]

/-- The decoder on a struct, on a single member whose key selects a field. -/
theorem decodeStruct_single {α : Type} (goType : String) (fields : List String)
    (setField : String → JSON → α → Except GoError α) (k f : String) (j : JSON) (cur : α)
    (hk : matchField fields k = some f) :
    decodeStruct goType fields setField (.obj [(k, j)]) cur = setField f j cur := by
  simp only [decodeStruct, List.foldlM_cons, List.foldlM_nil, hk]
  cases setField f j cur <;> rfl

/-- The decoder on a struct skips members whose key selects no field. -/
theorem decodeStruct_skip {α : Type} (goType : String) (fields : List String)
    (setField : String → JSON → α → Except GoError α) (k : String) (p : List (String × JSON))
    (cur : α) (hk : matchField fields k = none) (hp : ∀ kv ∈ p, kv.1 = k) :
    decodeStruct goType fields setField (.obj p) cur = .ok cur := by
  induction p with
  | nil => rfl
  | cons kv rest ih =>
    have h1 : kv.1 = k := hp kv (List.mem_cons_self _ _)
    have h2 := ih (fun x hx => hp x (List.mem_cons_of_mem _ hx))
    simp only [decodeStruct, List.foldlM_cons, h1, hk] at h2 ⊢
    exact h2

/-- A string member under `omitempty`, decoded into a field that is empty. -/
theorem decodeStruct_omitEmptyString {α : Type} (goType : String) (fields : List String)
    (setField : String → JSON → α → Except GoError α) (k f v : String) (cur : α)
    (hk : matchField fields k = some f) (h0 : setField f (.str "") cur = .ok cur) :
    decodeStruct goType fields setField (.obj (omitEmptyString k v)) cur =
      setField f (.str v) cur := by
  unfold omitEmptyString
  split
  · next h => rw [h, h0]; rfl
  · exact decodeStruct_single goType fields setField k f _ cur hk

/-- An integer member under `omitempty`, decoded into a field that is zero. -/
theorem decodeStruct_omitEmptyInt {α : Type} (goType : String) (fields : List String)
    (setField : String → JSON → α → Except GoError α) (k f : String) (v : Int) (cur : α)
    (hk : matchField fields k = some f) (h0 : setField f (.num (.int 0)) cur = .ok cur) :
    decodeStruct goType fields setField (.obj (omitEmptyInt k v)) cur =
      setField f (.num (.int v)) cur := by
  unfold omitEmptyInt
  split
  · next h => rw [h, h0]; rfl
  · exact decodeStruct_single goType fields setField k f _ cur hk

/-- An array member under `omitempty`, decoded into a field that is empty. -/
theorem decodeStruct_omitEmptyArray {α : Type} (goType : String) (fields : List String)
    (setField : String → JSON → α → Except GoError α) (k f : String) (elems : List JSON)
    (cur : α) (hk : matchField fields k = some f) (h0 : setField f (.arr []) cur = .ok cur) :
    decodeStruct goType fields setField (.obj (omitEmptyArray k elems)) cur =
      setField f (.arr elems) cur := by
  unfold omitEmptyArray
  split
  · next h =>
    rw [List.length_eq_zero] at h
    rw [h, h0]; rfl
  · exact decodeStruct_single goType fields setField k f _ cur hk

/-- The elements the encoder wrote for a slice decode to the slice, when each
element does. -/
theorem decodeElems_map {α : Type} (zero : α) (decodeElem : JSON → α → Except GoError α)
    (enc : α → JSON) (l : List α) (h : ∀ x ∈ l, decodeElem (enc x) zero = .ok x) :
    decodeElems zero decodeElem (l.map enc) [] = .ok l := by
  induction l with
  | nil => rfl
  | cons x rest ih =>
    have h1 := h x (List.mem_cons_self _ _)
    have h2 := ih (fun y hy => h y (List.mem_cons_of_mem _ hy))
    simp only [List.map_cons, decodeElems, List.headD_nil, List.tail_nil, h1, h2]
    rfl


/-- The key of a string member under `omitempty`. -/
theorem omitEmptyString_key (k v : String) : ∀ kv ∈ omitEmptyString k v, kv.1 = k := by
  intro kv h
  unfold omitEmptyString at h
  split at h
  · cases h
  · rw [List.mem_singleton] at h; rw [h]

/-- The key of an integer member under `omitempty`. -/
theorem omitEmptyInt_key (k : String) (v : Int) : ∀ kv ∈ omitEmptyInt k v, kv.1 = k := by
  intro kv h
  unfold omitEmptyInt at h
  split at h
  · cases h
  · rw [List.mem_singleton] at h; rw [h]

/-- The key of an array member under `omitempty`. -/
theorem omitEmptyArray_key (k : String) (elems : List JSON) :
    ∀ kv ∈ omitEmptyArray k elems, kv.1 = k := by
  intro kv h
  unfold omitEmptyArray at h
  split at h
  · cases h
  · rw [List.mem_singleton] at h; rw [h]

/-- The key of a single member. -/
theorem single_key (k : String) (j : JSON) : ∀ kv ∈ [(k, j)], kv.1 = k := by
  intro kv h
  rw [List.mem_singleton] at h; rw [h]

/-- The array the encoder wrote for a slice decodes to the slice, when each
element does. -/
theorem decodeSlice_map {α : Type} (goType : String) (zero : α)
    (decodeElem : JSON → α → Except GoError α) (enc : α → JSON) (l : List α)
    (h : ∀ x ∈ l, decodeElem (enc x) zero = .ok x) :
    decodeSlice goType zero decodeElem (.arr (l.map enc)) [] = .ok l :=
  decodeElems_map zero decodeElem enc l h

/-- An integer literal of the 64-bit range decodes into an `int`. -/
theorem decodeInt_int (n cur : Int) (h : -2 ^ 63 ≤ n ∧ n < 2 ^ 63) :
    decodeInt (.num (.int n)) cur = .ok n := by
  simp only [decodeInt, parseInt64, h, and_self, if_true]


/-- A `Link` decodes from its encoding. -/
theorem Link_decode_toJSON (l : Link) :
    Link.decode l.toJSON {} = .ok l := by
  have h1 : Link.decode (.obj (omitEmptyString "href" l.Href))
      ({} : Link) =
      .ok ({ Href := l.Href } : Link) :=
    (decodeStruct_omitEmptyString _ _ _ _ "href" _ _ (by rfl) (by rfl)).trans (by rfl)
  have h2 : Link.decode (.obj (omitEmptyString "rel" l.Rel))
      ({ Href := l.Href } : Link) =
      .ok ({ Href := l.Href, Rel := l.Rel } : Link) :=
    (decodeStruct_omitEmptyString _ _ _ _ "rel" _ _ (by rfl) (by rfl)).trans (by rfl)
  have h3 : Link.decode (.obj ([("templated", .bool l.Templated)]))
      ({ Href := l.Href, Rel := l.Rel } : Link) =
      .ok ({ Href := l.Href, Rel := l.Rel, Templated := l.Templated } : Link) :=
    (decodeStruct_single _ _ _ _ "templated" _ _ (by rfl)).trans (by rfl)
  have g2 := decodeStruct_append_ok _ _ _ _ _ _ _ _ h1 h2
  have g3 := decodeStruct_append_ok _ _ _ _ _ _ _ _ g2 h3
  exact g3

/-- A `NameValueInputDTO` decodes from its encoding. -/
theorem NameValueInputDTO_decode_toJSON (obj : NameValueInputDTO) :
    NameValueInputDTO.decode obj.toJSON {} = .ok obj := by
  have h1 : NameValueInputDTO.decode (.obj (omitEmptyString "name" obj.Name))
      ({} : NameValueInputDTO) =
      .ok ({ Name := obj.Name } : NameValueInputDTO) :=
    (decodeStruct_omitEmptyString _ _ _ _ "name" _ _ (by rfl) (by rfl)).trans (by rfl)
  have h2 : NameValueInputDTO.decode (.obj (omitEmptyString "value" obj.Value))
      ({ Name := obj.Name } : NameValueInputDTO) =
      .ok ({ Name := obj.Name, Value := obj.Value } : NameValueInputDTO) :=
    (decodeStruct_omitEmptyString _ _ _ _ "value" _ _ (by rfl) (by rfl)).trans (by rfl)
  have g2 := decodeStruct_append_ok _ _ _ _ _ _ _ _ h1 h2
  exact g2

/-- A `StatFilterApiDTO` decodes from its encoding. -/
theorem StatFilterApiDTO_decode_toJSON (obj : StatFilterApiDTO) :
    StatFilterApiDTO.decode obj.toJSON {} = .ok obj := by
  have h1 : StatFilterApiDTO.decode (.obj (omitEmptyString "type" obj.Type_))
      ({} : StatFilterApiDTO) =
      .ok ({ Type_ := obj.Type_ } : StatFilterApiDTO) :=
    (decodeStruct_omitEmptyString _ _ _ _ "type" _ _ (by rfl) (by rfl)).trans (by rfl)
  have h2 : StatFilterApiDTO.decode (.obj (omitEmptyString "value" obj.Value))
      ({ Type_ := obj.Type_ } : StatFilterApiDTO) =
      .ok ({ Type_ := obj.Type_, Value := obj.Value } : StatFilterApiDTO) :=
    (decodeStruct_omitEmptyString _ _ _ _ "value" _ _ (by rfl) (by rfl)).trans (by rfl)
  have g2 := decodeStruct_append_ok _ _ _ _ _ _ _ _ h1 h2
  exact g2

/-- A `BaseApiDTO` decodes from its encoding. -/
theorem BaseApiDTO_decode_toJSON (obj : BaseApiDTO) :
    BaseApiDTO.decode obj.toJSON {} = .ok obj := by
  have h1 : BaseApiDTO.decode (.obj (omitEmptyString "className" obj.ClassName))
      ({} : BaseApiDTO) =
      .ok ({ ClassName := obj.ClassName } : BaseApiDTO) :=
    (decodeStruct_omitEmptyString _ _ _ _ "className" _ _ (by rfl) (by rfl)).trans (by rfl)
  have h2 : BaseApiDTO.decode (.obj (omitEmptyString "displayName" obj.DisplayName))
      ({ ClassName := obj.ClassName } : BaseApiDTO) =
      .ok ({ ClassName := obj.ClassName, DisplayName := obj.DisplayName } : BaseApiDTO) :=
    (decodeStruct_omitEmptyString _ _ _ _ "displayName" _ _ (by rfl) (by rfl)).trans (by rfl)
  have h3 : BaseApiDTO.decode (.obj (omitEmptyArray "links" (obj.Links.map Link.toJSON)))
      ({ ClassName := obj.ClassName, DisplayName := obj.DisplayName } : BaseApiDTO) =
      .ok ({ ClassName := obj.ClassName, DisplayName := obj.DisplayName,
             Links := obj.Links } : BaseApiDTO) :=
    (decodeStruct_omitEmptyArray _ _ _ _ "links" _ _ (by rfl) (by rfl)).trans (by
      show Except.map _ (decodeSlice _ _ Link.decode (.arr _) []) = _
      rw [decodeSlice_map _ _ _ _ _ (fun x _ => Link_decode_toJSON x)]
      rfl)
  have h4 : BaseApiDTO.decode (.obj (omitEmptyString "uuid" obj.UUID))
      ({ ClassName := obj.ClassName, DisplayName := obj.DisplayName,
         Links := obj.Links } : BaseApiDTO) =
      .ok ({ ClassName := obj.ClassName, DisplayName := obj.DisplayName, Links := obj.Links,
             UUID := obj.UUID } : BaseApiDTO) :=
    (decodeStruct_omitEmptyString _ _ _ _ "uuid" _ _ (by rfl) (by rfl)).trans (by rfl)
  have g2 := decodeStruct_append_ok _ _ _ _ _ _ _ _ h1 h2
  have g3 := decodeStruct_append_ok _ _ _ _ _ _ _ _ g2 h3
  have g4 := decodeStruct_append_ok _ _ _ _ _ _ _ _ g3 h4
  exact g4

/-- A `DeploymentProfileParamApiDTO` decodes from its encoding. -/
theorem DeploymentProfileParamApiDTO_decode_toJSON (obj : DeploymentProfileParamApiDTO) :
    DeploymentProfileParamApiDTO.decode obj.toJSON {} = .ok obj := by
  have h1 : DeploymentProfileParamApiDTO.decode (.obj (omitEmptyString "parameterType" obj.ParameterType))
      ({} : DeploymentProfileParamApiDTO) =
      .ok ({ ParameterType := obj.ParameterType } : DeploymentProfileParamApiDTO) :=
    (decodeStruct_omitEmptyString _ _ _ _ "parameterType" _ _ (by rfl) (by rfl)).trans (by rfl)
  have h2 : DeploymentProfileParamApiDTO.decode (.obj (omitEmptyArray "properties" (obj.Properties.map NameValueInputDTO.toJSON)))
      ({ ParameterType := obj.ParameterType } : DeploymentProfileParamApiDTO) =
      .ok ({ ParameterType := obj.ParameterType,
             Properties := obj.Properties } : DeploymentProfileParamApiDTO) :=
    (decodeStruct_omitEmptyArray _ _ _ _ "properties" _ _ (by rfl) (by rfl)).trans (by
      show Except.map _ (decodeSlice _ _ NameValueInputDTO.decode (.arr _) []) = _
      rw [decodeSlice_map _ _ _ _ _ (fun x _ => NameValueInputDTO_decode_toJSON x)]
      rfl)
  have g2 := decodeStruct_append_ok _ _ _ _ _ _ _ _ h1 h2
  exact g2

/-- The input form of a provider decodes from the encoding of the provider: the
parameters are read, the member `provider` is skipped. -/
theorem DeploymentProfileProviderApiInputDTO_decode_toJSON (obj : DeploymentProfileProviderApiDTO) :
    DeploymentProfileProviderApiInputDTO.decode obj.toJSON {} = .ok { Parameters := obj.Parameters } := by
  have h1 : DeploymentProfileProviderApiInputDTO.decode (.obj (omitEmptyArray "parameters" (obj.Parameters.map DeploymentProfileParamApiDTO.toJSON)))
      ({} : DeploymentProfileProviderApiInputDTO) =
      .ok ({ Parameters := obj.Parameters } : DeploymentProfileProviderApiInputDTO) :=
    (decodeStruct_omitEmptyArray _ _ _ _ "parameters" _ _ (by rfl) (by rfl)).trans (by
      show Except.map _ (decodeSlice _ _ DeploymentProfileParamApiDTO.decode (.arr _) []) = _
      rw [decodeSlice_map _ _ _ _ _ (fun x _ => DeploymentProfileParamApiDTO_decode_toJSON x)]
      rfl)
  have h2 : DeploymentProfileProviderApiInputDTO.decode (.obj ([("provider", obj.Provider.toJSON)]))
      ({ Parameters := obj.Parameters } : DeploymentProfileProviderApiInputDTO) =
      .ok ({ Parameters := obj.Parameters } : DeploymentProfileProviderApiInputDTO) :=
    decodeStruct_skip _ _ _ "provider" _ _ (by rfl) (single_key _ _)
  have g2 := decodeStruct_append_ok _ _ _ _ _ _ _ _ h1 h2
  exact g2

/-! ## Theorems: the conversion of a deployment profile target -/

/-- The conversion of a provider: the parameters are those of the provider, the
provider ID is the UUID of its `Provider`. -/
theorem DeploymentProfileProviderApiInputDTO_eq (obj : DeploymentProfileProviderApiDTO) :
    DeploymentProfileProviderApiDTO.DeploymentProfileProviderApiInputDTO (some obj) =
      .ok (some { Parameters := obj.Parameters, ProviderId := obj.Provider.UUID }) := by
  simp only [DeploymentProfileProviderApiDTO.DeploymentProfileProviderApiInputDTO, jsonUnmarshal,
    DeploymentProfileProviderApiInputDTO_decode_toJSON]

/-- The loop over the providers converts each of them, in order. -/
theorem convertProviders_eq (l : List DeploymentProfileProviderApiDTO) :
    convertProviders l = .returned (.ok (l.map (fun p =>
      ({ Parameters := p.Parameters, ProviderId := p.Provider.UUID } :
        DeploymentProfileProviderApiInputDTO)))) := by
  induction l with
  | nil => rfl
  | cons val rest ih =>
    simp only [convertProviders, DeploymentProfileProviderApiInputDTO_eq, ih, List.map_cons]

/-- C23: for every non-nil `DeploymentProfileTargetApiDTO` `t` the conversion
`DeploymentProfileTargetApiInputDTO` succeeds, and its result has the `TargetType`
of `t` and a `Providers` list of the same length and order in which every entry
has the UUID of the source's `Provider` as its `ProviderId` and the source's
`Parameters`; for a nil receiver it returns `(nil, nil)`. -/
theorem DeploymentProfileTargetApiInputDTO_spec (t : DeploymentProfileTargetApiDTO) :
    (∃ r : DeploymentProfileTargetApiInputDTO,
      DeploymentProfileTargetApiDTO.DeploymentProfileTargetApiInputDTO (some t) =
        .returned (.ok (some r))
      ∧ r.TargetType = t.TargetType
      ∧ r.Providers.length = t.Providers.length
      ∧ List.Forall₂ (fun (q : DeploymentProfileProviderApiInputDTO)
          (p : DeploymentProfileProviderApiDTO) =>
            q.ProviderId = p.Provider.UUID ∧ q.Parameters = p.Parameters)
          r.Providers t.Providers)
    ∧ DeploymentProfileTargetApiDTO.DeploymentProfileTargetApiInputDTO none =
        .returned (.ok none) := by
  refine ⟨⟨{ TargetType := t.TargetType, Providers := t.Providers.map (fun p =>
      { Parameters := p.Parameters, ProviderId := p.Provider.UUID }) }, ?_, rfl, ?_, ?_⟩, rfl⟩
  · simp only [DeploymentProfileTargetApiDTO.DeploymentProfileTargetApiInputDTO,
      convertProviders_eq]
  · simp only [List.length_map]
  · rw [List.forall₂_map_left_iff]
    exact List.forall₂_same.mpr (fun _ _ => ⟨rfl, rfl⟩)

/-! ## Theorems: the conversion of a template -/

/-- A first run of a struct decoder that succeeds leaves the second run. -/
theorem decodeStruct_step_ok {α : Type} (D : JSON → α → Except GoError α) (goType : String)
    (fields : List String) (setField : String → JSON → α → Except GoError α)
    (hD : D = decodeStruct goType fields setField) (a b : List (String × JSON)) (cur mid : α)
    (h1 : D (.obj a) cur = .ok mid) :
    D (.obj (a ++ b)) cur = D (.obj b) mid := by
  subst hD
  rw [decodeStruct_append, h1]

/-- A first run of a struct decoder that stores what a decoder `F` returns: its
error ends the call, its result is stored before the second run. -/
theorem decodeStruct_step_map {α β : Type} (D : JSON → α → Except GoError α) (goType : String)
    (fields : List String) (setField : String → JSON → α → Except GoError α)
    (hD : D = decodeStruct goType fields setField) (a b : List (String × JSON)) (cur : α)
    (F : Except GoError β) (upd : β → α) :
    D (.obj a) cur = F.map upd →
      D (.obj (a ++ b)) cur =
        match F with
        | .error e => .error e
        | .ok x => D (.obj b) (upd x) := by
  intro h1
  subst hD
  rw [decodeStruct_append, h1]
  cases F <;> rfl

/-- The list a finite float contributes under `omitempty`. -/
theorem omitEmptyFloat_finite (k : String) (m e : Int) :
    omitEmptyFloat k (.finite m e) =
      .ok (if m = 0 then [] else [(k, .num (formatFloat m e))]) := by
  unfold omitEmptyFloat GoFloat.isZero marshalFloat
  by_cases h : m = 0 <;> simp [h, Except.map]

/-- The key of a float member under `omitempty`. -/
theorem floatPiece_key (k : String) (m e : Int) :
    ∀ kv ∈ (if m = 0 then [] else [(k, JSON.num (formatFloat m e))]), kv.1 = k := by
  intro kv h
  split at h
  · cases h
  · rw [List.mem_singleton] at h; rw [h]

/-- The decoder on a `float64` that is zero, for the member a finite float
contributes under `omitempty`: what the literal parses to, zero when there is
no member. -/
theorem decodeStruct_floatPiece {α : Type} (goType : String) (fields : List String)
    (setField : String → JSON → α → Except GoError α) (k f : String) (m e : Int) (cur : α)
    (upd : GoFloat → α) (hk : matchField fields k = some f)
    (h0 : upd (.finite 0 0) = cur)
    (hset : ∀ n, setField f (.num n) cur = (decodeFloat64 (.num n) (.finite 0 0)).map upd) :
    decodeStruct goType fields setField
        (.obj (if m = 0 then [] else [(k, .num (formatFloat m e))])) cur =
      (if m = 0 then .ok (.finite 0 0)
        else decodeFloat64 (.num (formatFloat m e)) (.finite 0 0)).map upd := by
  by_cases h : m = 0
  · simp only [h, if_true, Except.map, h0]
    rfl
  · simp only [h, if_false]
    rw [decodeStruct_single goType fields setField k f _ cur hk, hset]


/-- The decoder on a `TemplateApiInputDTO`, on what the encoder wrote for the
template `t` with a finite price: the strings are those of `t`, the four
resource lists and the price are what their decoders return, the first error
among these ending the call. -/
theorem TemplateApiInputDTO_decode_members (t : TemplateApiDTO) (cj ij nj sj : List JSON)
    (m e : Int) :
    TemplateApiInputDTO.decode (.obj (templateMembers t cj ij nj
        (if m = 0 then [] else [("price", .num (formatFloat m e))]) sj)) {} =
      templateDecoded t (decodeResources (.arr cj) []) (decodeResources (.arr ij) [])
        (decodeResources (.arr nj) []) (priceOf m e) (decodeResources (.arr sj) []) := by
  unfold templateMembers templateDecoded
  simp only [List.append_assoc]
  have h1 : TemplateApiInputDTO.decode (.obj (omitEmptyString "className" t.ClassName))
      ({} : TemplateApiInputDTO) =
      .ok ({ ClassName := t.ClassName } : TemplateApiInputDTO) :=
    (decodeStruct_omitEmptyString _ _ _ _ "className" _ _ (by rfl) (by rfl)).trans (by rfl)
  refine Eq.trans (decodeStruct_step_ok TemplateApiInputDTO.decode _ _ _ rfl _ _ _ _ h1) ?_
  have h2 : TemplateApiInputDTO.decode (.obj (omitEmptyString "cmdWithArgs" t.CmdWithArgs))
      ({ ClassName := t.ClassName } : TemplateApiInputDTO) =
      .ok ({ ClassName := t.ClassName, CmdWithArgs := t.CmdWithArgs } : TemplateApiInputDTO) :=
    (decodeStruct_omitEmptyString _ _ _ _ "cmdWithArgs" _ _ (by rfl) (by rfl)).trans (by rfl)
  refine Eq.trans (decodeStruct_step_ok TemplateApiInputDTO.decode _ _ _ rfl _ _ _ _ h2) ?_
  have h3 : TemplateApiInputDTO.decode (.obj (omitEmptyArray "computeResources" cj))
      ({ ClassName := t.ClassName, CmdWithArgs := t.CmdWithArgs } : TemplateApiInputDTO) =
      (decodeResources (.arr cj) []).map (fun x => ({ ClassName := t.ClassName,
                                                      CmdWithArgs := t.CmdWithArgs,
                                                      ComputeResources := x } : TemplateApiInputDTO)) :=
    (decodeStruct_omitEmptyArray _ _ _ _ "computeResources" _ _ (by rfl) (by rfl)).trans (by rfl)
  refine Eq.trans (decodeStruct_step_map TemplateApiInputDTO.decode _ _ _ rfl _ _ _ _ _ h3) ?_
  rcases decodeResources (.arr cj) [] with err | xc
  · rfl
  have h4 : TemplateApiInputDTO.decode (.obj (omitEmptyString "dbEdition" t.DbEdition))
      ({ ClassName := t.ClassName, CmdWithArgs := t.CmdWithArgs,
         ComputeResources := xc } : TemplateApiInputDTO) =
      .ok ({ ClassName := t.ClassName, CmdWithArgs := t.CmdWithArgs,
             ComputeResources := xc } : TemplateApiInputDTO) :=
    decodeStruct_skip _ _ _ "dbEdition" _ _ (by rfl) (omitEmptyString_key _ _)
  refine Eq.trans (decodeStruct_step_ok TemplateApiInputDTO.decode _ _ _ rfl _ _ _ _ h4) ?_
  have h5 : TemplateApiInputDTO.decode (.obj (omitEmptyString "dbEngine" t.DbEngine))
      ({ ClassName := t.ClassName, CmdWithArgs := t.CmdWithArgs,
         ComputeResources := xc } : TemplateApiInputDTO) =
      .ok ({ ClassName := t.ClassName, CmdWithArgs := t.CmdWithArgs,
             ComputeResources := xc } : TemplateApiInputDTO) :=
    decodeStruct_skip _ _ _ "dbEngine" _ _ (by rfl) (omitEmptyString_key _ _)
  refine Eq.trans (decodeStruct_step_ok TemplateApiInputDTO.decode _ _ _ rfl _ _ _ _ h5) ?_
  have h6 : TemplateApiInputDTO.decode (.obj ([("deploymentProfile", t.DeploymentProfile.toJSON)]))
      ({ ClassName := t.ClassName, CmdWithArgs := t.CmdWithArgs,
         ComputeResources := xc } : TemplateApiInputDTO) =
      .ok ({ ClassName := t.ClassName, CmdWithArgs := t.CmdWithArgs,
             ComputeResources := xc } : TemplateApiInputDTO) :=
    decodeStruct_skip _ _ _ "deploymentProfile" _ _ (by rfl) (single_key _ _)
  refine Eq.trans (decodeStruct_step_ok TemplateApiInputDTO.decode _ _ _ rfl _ _ _ _ h6) ?_
  have h7 : TemplateApiInputDTO.decode (.obj (omitEmptyString "description" t.Description))
      ({ ClassName := t.ClassName, CmdWithArgs := t.CmdWithArgs,
         ComputeResources := xc } : TemplateApiInputDTO) =
      .ok ({ ClassName := t.ClassName, CmdWithArgs := t.CmdWithArgs, ComputeResources := xc,
             Description := t.Description } : TemplateApiInputDTO) :=
    (decodeStruct_omitEmptyString _ _ _ _ "description" _ _ (by rfl) (by rfl)).trans (by rfl)
  refine Eq.trans (decodeStruct_step_ok TemplateApiInputDTO.decode _ _ _ rfl _ _ _ _ h7) ?_
  have h8 : TemplateApiInputDTO.decode (.obj ([("discovered", .bool t.Discovered)]))
      ({ ClassName := t.ClassName, CmdWithArgs := t.CmdWithArgs, ComputeResources := xc,
         Description := t.Description } : TemplateApiInputDTO) =
      .ok ({ ClassName := t.ClassName, CmdWithArgs := t.CmdWithArgs, ComputeResources := xc,
             Description := t.Description } : TemplateApiInputDTO) :=
    decodeStruct_skip _ _ _ "discovered" _ _ (by rfl) (single_key _ _)
  refine Eq.trans (decodeStruct_step_ok TemplateApiInputDTO.decode _ _ _ rfl _ _ _ _ h8) ?_
  have h9 : TemplateApiInputDTO.decode (.obj (omitEmptyString "displayName" t.DisplayName))
      ({ ClassName := t.ClassName, CmdWithArgs := t.CmdWithArgs, ComputeResources := xc,
         Description := t.Description } : TemplateApiInputDTO) =
      .ok ({ ClassName := t.ClassName, CmdWithArgs := t.CmdWithArgs, ComputeResources := xc,
             Description := t.Description,
             DisplayName := t.DisplayName } : TemplateApiInputDTO) :=
    (decodeStruct_omitEmptyString _ _ _ _ "displayName" _ _ (by rfl) (by rfl)).trans (by rfl)
  refine Eq.trans (decodeStruct_step_ok TemplateApiInputDTO.decode _ _ _ rfl _ _ _ _ h9) ?_
  have h10 : TemplateApiInputDTO.decode (.obj (omitEmptyString "image" t.Image))
      ({ ClassName := t.ClassName, CmdWithArgs := t.CmdWithArgs, ComputeResources := xc,
         Description := t.Description, DisplayName := t.DisplayName } : TemplateApiInputDTO) =
      .ok ({ ClassName := t.ClassName, CmdWithArgs := t.CmdWithArgs, ComputeResources := xc,
             Description := t.Description, DisplayName := t.DisplayName,
             Image := t.Image } : TemplateApiInputDTO) :=
    (decodeStruct_omitEmptyString _ _ _ _ "image" _ _ (by rfl) (by rfl)).trans (by rfl)
  refine Eq.trans (decodeStruct_step_ok TemplateApiInputDTO.decode _ _ _ rfl _ _ _ _ h10) ?_
  have h11 : TemplateApiInputDTO.decode (.obj (omitEmptyString "imageTag" t.ImageTag))
      ({ ClassName := t.ClassName, CmdWithArgs := t.CmdWithArgs, ComputeResources := xc,
         Description := t.Description, DisplayName := t.DisplayName,
         Image := t.Image } : TemplateApiInputDTO) =
      .ok ({ ClassName := t.ClassName, CmdWithArgs := t.CmdWithArgs, ComputeResources := xc,
             Description := t.Description, DisplayName := t.DisplayName, Image := t.Image,
             ImageTag := t.ImageTag } : TemplateApiInputDTO) :=
    (decodeStruct_omitEmptyString _ _ _ _ "imageTag" _ _ (by rfl) (by rfl)).trans (by rfl)
  refine Eq.trans (decodeStruct_step_ok TemplateApiInputDTO.decode _ _ _ rfl _ _ _ _ h11) ?_
  have h12 : TemplateApiInputDTO.decode (.obj (omitEmptyArray "infrastructureResources" ij))
      ({ ClassName := t.ClassName, CmdWithArgs := t.CmdWithArgs, ComputeResources := xc,
         Description := t.Description, DisplayName := t.DisplayName, Image := t.Image,
         ImageTag := t.ImageTag } : TemplateApiInputDTO) =
      (decodeResources (.arr ij) []).map (fun x => ({ ClassName := t.ClassName,
                                                      CmdWithArgs := t.CmdWithArgs,
                                                      ComputeResources := xc,
                                                      Description := t.Description,
                                                      DisplayName := t.DisplayName,
                                                      Image := t.Image, ImageTag := t.ImageTag,
                                                      InfrastructureResources := x } : TemplateApiInputDTO)) :=
    (decodeStruct_omitEmptyArray _ _ _ _ "infrastructureResources" _ _ (by rfl) (by rfl)).trans (by rfl)
  refine Eq.trans (decodeStruct_step_map TemplateApiInputDTO.decode _ _ _ rfl _ _ _ _ _ h12) ?_
  rcases decodeResources (.arr ij) [] with err | xi
  · rfl
  have h13 : TemplateApiInputDTO.decode (.obj (omitEmptyArray "links" (t.Links.map Link.toJSON)))
      ({ ClassName := t.ClassName, CmdWithArgs := t.CmdWithArgs, ComputeResources := xc,
         Description := t.Description, DisplayName := t.DisplayName, Image := t.Image,
         ImageTag := t.ImageTag, InfrastructureResources := xi } : TemplateApiInputDTO) =
      .ok ({ ClassName := t.ClassName, CmdWithArgs := t.CmdWithArgs, ComputeResources := xc,
             Description := t.Description, DisplayName := t.DisplayName, Image := t.Image,
             ImageTag := t.ImageTag, InfrastructureResources := xi } : TemplateApiInputDTO) :=
    decodeStruct_skip _ _ _ "links" _ _ (by rfl) (omitEmptyArray_key _ _)
  refine Eq.trans (decodeStruct_step_ok TemplateApiInputDTO.decode _ _ _ rfl _ _ _ _ h13) ?_
  have h14 : TemplateApiInputDTO.decode (.obj (omitEmptyString "model" t.Model))
      ({ ClassName := t.ClassName, CmdWithArgs := t.CmdWithArgs, ComputeResources := xc,
         Description := t.Description, DisplayName := t.DisplayName, Image := t.Image,
         ImageTag := t.ImageTag, InfrastructureResources := xi } : TemplateApiInputDTO) =
      .ok ({ ClassName := t.ClassName, CmdWithArgs := t.CmdWithArgs, ComputeResources := xc,
             Description := t.Description, DisplayName := t.DisplayName, Image := t.Image,
             ImageTag := t.ImageTag, InfrastructureResources := xi } : TemplateApiInputDTO) :=
    decodeStruct_skip _ _ _ "model" _ _ (by rfl) (omitEmptyString_key _ _)
  refine Eq.trans (decodeStruct_step_ok TemplateApiInputDTO.decode _ _ _ rfl _ _ _ _ h14) ?_
  have h15 : TemplateApiInputDTO.decode (.obj (omitEmptyArray "networkResources" nj))
      ({ ClassName := t.ClassName, CmdWithArgs := t.CmdWithArgs, ComputeResources := xc,
         Description := t.Description, DisplayName := t.DisplayName, Image := t.Image,
         ImageTag := t.ImageTag, InfrastructureResources := xi } : TemplateApiInputDTO) =
      (decodeResources (.arr nj) []).map (fun x => ({ ClassName := t.ClassName,
                                                      CmdWithArgs := t.CmdWithArgs,
                                                      ComputeResources := xc,
                                                      Description := t.Description,
                                                      DisplayName := t.DisplayName,
                                                      Image := t.Image, ImageTag := t.ImageTag,
                                                      InfrastructureResources := xi,
                                                      NetworkResources := x } : TemplateApiInputDTO)) :=
    (decodeStruct_omitEmptyArray _ _ _ _ "networkResources" _ _ (by rfl) (by rfl)).trans (by rfl)
  refine Eq.trans (decodeStruct_step_map TemplateApiInputDTO.decode _ _ _ rfl _ _ _ _ _ h15) ?_
  rcases decodeResources (.arr nj) [] with err | xn
  · rfl
  have h16 : TemplateApiInputDTO.decode (.obj (if m = 0 then [] else [("price", .num (formatFloat m e))]))
      ({ ClassName := t.ClassName, CmdWithArgs := t.CmdWithArgs, ComputeResources := xc,
         Description := t.Description, DisplayName := t.DisplayName, Image := t.Image,
         ImageTag := t.ImageTag, InfrastructureResources := xi,
         NetworkResources := xn } : TemplateApiInputDTO) =
      (priceOf m e).map (fun x => ({ ClassName := t.ClassName, CmdWithArgs := t.CmdWithArgs,
                                     ComputeResources := xc, Description := t.Description,
                                     DisplayName := t.DisplayName, Image := t.Image,
                                     ImageTag := t.ImageTag, InfrastructureResources := xi,
                                     NetworkResources := xn,
                                     Price := x } : TemplateApiInputDTO)) :=
    decodeStruct_floatPiece _ _ _ "price" "price" m e _ _ (by rfl) (by rfl) (fun _ => by rfl)
  refine Eq.trans (decodeStruct_step_map TemplateApiInputDTO.decode _ _ _ rfl _ _ _ _ _ h16) ?_
  rcases priceOf m e with err | xp
  · rfl
  have h17 : TemplateApiInputDTO.decode (.obj (omitEmptyArray "storageResources" sj))
      ({ ClassName := t.ClassName, CmdWithArgs := t.CmdWithArgs, ComputeResources := xc,
         Description := t.Description, DisplayName := t.DisplayName, Image := t.Image,
         ImageTag := t.ImageTag, InfrastructureResources := xi, NetworkResources := xn,
         Price := xp } : TemplateApiInputDTO) =
      (decodeResources (.arr sj) []).map (fun x => ({ ClassName := t.ClassName,
                                                      CmdWithArgs := t.CmdWithArgs,
                                                      ComputeResources := xc,
                                                      Description := t.Description,
                                                      DisplayName := t.DisplayName,
                                                      Image := t.Image, ImageTag := t.ImageTag,
                                                      InfrastructureResources := xi,
                                                      NetworkResources := xn, Price := xp,
                                                      StorageResources := x } : TemplateApiInputDTO)) :=
    (decodeStruct_omitEmptyArray _ _ _ _ "storageResources" _ _ (by rfl) (by rfl)).trans (by rfl)
  refine Eq.trans (decodeStruct_step_map TemplateApiInputDTO.decode _ _ _ rfl _ _ _ _ _ h17) ?_
  rcases decodeResources (.arr sj) [] with err | xs
  · rfl
  have h18 : TemplateApiInputDTO.decode (.obj (omitEmptyString "uuid" t.UUID))
      ({ ClassName := t.ClassName, CmdWithArgs := t.CmdWithArgs, ComputeResources := xc,
         Description := t.Description, DisplayName := t.DisplayName, Image := t.Image,
         ImageTag := t.ImageTag, InfrastructureResources := xi, NetworkResources := xn,
         Price := xp, StorageResources := xs } : TemplateApiInputDTO) =
      .ok ({ ClassName := t.ClassName, CmdWithArgs := t.CmdWithArgs, ComputeResources := xc,
             Description := t.Description, DisplayName := t.DisplayName, Image := t.Image,
             ImageTag := t.ImageTag, InfrastructureResources := xi, NetworkResources := xn,
             Price := xp, StorageResources := xs } : TemplateApiInputDTO) :=
    decodeStruct_skip _ _ _ "uuid" _ _ (by rfl) (omitEmptyString_key _ _)
  refine Eq.trans (decodeStruct_step_ok TemplateApiInputDTO.decode _ _ _ rfl _ _ _ _ h18) ?_
  have h19 : TemplateApiInputDTO.decode (.obj (omitEmptyString "vendor" t.Vendor))
      ({ ClassName := t.ClassName, CmdWithArgs := t.CmdWithArgs, ComputeResources := xc,
         Description := t.Description, DisplayName := t.DisplayName, Image := t.Image,
         ImageTag := t.ImageTag, InfrastructureResources := xi, NetworkResources := xn,
         Price := xp, StorageResources := xs } : TemplateApiInputDTO) =
      .ok ({ ClassName := t.ClassName, CmdWithArgs := t.CmdWithArgs, ComputeResources := xc,
             Description := t.Description, DisplayName := t.DisplayName, Image := t.Image,
             ImageTag := t.ImageTag, InfrastructureResources := xi, NetworkResources := xn,
             Price := xp, StorageResources := xs, Vendor := t.Vendor } : TemplateApiInputDTO) :=
    (decodeStruct_omitEmptyString _ _ _ _ "vendor" _ _ (by rfl) (by rfl)).trans (by rfl)
  exact h19

/-- The float a literal written for a finite float parses to. -/
theorem formatFloat_toFloat (m e : Int) : (formatFloat m e).toFloat = .finite m e := by
  unfold formatFloat
  split
  · next h => rw [h]; rfl
  · rfl

/-- A float equals itself, unless it is `NaN`. -/
theorem GoFloat.eq_self (m e : Int) : GoFloat.eq (.finite m e) (.finite m e) = true := by
  simp [GoFloat.eq]

/-- Zero equals zero, whatever decimal it is given by. -/
theorem GoFloat.eq_zero (e : Int) : GoFloat.eq (.finite 0 0) (.finite 0 e) = true := by
  simp [GoFloat.eq]

/-- The price read back from the member of a finite price is that price. -/
theorem priceOf_eq (m e : Int) (xp : GoFloat) (h : priceOf m e = .ok xp) :
    GoFloat.eq xp (.finite m e) = true := by
  unfold priceOf at h
  by_cases hm : m = 0
  · simp only [hm, if_true, Except.ok.injEq] at h
    rw [← h, hm]
    exact GoFloat.eq_zero e
  · simp only [hm, if_false, decodeFloat64, parseFloat64] at h
    split at h
    · next f hf =>
      split at hf
      · simp only [Option.some.injEq] at hf
        simp only [Except.ok.injEq] at h
        rw [← h, ← hf, formatFloat_toFloat]
        exact GoFloat.eq_self m e
      · cases hf
    · cases h

/-- The price read back from the member of a finite price within the range of a
`float64`. -/
theorem priceOf_inRange (m e : Int) (h : (GoFloat.finite m e).inRange = true) :
    priceOf m e = .ok (if m = 0 then .finite 0 0 else .finite m e) := by
  unfold priceOf
  by_cases hm : m = 0
  · simp only [hm, if_true]
  · simp only [hm, if_false, decodeFloat64, parseFloat64]
    have h1 : (formatFloat m e).inFloat64Range = true := h
    simp only [h1, if_true, formatFloat_toFloat]

/-- The encoding of a template all of whose parts encode. -/
theorem TemplateApiDTO_toJSON_ok (t : TemplateApiDTO) (cj ij nj sj : List JSON) (m e : Int)
    (hc : marshalElems ResourceApiDTO.toJSON t.ComputeResources = .ok cj)
    (hi : marshalElems ResourceApiDTO.toJSON t.InfrastructureResources = .ok ij)
    (hn : marshalElems ResourceApiDTO.toJSON t.NetworkResources = .ok nj)
    (hP : t.Price = .finite m e)
    (hs : marshalElems ResourceApiDTO.toJSON t.StorageResources = .ok sj) :
    t.toJSON = .ok (.obj (templateMembers t cj ij nj
      (if m = 0 then [] else [("price", .num (formatFloat m e))]) sj)) := by
  simp only [TemplateApiDTO.toJSON, hc, hi, hn, hs, hP, omitEmptyFloat_finite, bind, Except.bind,
    pure, Except.pure]

/-- The encoding of a template fails, or all of its parts encode and its price is
finite. -/
theorem TemplateApiDTO_toJSON_cases (t : TemplateApiDTO) :
    (∃ err, t.toJSON = .error err) ∨
    ∃ (cj ij nj sj : List JSON) (m e : Int),
      marshalElems ResourceApiDTO.toJSON t.ComputeResources = .ok cj
      ∧ marshalElems ResourceApiDTO.toJSON t.InfrastructureResources = .ok ij
      ∧ marshalElems ResourceApiDTO.toJSON t.NetworkResources = .ok nj
      ∧ t.Price = .finite m e
      ∧ marshalElems ResourceApiDTO.toJSON t.StorageResources = .ok sj := by
  cases hc : marshalElems ResourceApiDTO.toJSON t.ComputeResources with
  | error err => exact .inl ⟨err, by simp only [TemplateApiDTO.toJSON, hc, bind, Except.bind]⟩
  | ok cj =>
    cases hi : marshalElems ResourceApiDTO.toJSON t.InfrastructureResources with
    | error err =>
      exact .inl ⟨err, by simp only [TemplateApiDTO.toJSON, hc, hi, bind, Except.bind]⟩
    | ok ij =>
      cases hn : marshalElems ResourceApiDTO.toJSON t.NetworkResources with
      | error err =>
        exact .inl ⟨err, by simp only [TemplateApiDTO.toJSON, hc, hi, hn, bind, Except.bind]⟩
      | ok nj =>
        cases hP : t.Price with
        | posInf =>
          exact .inl ⟨_, by
            simp only [TemplateApiDTO.toJSON, hc, hi, hn, hP, omitEmptyFloat, GoFloat.isZero,
              marshalFloat, Except.map, bind, Except.bind]
            rfl⟩
        | negInf =>
          exact .inl ⟨_, by
            simp only [TemplateApiDTO.toJSON, hc, hi, hn, hP, omitEmptyFloat, GoFloat.isZero,
              marshalFloat, Except.map, bind, Except.bind]
            rfl⟩
        | nan =>
          exact .inl ⟨_, by
            simp only [TemplateApiDTO.toJSON, hc, hi, hn, hP, omitEmptyFloat, GoFloat.isZero,
              marshalFloat, Except.map, bind, Except.bind]
            rfl⟩
        | finite m e =>
          cases hs : marshalElems ResourceApiDTO.toJSON t.StorageResources with
          | error err =>
            exact .inl ⟨err, by
              simp only [TemplateApiDTO.toJSON, hc, hi, hn, hP, hs, omitEmptyFloat_finite, bind,
                Except.bind]⟩
          | ok sj => exact .inr ⟨cj, ij, nj, sj, m, e, rfl, rfl, rfl, rfl, rfl⟩

/-- The input form is read back exactly when the five decoders succeed. -/
theorem templateDecoded_ok_iff (t : TemplateApiDTO)
    (Fc Fi Fn : Except GoError (List ResourceApiDTO)) (Fp : Except GoError GoFloat)
    (Fs : Except GoError (List ResourceApiDTO)) (x : TemplateApiInputDTO) :
    templateDecoded t Fc Fi Fn Fp Fs = .ok x ↔
      ∃ xc xi xn xp xs, Fc = .ok xc ∧ Fi = .ok xi ∧ Fn = .ok xn ∧ Fp = .ok xp ∧ Fs = .ok xs ∧
        x = { ClassName := t.ClassName, CmdWithArgs := t.CmdWithArgs, ComputeResources := xc,
              Description := t.Description, DisplayName := t.DisplayName, Image := t.Image,
              ImageTag := t.ImageTag, InfrastructureResources := xi,
              NetworkResources := xn, Price := xp, StorageResources := xs,
              Vendor := t.Vendor } := by
  rcases Fc with _ | xc <;> rcases Fi with _ | xi <;> rcases Fn with _ | xn <;>
    rcases Fp with _ | xp <;> rcases Fs with _ | xs <;> simp [templateDecoded, eq_comm]

/-- The conversion of a template whose encoding fails. -/
theorem TemplateApiInputDTO_of_marshal_error (t : TemplateApiDTO) (err : GoError)
    (h : t.toJSON = .error err) :
    TemplateApiDTO.TemplateApiInputDTO (some t) = .error err := by
  simp only [TemplateApiDTO.TemplateApiInputDTO, h]

/-- The conversion of a template all of whose parts encode: the deployment
profile ID is set on what the decoder read back. -/
theorem TemplateApiInputDTO_of_marshalled (t : TemplateApiDTO) (cj ij nj sj : List JSON)
    (m e : Int)
    (hc : marshalElems ResourceApiDTO.toJSON t.ComputeResources = .ok cj)
    (hi : marshalElems ResourceApiDTO.toJSON t.InfrastructureResources = .ok ij)
    (hn : marshalElems ResourceApiDTO.toJSON t.NetworkResources = .ok nj)
    (hP : t.Price = .finite m e)
    (hs : marshalElems ResourceApiDTO.toJSON t.StorageResources = .ok sj) :
    TemplateApiDTO.TemplateApiInputDTO (some t) =
      match templateDecoded t (decodeResources (.arr cj) []) (decodeResources (.arr ij) [])
        (decodeResources (.arr nj) []) (priceOf m e) (decodeResources (.arr sj) []) with
      | .error jsonDecErr => .error jsonDecErr
      | .ok inObj => .ok (some { inObj with DeploymentProfileId := t.DeploymentProfile.UUID }) := by
  simp only [TemplateApiDTO.TemplateApiInputDTO,
    TemplateApiDTO_toJSON_ok t cj ij nj sj m e hc hi hn hP hs, jsonUnmarshal,
    TemplateApiInputDTO_decode_members]

/-- C24: when `TemplateApiInputDTO` succeeds on a non-nil `TemplateApiDTO` `t`,
the input DTO it returns has `t.DeploymentProfile.UUID` as its
`DeploymentProfileId`, and its `ClassName`, `CmdWithArgs`, `Description`,
`DisplayName`, `Image`, `ImageTag`, `Price` and `Vendor` equal those of `t`; for a
nil receiver it returns `(nil, nil)`. -/
theorem TemplateApiInputDTO_attributes (t : TemplateApiDTO) (r : TemplateApiInputDTO)
    (h : TemplateApiDTO.TemplateApiInputDTO (some t) = .ok (some r)) :
    r.DeploymentProfileId = t.DeploymentProfile.UUID
    ∧ r.ClassName = t.ClassName
    ∧ r.CmdWithArgs = t.CmdWithArgs
    ∧ r.Description = t.Description
    ∧ r.DisplayName = t.DisplayName
    ∧ r.Image = t.Image
    ∧ r.ImageTag = t.ImageTag
    ∧ GoFloat.eq r.Price t.Price = true
    ∧ r.Vendor = t.Vendor
    ∧ TemplateApiDTO.TemplateApiInputDTO none = .ok none := by
  rcases TemplateApiDTO_toJSON_cases t with ⟨err, herr⟩ | ⟨cj, ij, nj, sj, m, e, hc, hi, hn, hP, hs⟩
  · rw [TemplateApiInputDTO_of_marshal_error t err herr] at h
    cases h
  · rw [TemplateApiInputDTO_of_marshalled t cj ij nj sj m e hc hi hn hP hs] at h
    split at h
    · cases h
    · next inObj hdec =>
      obtain ⟨xc, xi, xn, xp, xs, -, -, -, hp, -, hx⟩ := (templateDecoded_ok_iff _ _ _ _ _ _ _).mp hdec
      simp only [Except.ok.injEq, Option.some.injEq] at h
      subst h
      subst hx
      refine ⟨rfl, rfl, rfl, rfl, rfl, rfl, rfl, ?_, rfl, rfl⟩
      rw [hP]
      exact priceOf_eq m e xp hp

/-- C24 on a template with a price, a deployment profile and two stats. -/
theorem TemplateApiInputDTO_attributes_witness :
    TemplateApiDTO.TemplateApiInputDTO (some sizedTemplate) = .ok (some sizedInput)
    ∧ sizedInput.DeploymentProfileId = sizedTemplate.DeploymentProfile.UUID
    ∧ sizedInput.ClassName = sizedTemplate.ClassName
    ∧ sizedInput.CmdWithArgs = sizedTemplate.CmdWithArgs
    ∧ sizedInput.Description = sizedTemplate.Description
    ∧ sizedInput.DisplayName = sizedTemplate.DisplayName
    ∧ sizedInput.Image = sizedTemplate.Image
    ∧ sizedInput.ImageTag = sizedTemplate.ImageTag
    ∧ GoFloat.eq sizedInput.Price sizedTemplate.Price = true
    ∧ sizedInput.Vendor = sizedTemplate.Vendor
    ∧ TemplateApiDTO.TemplateApiInputDTO none = .ok none :=
  ⟨rfl, TemplateApiInputDTO_attributes sizedTemplate sizedInput rfl⟩

/-! ## Theorems: decoding what the encoder wrote for a stat -/

/-- What a run of members ending in members without the key holds under it. -/
theorem heldExact_append_none (key : String) (a b : List (String × JSON))
    (h : heldExact key b = none) : heldExact key (a ++ b) = heldExact key a := by
  induction a with
  | nil =>
    rw [List.nil_append, h]
    rfl
  | cons kv rest ih =>
    have e : heldExact key (kv :: rest ++ b) =
        match heldExact key (rest ++ b) with
        | some j => some j
        | none => if kv.1 = key then some kv.2 else none := rfl
    rw [e, ih]
    rfl

/-- What a run of members starting with members without the key holds under it. -/
theorem heldExact_append_left_none (key : String) (a b : List (String × JSON))
    (h : heldExact key a = none) : heldExact key (a ++ b) = heldExact key b := by
  induction a with
  | nil => rfl
  | cons kv rest ih =>
    simp only [heldExact] at h
    cases hr : heldExact key rest with
    | some j => rw [hr] at h; cases h
    | none =>
      rw [hr] at h
      have e : heldExact key (kv :: rest ++ b) =
          match heldExact key (rest ++ b) with
          | some j => some j
          | none => if kv.1 = key then some kv.2 else none := rfl
      rw [e, ih hr]
      cases hb : heldExact key b with
      | some j => rfl
      | none => exact h

/-- Members of another key hold nothing under the key. -/
theorem heldExact_skip (key k : String) (p : List (String × JSON))
    (hp : ∀ kv ∈ p, kv.1 = k) (hne : k ≠ key) : heldExact key p = none := by
  induction p with
  | nil => rfl
  | cons kv rest ih =>
    have h1 : kv.1 = k := hp kv (List.mem_cons_self _ _)
    have h2 := ih (fun x hx => hp x (List.mem_cons_of_mem _ hx))
    simp only [heldExact, h2, h1, hne, if_false]

/-- What a string member under `omitempty` holds under its key. -/
theorem scalarString_omitEmptyString (key v : String) :
    scalarString key (omitEmptyString key v) = v := by
  unfold scalarString omitEmptyString
  by_cases h : v = ""
  · simp only [h, if_true, heldExact]
  · simp only [h, if_false, heldExact, if_true]

/-- What a run of members ending in members that select no field holds for it. -/
theorem heldFor_append_none (field : String) (a b : List (String × JSON))
    (h : heldFor field b = none) : heldFor field (a ++ b) = heldFor field a := by
  induction a with
  | nil =>
    rw [List.nil_append, h]
    rfl
  | cons kv rest ih =>
    have e : heldFor field (kv :: rest ++ b) =
        match heldFor field (rest ++ b) with
        | some j => some j
        | none => if matchField [field] kv.1 = some field then some kv.2 else none := rfl
    rw [e, ih]
    rfl

/-- What a run of members starting with members that select no field holds for
it. -/
theorem heldFor_append_left_none (field : String) (a b : List (String × JSON))
    (h : heldFor field a = none) : heldFor field (a ++ b) = heldFor field b := by
  induction a with
  | nil => rfl
  | cons kv rest ih =>
    simp only [heldFor] at h
    cases hr : heldFor field rest with
    | some j => rw [hr] at h; cases h
    | none =>
      rw [hr] at h
      have e : heldFor field (kv :: rest ++ b) =
          match heldFor field (rest ++ b) with
          | some j => some j
          | none => if matchField [field] kv.1 = some field then some kv.2 else none := rfl
      rw [e, ih hr]
      cases hb : heldFor field b with
      | some j => rfl
      | none => exact h

/-- Members whose key selects no field hold nothing for it. -/
theorem heldFor_skip (field k : String) (p : List (String × JSON))
    (hp : ∀ kv ∈ p, kv.1 = k) (hne : matchField [field] k = none) : heldFor field p = none := by
  induction p with
  | nil => rfl
  | cons kv rest ih =>
    have h1 : kv.1 = k := hp kv (List.mem_cons_self _ _)
    have h2 := ih (fun x hx => hp x (List.mem_cons_of_mem _ hx))
    simp only [heldFor, h2, h1, hne]
    rfl

/-- When every member converts, the untyped pass stores them all. -/
theorem objectInterface_of_members (members : List (String × JSON))
    (h : Converts members) : ∀ acc : GoMap, ∃ m, objectInterface acc members = .ok m := by
  induction members with
  | nil => exact fun acc => ⟨acc, rfl⟩
  | cons hd rest ih =>
    intro acc
    obtain ⟨k, j⟩ := hd
    obtain ⟨v, hv⟩ := h (k, j) (List.mem_cons_self _ _)
    obtain ⟨m, hm⟩ := ih (fun kv hkv => h kv (List.mem_cons_of_mem _ hkv)) (mapSet k v acc)
    refine ⟨m, ?_⟩
    have hv1 : valueInterface j = .ok v := hv
    simp only [objectInterface, hv1, bind, Except.bind]
    exact hm

/-- When every element converts, so does the array. -/
theorem arrayInterface_of_elems (elems : List JSON)
    (h : ∀ j ∈ elems, ∃ v, valueInterface j = .ok v) : ∃ vs, arrayInterface elems = .ok vs := by
  induction elems with
  | nil => exact ⟨[], rfl⟩
  | cons j rest ih =>
    obtain ⟨v, hv⟩ := h j (List.mem_cons_self _ _)
    obtain ⟨vs, hvs⟩ := ih (fun x hx => h x (List.mem_cons_of_mem _ hx))
    refine ⟨v :: vs, ?_⟩
    simp only [arrayInterface, hv, hvs, bind, Except.bind]
    rfl

/-- An object whose members convert converts. -/
theorem valueInterface_obj (members : List (String × JSON)) (h : Converts members) :
    ∃ v, valueInterface (.obj members) = .ok v := by
  obtain ⟨m, hm⟩ := objectInterface_of_members members h []
  exact ⟨.map m, by simp only [valueInterface, hm, Except.map]⟩

/-- An array whose elements convert converts. -/
theorem valueInterface_arr (elems : List JSON)
    (h : ∀ j ∈ elems, ∃ v, valueInterface j = .ok v) :
    ∃ v, valueInterface (.arr elems) = .ok v := by
  obtain ⟨vs, hvs⟩ := arrayInterface_of_elems elems h
  exact ⟨.slice vs, by simp only [valueInterface, hvs, Except.map]⟩

/-- An integer of 64 bits is within the range of a `float64`. -/
theorem inFloat64Range_of_inInt64 (n : Int) (h : inInt64 n = true) :
    (JNumber.int n).inFloat64Range = true := by
  simp only [inInt64, decide_eq_true_eq] at h
  simp only [JNumber.inFloat64Range, decide_eq_true_eq, float64Limit]
  have h1 : n.natAbs ≤ 2 ^ 63 := by omega
  have h2 : (2 : Nat) ^ 63 < 2 ^ 1024 - 2 ^ 970 := by norm_num
  omega

/-- A number literal within the range of a `float64` converts to that float. -/
theorem valueInterface_num (n : JNumber) (h : n.inFloat64Range = true) :
    valueInterface (.num n) = .ok (.float64 n.toFloat) := by
  simp only [valueInterface, convertNumber, parseFloat64, h, if_true]

/-- Two runs of members that convert. -/
theorem converts_append (a b : List (String × JSON)) (ha : Converts a) (hb : Converts b) :
    Converts (a ++ b) := by
  intro kv hkv
  rcases List.mem_append.mp hkv with h | h
  · exact ha kv h
  · exact hb kv h

/-- A single member that converts. -/
theorem converts_single (k : String) (j : JSON) (h : ∃ v, valueInterface j = .ok v) :
    Converts [(k, j)] := by
  intro kv hkv
  rw [List.mem_singleton] at hkv
  rw [hkv]
  exact h

/-- A string member under `omitempty` converts. -/
theorem converts_omitEmptyString (k v : String) : Converts (omitEmptyString k v) := by
  unfold omitEmptyString
  split
  · intro kv hkv; cases hkv
  · exact converts_single _ _ ⟨_, rfl⟩

/-- An integer member under `omitempty` converts when it is of 64 bits. -/
theorem converts_omitEmptyInt (k : String) (n : Int) (h : inInt64 n = true) :
    Converts (omitEmptyInt k n) := by
  unfold omitEmptyInt
  split
  · intro kv hkv; cases hkv
  · exact converts_single _ _ ⟨_, valueInterface_num _ (inFloat64Range_of_inInt64 n h)⟩

/-- An array member under `omitempty` converts when its elements do. -/
theorem converts_omitEmptyArray (k : String) (elems : List JSON)
    (h : ∀ j ∈ elems, ∃ v, valueInterface j = .ok v) : Converts (omitEmptyArray k elems) := by
  unfold omitEmptyArray
  split
  · intro kv hkv; cases hkv
  · exact converts_single _ _ (valueInterface_arr elems h)

/-- The encoding of a `Link` converts. -/
theorem Link_toJSON_converts (l : Link) : ∃ v, valueInterface l.toJSON = .ok v :=
  valueInterface_obj _ (converts_append _ _ (converts_append _ _
    (converts_omitEmptyString _ _) (converts_omitEmptyString _ _))
    (converts_single _ _ ⟨_, rfl⟩))

/-- The encodings of the elements of a slice convert when each does. -/
theorem map_converts {α : Type} (enc : α → JSON) (l : List α)
    (h : ∀ x, ∃ v, valueInterface (enc x) = .ok v) :
    ∀ j ∈ l.map enc, ∃ v, valueInterface j = .ok v := by
  intro j hj
  obtain ⟨x, -, hx⟩ := List.mem_map.mp hj
  rw [← hx]
  exact h x

/-- The encoding of a `BaseApiDTO` converts. -/
theorem BaseApiDTO_toJSON_converts (obj : BaseApiDTO) :
    ∃ v, valueInterface obj.toJSON = .ok v :=
  valueInterface_obj _ (converts_append _ _ (converts_append _ _ (converts_append _ _
    (converts_omitEmptyString _ _) (converts_omitEmptyString _ _))
    (converts_omitEmptyArray _ _ (map_converts _ _ Link_toJSON_converts)))
    (converts_omitEmptyString _ _))

/-- The encoding of a `StatFilterApiDTO` converts. -/
theorem StatFilterApiDTO_toJSON_converts (obj : StatFilterApiDTO) :
    ∃ v, valueInterface obj.toJSON = .ok v :=
  valueInterface_obj _ (converts_append _ _
    (converts_omitEmptyString _ _) (converts_omitEmptyString _ _))

/-- The integers of a representable `StatValueApiDTO`. -/
theorem StatValueApiDTO_representable (obj : StatValueApiDTO) (h : obj.Representable = true) :
    inInt64 obj.Avg = true ∧ inInt64 obj.Max = true ∧ inInt64 obj.Min = true
      ∧ inInt64 obj.Total = true := by
  simpa only [StatValueApiDTO.Representable, Bool.and_eq_true, and_assoc] using h

/-- The encoding of a representable `StatValueApiDTO` converts. -/
theorem StatValueApiDTO_toJSON_converts (obj : StatValueApiDTO)
    (h : obj.Representable = true) : ∃ v, valueInterface obj.toJSON = .ok v := by
  obtain ⟨h1, h2, h3, h4⟩ := StatValueApiDTO_representable obj h
  exact valueInterface_obj _ (converts_append _ _ (converts_append _ _ (converts_append _ _
    (converts_omitEmptyInt _ _ h1) (converts_omitEmptyInt _ _ h2))
    (converts_omitEmptyInt _ _ h3)) (converts_omitEmptyInt _ _ h4))

/-- The bounds of an integer of 64 bits. -/
theorem inInt64_bounds (n : Int) (h : inInt64 n = true) : -2 ^ 63 ≤ n ∧ n < 2 ^ 63 := by
  simpa only [inInt64, decide_eq_true_eq] using h


/-- A representable `StatValueApiDTO` decodes from its encoding. -/
theorem StatValueApiDTO_decode_toJSON (obj : StatValueApiDTO) (h : obj.Representable = true) :
    StatValueApiDTO.decode obj.toJSON {} =
      .ok obj := by
  obtain ⟨r1, r2, r3, r4⟩ := StatValueApiDTO_representable obj h
  have h1 : StatValueApiDTO.decode (.obj (omitEmptyInt "avg" obj.Avg))
      ({} : StatValueApiDTO) =
      .ok ({ Avg := obj.Avg } : StatValueApiDTO) :=
    (decodeStruct_omitEmptyInt _ _ _ _ "avg" _ _ (by rfl) (by rfl)).trans (by
      show Except.map _ (decodeInt _ _) = _
      rw [decodeInt_int _ _ (inInt64_bounds _ r1)]
      rfl)
  have h2 : StatValueApiDTO.decode (.obj (omitEmptyInt "max" obj.Max))
      ({ Avg := obj.Avg } : StatValueApiDTO) =
      .ok ({ Avg := obj.Avg, Max := obj.Max } : StatValueApiDTO) :=
    (decodeStruct_omitEmptyInt _ _ _ _ "max" _ _ (by rfl) (by rfl)).trans (by
      show Except.map _ (decodeInt _ _) = _
      rw [decodeInt_int _ _ (inInt64_bounds _ r2)]
      rfl)
  have h3 : StatValueApiDTO.decode (.obj (omitEmptyInt "min" obj.Min))
      ({ Avg := obj.Avg, Max := obj.Max } : StatValueApiDTO) =
      .ok ({ Avg := obj.Avg, Max := obj.Max, Min := obj.Min } : StatValueApiDTO) :=
    (decodeStruct_omitEmptyInt _ _ _ _ "min" _ _ (by rfl) (by rfl)).trans (by
      show Except.map _ (decodeInt _ _) = _
      rw [decodeInt_int _ _ (inInt64_bounds _ r3)]
      rfl)
  have h4 : StatValueApiDTO.decode (.obj (omitEmptyInt "total" obj.Total))
      ({ Avg := obj.Avg, Max := obj.Max, Min := obj.Min } : StatValueApiDTO) =
      .ok ({ Avg := obj.Avg, Max := obj.Max, Min := obj.Min,
             Total := obj.Total } : StatValueApiDTO) :=
    (decodeStruct_omitEmptyInt _ _ _ _ "total" _ _ (by rfl) (by rfl)).trans (by
      show Except.map _ (decodeInt _ _) = _
      rw [decodeInt_int _ _ (inInt64_bounds _ r4)]
      rfl)
  have g2 := decodeStruct_append_ok _ _ _ _ _ _ _ _ h1 h2
  have g3 := decodeStruct_append_ok _ _ _ _ _ _ _ _ g2 h3
  have g4 := decodeStruct_append_ok _ _ _ _ _ _ _ _ g3 h4
  exact g4

/-- The first pass of `UnmarshalJSON` on what the encoder wrote for a stat: the six
nested fields are read back. -/
theorem TmpJSON_decode_statMembers (s : StatApiDTO) (vp : List (String × JSON))
    (hvp : ∀ kv ∈ vp, kv.1 = "value") (hcap : s.Capacity.Representable = true)
    (hres : s.Reserved.Representable = true) (hvals : s.Values.Representable = true) :
    TmpJSON.decode (.obj (statMembers s vp)) {} =
      .ok ({ Capacity := s.Capacity, Filters := s.Filters, Links := s.Links,
             RelatedEntity := s.RelatedEntity, Reserved := s.Reserved,
             Values := s.Values } : TmpJSON) := by
  have h1 : TmpJSON.decode (.obj ([("capacity", s.Capacity.toJSON)]))
      ({} : TmpJSON) =
      .ok ({ Capacity := s.Capacity } : TmpJSON) :=
    (decodeStruct_single _ _ _ _ "capacity" _ _ (by rfl)).trans (by
      show Except.map _ (StatValueApiDTO.decode _ {}) = _
      rw [StatValueApiDTO_decode_toJSON _ hcap]
      rfl)
  have h2 : TmpJSON.decode (.obj (omitEmptyString "className" s.ClassName))
      ({ Capacity := s.Capacity } : TmpJSON) =
      .ok ({ Capacity := s.Capacity } : TmpJSON) :=
    decodeStruct_skip _ _ _ "className" _ _ (by rfl) (omitEmptyString_key _ _)
  have h3 : TmpJSON.decode (.obj (omitEmptyString "displayName" s.DisplayName))
      ({ Capacity := s.Capacity } : TmpJSON) =
      .ok ({ Capacity := s.Capacity } : TmpJSON) :=
    decodeStruct_skip _ _ _ "displayName" _ _ (by rfl) (omitEmptyString_key _ _)
  have h4 : TmpJSON.decode (.obj (omitEmptyArray "filters" (s.Filters.map StatFilterApiDTO.toJSON)))
      ({ Capacity := s.Capacity } : TmpJSON) =
      .ok ({ Capacity := s.Capacity, Filters := s.Filters } : TmpJSON) :=
    (decodeStruct_omitEmptyArray _ _ _ _ "filters" _ _ (by rfl) (by rfl)).trans (by
      show Except.map _ (decodeSlice _ _ StatFilterApiDTO.decode (.arr _) []) = _
      rw [decodeSlice_map _ _ _ _ _ (fun x _ => StatFilterApiDTO_decode_toJSON x)]
      rfl)
  have h5 : TmpJSON.decode (.obj (omitEmptyArray "links" (s.Links.map Link.toJSON)))
      ({ Capacity := s.Capacity, Filters := s.Filters } : TmpJSON) =
      .ok ({ Capacity := s.Capacity, Filters := s.Filters, Links := s.Links } : TmpJSON) :=
    (decodeStruct_omitEmptyArray _ _ _ _ "links" _ _ (by rfl) (by rfl)).trans (by
      show Except.map _ (decodeSlice _ _ Link.decode (.arr _) []) = _
      rw [decodeSlice_map _ _ _ _ _ (fun x _ => Link_decode_toJSON x)]
      rfl)
  have h6 : TmpJSON.decode (.obj (omitEmptyString "name" s.Name))
      ({ Capacity := s.Capacity, Filters := s.Filters, Links := s.Links } : TmpJSON) =
      .ok ({ Capacity := s.Capacity, Filters := s.Filters, Links := s.Links } : TmpJSON) :=
    decodeStruct_skip _ _ _ "name" _ _ (by rfl) (omitEmptyString_key _ _)
  have h7 : TmpJSON.decode (.obj (omitEmptyInt "numRelatedEntities" s.NumRelatedEntities))
      ({ Capacity := s.Capacity, Filters := s.Filters, Links := s.Links } : TmpJSON) =
      .ok ({ Capacity := s.Capacity, Filters := s.Filters, Links := s.Links } : TmpJSON) :=
    decodeStruct_skip _ _ _ "numRelatedEntities" _ _ (by rfl) (omitEmptyInt_key _ _)
  have h8 : TmpJSON.decode (.obj ([("relatedEntity", s.RelatedEntity.toJSON)]))
      ({ Capacity := s.Capacity, Filters := s.Filters, Links := s.Links } : TmpJSON) =
      .ok ({ Capacity := s.Capacity, Filters := s.Filters, Links := s.Links,
             RelatedEntity := s.RelatedEntity } : TmpJSON) :=
    (decodeStruct_single _ _ _ _ "relatedEntity" _ _ (by rfl)).trans (by
      show Except.map _ (BaseApiDTO.decode _ {}) = _
      rw [BaseApiDTO_decode_toJSON _]
      rfl)
  have h9 : TmpJSON.decode (.obj (omitEmptyString "relatedEntityType" s.RelatedEntityType))
      ({ Capacity := s.Capacity, Filters := s.Filters, Links := s.Links,
         RelatedEntity := s.RelatedEntity } : TmpJSON) =
      .ok ({ Capacity := s.Capacity, Filters := s.Filters, Links := s.Links,
             RelatedEntity := s.RelatedEntity } : TmpJSON) :=
    decodeStruct_skip _ _ _ "relatedEntityType" _ _ (by rfl) (omitEmptyString_key _ _)
  have h10 : TmpJSON.decode (.obj ([("reserved", s.Reserved.toJSON)]))
      ({ Capacity := s.Capacity, Filters := s.Filters, Links := s.Links,
         RelatedEntity := s.RelatedEntity } : TmpJSON) =
      .ok ({ Capacity := s.Capacity, Filters := s.Filters, Links := s.Links,
             RelatedEntity := s.RelatedEntity, Reserved := s.Reserved } : TmpJSON) :=
    (decodeStruct_single _ _ _ _ "reserved" _ _ (by rfl)).trans (by
      show Except.map _ (StatValueApiDTO.decode _ {}) = _
      rw [StatValueApiDTO_decode_toJSON _ hres]
      rfl)
  have h11 : TmpJSON.decode (.obj (omitEmptyString "units" s.Units))
      ({ Capacity := s.Capacity, Filters := s.Filters, Links := s.Links,
         RelatedEntity := s.RelatedEntity, Reserved := s.Reserved } : TmpJSON) =
      .ok ({ Capacity := s.Capacity, Filters := s.Filters, Links := s.Links,
             RelatedEntity := s.RelatedEntity, Reserved := s.Reserved } : TmpJSON) :=
    decodeStruct_skip _ _ _ "units" _ _ (by rfl) (omitEmptyString_key _ _)
  have h12 : TmpJSON.decode (.obj (omitEmptyString "uuid" s.UUID))
      ({ Capacity := s.Capacity, Filters := s.Filters, Links := s.Links,
         RelatedEntity := s.RelatedEntity, Reserved := s.Reserved } : TmpJSON) =
      .ok ({ Capacity := s.Capacity, Filters := s.Filters, Links := s.Links,
             RelatedEntity := s.RelatedEntity, Reserved := s.Reserved } : TmpJSON) :=
    decodeStruct_skip _ _ _ "uuid" _ _ (by rfl) (omitEmptyString_key _ _)
  have h13 : TmpJSON.decode (.obj (vp))
      ({ Capacity := s.Capacity, Filters := s.Filters, Links := s.Links,
         RelatedEntity := s.RelatedEntity, Reserved := s.Reserved } : TmpJSON) =
      .ok ({ Capacity := s.Capacity, Filters := s.Filters, Links := s.Links,
             RelatedEntity := s.RelatedEntity, Reserved := s.Reserved } : TmpJSON) :=
    decodeStruct_skip _ _ _ "value" _ _ (by rfl) (hvp)
  have h14 : TmpJSON.decode (.obj ([("values", s.Values.toJSON)]))
      ({ Capacity := s.Capacity, Filters := s.Filters, Links := s.Links,
         RelatedEntity := s.RelatedEntity, Reserved := s.Reserved } : TmpJSON) =
      .ok ({ Capacity := s.Capacity, Filters := s.Filters, Links := s.Links,
             RelatedEntity := s.RelatedEntity, Reserved := s.Reserved,
             Values := s.Values } : TmpJSON) :=
    (decodeStruct_single _ _ _ _ "values" _ _ (by rfl)).trans (by
      show Except.map _ (StatValueApiDTO.decode _ {}) = _
      rw [StatValueApiDTO_decode_toJSON _ hvals]
      rfl)
  have g2 := decodeStruct_append_ok _ _ _ _ _ _ _ _ h1 h2
  have g3 := decodeStruct_append_ok _ _ _ _ _ _ _ _ g2 h3
  have g4 := decodeStruct_append_ok _ _ _ _ _ _ _ _ g3 h4
  have g5 := decodeStruct_append_ok _ _ _ _ _ _ _ _ g4 h5
  have g6 := decodeStruct_append_ok _ _ _ _ _ _ _ _ g5 h6
  have g7 := decodeStruct_append_ok _ _ _ _ _ _ _ _ g6 h7
  have g8 := decodeStruct_append_ok _ _ _ _ _ _ _ _ g7 h8
  have g9 := decodeStruct_append_ok _ _ _ _ _ _ _ _ g8 h9
  have g10 := decodeStruct_append_ok _ _ _ _ _ _ _ _ g9 h10
  have g11 := decodeStruct_append_ok _ _ _ _ _ _ _ _ g10 h11
  have g12 := decodeStruct_append_ok _ _ _ _ _ _ _ _ g11 h12
  have g13 := decodeStruct_append_ok _ _ _ _ _ _ _ _ g12 h13
  have g14 := decodeStruct_append_ok _ _ _ _ _ _ _ _ g13 h14
  exact g14

/-- Every member the encoder wrote for a representable stat converts. -/
theorem statMembers_converts (s : StatApiDTO) (vp : List (String × JSON))
    (hvpc : Converts vp) (hcap : s.Capacity.Representable = true)
    (hnum : inInt64 s.NumRelatedEntities = true)
    (hres : s.Reserved.Representable = true) (hvals : s.Values.Representable = true) :
    Converts (statMembers s vp) := by
  unfold statMembers
  exact converts_append _ _ (converts_append _ _ (converts_append _ _ (converts_append _ _ (converts_append _ _ (converts_append _ _ (converts_append _ _ (converts_append _ _ (converts_append _ _ (converts_append _ _ (converts_append _ _ (converts_append _ _ (converts_append _ _ (
    converts_single _ _ (StatValueApiDTO_toJSON_converts _ hcap))
    (converts_omitEmptyString _ _))
    (converts_omitEmptyString _ _))
    (converts_omitEmptyArray _ _ (map_converts _ _ StatFilterApiDTO_toJSON_converts)))
    (converts_omitEmptyArray _ _ (map_converts _ _ Link_toJSON_converts)))
    (converts_omitEmptyString _ _))
    (converts_omitEmptyInt _ _ hnum))
    (converts_single _ _ (BaseApiDTO_toJSON_converts _)))
    (converts_omitEmptyString _ _))
    (converts_single _ _ (StatValueApiDTO_toJSON_converts _ hres)))
    (converts_omitEmptyString _ _))
    (converts_omitEmptyString _ _))
    (hvpc))
    (converts_single _ _ (StatValueApiDTO_toJSON_converts _ hvals))

/-- What the encoding of a stat holds under `name`. -/
theorem heldExact_name_statMembers (s : StatApiDTO) (vp : List (String × JSON))
    (hvp : ∀ kv ∈ vp, kv.1 = "value") :
    heldExact "name" (statMembers s vp) =
      heldExact "name" (omitEmptyString "name" s.Name) := by
  have e1 : heldExact "name" ([("capacity", s.Capacity.toJSON)]) = none :=
    heldExact_skip "name" "capacity" _ (single_key _ _) (by decide)
  have e2 : heldExact "name" (omitEmptyString "className" s.ClassName) = none :=
    heldExact_skip "name" "className" _ (omitEmptyString_key _ _) (by decide)
  have e3 : heldExact "name" (omitEmptyString "displayName" s.DisplayName) = none :=
    heldExact_skip "name" "displayName" _ (omitEmptyString_key _ _) (by decide)
  have e4 : heldExact "name" (omitEmptyArray "filters" (s.Filters.map StatFilterApiDTO.toJSON)) = none :=
    heldExact_skip "name" "filters" _ (omitEmptyArray_key _ _) (by decide)
  have e5 : heldExact "name" (omitEmptyArray "links" (s.Links.map Link.toJSON)) = none :=
    heldExact_skip "name" "links" _ (omitEmptyArray_key _ _) (by decide)
  have e7 : heldExact "name" (omitEmptyInt "numRelatedEntities" s.NumRelatedEntities) = none :=
    heldExact_skip "name" "numRelatedEntities" _ (omitEmptyInt_key _ _) (by decide)
  have e8 : heldExact "name" ([("relatedEntity", s.RelatedEntity.toJSON)]) = none :=
    heldExact_skip "name" "relatedEntity" _ (single_key _ _) (by decide)
  have e9 : heldExact "name" (omitEmptyString "relatedEntityType" s.RelatedEntityType) = none :=
    heldExact_skip "name" "relatedEntityType" _ (omitEmptyString_key _ _) (by decide)
  have e10 : heldExact "name" ([("reserved", s.Reserved.toJSON)]) = none :=
    heldExact_skip "name" "reserved" _ (single_key _ _) (by decide)
  have e11 : heldExact "name" (omitEmptyString "units" s.Units) = none :=
    heldExact_skip "name" "units" _ (omitEmptyString_key _ _) (by decide)
  have e12 : heldExact "name" (omitEmptyString "uuid" s.UUID) = none :=
    heldExact_skip "name" "uuid" _ (omitEmptyString_key _ _) (by decide)
  have e13 : heldExact "name" (vp) = none :=
    heldExact_skip "name" "value" _ (hvp) (by decide)
  have e14 : heldExact "name" ([("values", s.Values.toJSON)]) = none :=
    heldExact_skip "name" "values" _ (single_key _ _) (by decide)
  have hpre : heldExact "name" ([("capacity", s.Capacity.toJSON)] ++ omitEmptyString "className" s.ClassName ++ omitEmptyString "displayName" s.DisplayName ++ omitEmptyArray "filters" (s.Filters.map StatFilterApiDTO.toJSON) ++ omitEmptyArray "links" (s.Links.map Link.toJSON)) = none := by
    rw [heldExact_append_none _ _ _ e5, heldExact_append_none _ _ _ e4,
        heldExact_append_none _ _ _ e3, heldExact_append_none _ _ _ e2]
    exact e1
  unfold statMembers
  rw [heldExact_append_none _ _ _ e14, heldExact_append_none _ _ _ e13,
      heldExact_append_none _ _ _ e12, heldExact_append_none _ _ _ e11,
      heldExact_append_none _ _ _ e10, heldExact_append_none _ _ _ e9,
      heldExact_append_none _ _ _ e8, heldExact_append_none _ _ _ e7,
      heldExact_append_left_none _ _ _ hpre]

/-- What the encoding of a stat holds under `units`. -/
theorem heldExact_units_statMembers (s : StatApiDTO) (vp : List (String × JSON))
    (hvp : ∀ kv ∈ vp, kv.1 = "value") :
    heldExact "units" (statMembers s vp) =
      heldExact "units" (omitEmptyString "units" s.Units) := by
  have e1 : heldExact "units" ([("capacity", s.Capacity.toJSON)]) = none :=
    heldExact_skip "units" "capacity" _ (single_key _ _) (by decide)
  have e2 : heldExact "units" (omitEmptyString "className" s.ClassName) = none :=
    heldExact_skip "units" "className" _ (omitEmptyString_key _ _) (by decide)
  have e3 : heldExact "units" (omitEmptyString "displayName" s.DisplayName) = none :=
    heldExact_skip "units" "displayName" _ (omitEmptyString_key _ _) (by decide)
  have e4 : heldExact "units" (omitEmptyArray "filters" (s.Filters.map StatFilterApiDTO.toJSON)) = none :=
    heldExact_skip "units" "filters" _ (omitEmptyArray_key _ _) (by decide)
  have e5 : heldExact "units" (omitEmptyArray "links" (s.Links.map Link.toJSON)) = none :=
    heldExact_skip "units" "links" _ (omitEmptyArray_key _ _) (by decide)
  have e6 : heldExact "units" (omitEmptyString "name" s.Name) = none :=
    heldExact_skip "units" "name" _ (omitEmptyString_key _ _) (by decide)
  have e7 : heldExact "units" (omitEmptyInt "numRelatedEntities" s.NumRelatedEntities) = none :=
    heldExact_skip "units" "numRelatedEntities" _ (omitEmptyInt_key _ _) (by decide)
  have e8 : heldExact "units" ([("relatedEntity", s.RelatedEntity.toJSON)]) = none :=
    heldExact_skip "units" "relatedEntity" _ (single_key _ _) (by decide)
  have e9 : heldExact "units" (omitEmptyString "relatedEntityType" s.RelatedEntityType) = none :=
    heldExact_skip "units" "relatedEntityType" _ (omitEmptyString_key _ _) (by decide)
  have e10 : heldExact "units" ([("reserved", s.Reserved.toJSON)]) = none :=
    heldExact_skip "units" "reserved" _ (single_key _ _) (by decide)
  have e12 : heldExact "units" (omitEmptyString "uuid" s.UUID) = none :=
    heldExact_skip "units" "uuid" _ (omitEmptyString_key _ _) (by decide)
  have e13 : heldExact "units" (vp) = none :=
    heldExact_skip "units" "value" _ (hvp) (by decide)
  have e14 : heldExact "units" ([("values", s.Values.toJSON)]) = none :=
    heldExact_skip "units" "values" _ (single_key _ _) (by decide)
  have hpre : heldExact "units" ([("capacity", s.Capacity.toJSON)] ++ omitEmptyString "className" s.ClassName ++ omitEmptyString "displayName" s.DisplayName ++ omitEmptyArray "filters" (s.Filters.map StatFilterApiDTO.toJSON) ++ omitEmptyArray "links" (s.Links.map Link.toJSON) ++ omitEmptyString "name" s.Name ++ omitEmptyInt "numRelatedEntities" s.NumRelatedEntities ++ [("relatedEntity", s.RelatedEntity.toJSON)] ++ omitEmptyString "relatedEntityType" s.RelatedEntityType ++ [("reserved", s.Reserved.toJSON)]) = none := by
    rw [heldExact_append_none _ _ _ e10, heldExact_append_none _ _ _ e9,
        heldExact_append_none _ _ _ e8, heldExact_append_none _ _ _ e7,
        heldExact_append_none _ _ _ e6, heldExact_append_none _ _ _ e5,
        heldExact_append_none _ _ _ e4, heldExact_append_none _ _ _ e3,
        heldExact_append_none _ _ _ e2]
    exact e1
  unfold statMembers
  rw [heldExact_append_none _ _ _ e14, heldExact_append_none _ _ _ e13,
      heldExact_append_none _ _ _ e12, heldExact_append_left_none _ _ _ hpre]

/-- What the encoding of a stat holds for the field `value`. -/
theorem heldFor_value_statMembers (s : StatApiDTO) (vp : List (String × JSON)) :
    heldFor "value" (statMembers s vp) =
      heldFor "value" (vp) := by
  have e1 : heldFor "value" ([("capacity", s.Capacity.toJSON)]) = none :=
    heldFor_skip "value" "capacity" _ (single_key _ _) (by rfl)
  have e2 : heldFor "value" (omitEmptyString "className" s.ClassName) = none :=
    heldFor_skip "value" "className" _ (omitEmptyString_key _ _) (by rfl)
  have e3 : heldFor "value" (omitEmptyString "displayName" s.DisplayName) = none :=
    heldFor_skip "value" "displayName" _ (omitEmptyString_key _ _) (by rfl)
  have e4 : heldFor "value" (omitEmptyArray "filters" (s.Filters.map StatFilterApiDTO.toJSON)) = none :=
    heldFor_skip "value" "filters" _ (omitEmptyArray_key _ _) (by rfl)
  have e5 : heldFor "value" (omitEmptyArray "links" (s.Links.map Link.toJSON)) = none :=
    heldFor_skip "value" "links" _ (omitEmptyArray_key _ _) (by rfl)
  have e6 : heldFor "value" (omitEmptyString "name" s.Name) = none :=
    heldFor_skip "value" "name" _ (omitEmptyString_key _ _) (by rfl)
  have e7 : heldFor "value" (omitEmptyInt "numRelatedEntities" s.NumRelatedEntities) = none :=
    heldFor_skip "value" "numRelatedEntities" _ (omitEmptyInt_key _ _) (by rfl)
  have e8 : heldFor "value" ([("relatedEntity", s.RelatedEntity.toJSON)]) = none :=
    heldFor_skip "value" "relatedEntity" _ (single_key _ _) (by rfl)
  have e9 : heldFor "value" (omitEmptyString "relatedEntityType" s.RelatedEntityType) = none :=
    heldFor_skip "value" "relatedEntityType" _ (omitEmptyString_key _ _) (by rfl)
  have e10 : heldFor "value" ([("reserved", s.Reserved.toJSON)]) = none :=
    heldFor_skip "value" "reserved" _ (single_key _ _) (by rfl)
  have e11 : heldFor "value" (omitEmptyString "units" s.Units) = none :=
    heldFor_skip "value" "units" _ (omitEmptyString_key _ _) (by rfl)
  have e12 : heldFor "value" (omitEmptyString "uuid" s.UUID) = none :=
    heldFor_skip "value" "uuid" _ (omitEmptyString_key _ _) (by rfl)
  have e14 : heldFor "value" ([("values", s.Values.toJSON)]) = none :=
    heldFor_skip "value" "values" _ (single_key _ _) (by rfl)
  have hpre : heldFor "value" ([("capacity", s.Capacity.toJSON)] ++ omitEmptyString "className" s.ClassName ++ omitEmptyString "displayName" s.DisplayName ++ omitEmptyArray "filters" (s.Filters.map StatFilterApiDTO.toJSON) ++ omitEmptyArray "links" (s.Links.map Link.toJSON) ++ omitEmptyString "name" s.Name ++ omitEmptyInt "numRelatedEntities" s.NumRelatedEntities ++ [("relatedEntity", s.RelatedEntity.toJSON)] ++ omitEmptyString "relatedEntityType" s.RelatedEntityType ++ [("reserved", s.Reserved.toJSON)] ++ omitEmptyString "units" s.Units ++ omitEmptyString "uuid" s.UUID) = none := by
    rw [heldFor_append_none _ _ _ e12, heldFor_append_none _ _ _ e11,
        heldFor_append_none _ _ _ e10, heldFor_append_none _ _ _ e9,
        heldFor_append_none _ _ _ e8, heldFor_append_none _ _ _ e7,
        heldFor_append_none _ _ _ e6, heldFor_append_none _ _ _ e5,
        heldFor_append_none _ _ _ e4, heldFor_append_none _ _ _ e3,
        heldFor_append_none _ _ _ e2]
    exact e1
  unfold statMembers
  rw [heldFor_append_none _ _ _ e14, heldFor_append_left_none _ _ _ hpre]

/-- The member a finite float within the range of a `float64` contributes
converts. -/
theorem floatPiece_converts (k : String) (m e : Int)
    (h : (GoFloat.finite m e).inRange = true) :
    Converts (if m = 0 then [] else [(k, JSON.num (formatFloat m e))]) := by
  split
  · intro kv hkv; cases hkv
  · exact converts_single _ _ ⟨_, valueInterface_num _ h⟩

/-- What the member of a finite `Value` holds for the field `value`. -/
theorem heldFor_floatPiece (m e : Int) :
    heldFor "value" (if m = 0 then [] else [("value", JSON.num (formatFloat m e))]) =
      if m = 0 then none else some (.num (formatFloat m e)) := by
  split
  · rfl
  · rfl

/-- The numbers of a representable stat. -/
theorem StatApiDTO_representable (s : StatApiDTO) (h : s.Representable = true) :
    s.Capacity.Representable = true ∧ inInt64 s.NumRelatedEntities = true
      ∧ s.Reserved.Representable = true ∧ s.Value.inRange = true
      ∧ s.Values.Representable = true := by
  simpa only [StatApiDTO.Representable, Bool.and_eq_true, and_assoc] using h

/-- The third assignment of `UnmarshalJSON` when `objJSON.Value` is nil. -/
theorem assignValue_nil (obj : StatApiDTO) (objJSON : ObjJSON) (h : objJSON.Value = .nil) :
    obj.assignValue objJSON = obj := by
  simp only [StatApiDTO.assignValue, h, GoValue.assertFloat64, GoValue.assertString]
  rfl

/-- The third assignment of `UnmarshalJSON` when `objJSON.Value` is a float. -/
theorem assignValue_float (obj : StatApiDTO) (objJSON : ObjJSON) (f : GoFloat)
    (h : objJSON.Value = .float64 f) : (obj.assignValue objJSON).Value = f := by
  simp only [StatApiDTO.assignValue, h, GoValue.assertFloat64]
  rfl

/-- A representable stat with a finite `Value` decodes from what the encoder
wrote for it, to a stat of the same `Name`, `Units` and `Value`. -/
theorem StatApiDTO_decode_statMembers (s : StatApiDTO) (m e : Int)
    (hrep : s.Representable = true) (hv : s.Value = .finite m e) :
    ∃ s1, StatApiDTO.decode (.obj (statMembers s
        (if m = 0 then [] else [("value", .num (formatFloat m e))]))) {} = .ok s1
      ∧ SameStat s1 s := by
  obtain ⟨hcap, hnum, hres, hval, hvals⟩ := StatApiDTO_representable s hrep
  rw [hv] at hval
  have hvp := floatPiece_key "value" m e
  have hvpc := floatPiece_converts "value" m e hval
  have hheld := (heldFor_value_statMembers s
    (if m = 0 then [] else [("value", JSON.num (formatFloat m e))])).trans (heldFor_floatPiece m e)
  generalize (if m = 0 then [] else [("value", JSON.num (formatFloat m e))]) = vp at hvp hvpc hheld ⊢
  have h1 : jsonUnmarshal TmpJSON.decode (.valid (.obj (statMembers s vp))) {} = .ok _ :=
    TmpJSON_decode_statMembers s vp hvp hcap hres hvals
  obtain ⟨objMap, hmap⟩ := objectInterface_of_members _
    (statMembers_converts s vp hvpc hcap hnum hres hvals) []
  have h2 : jsonUnmarshal decodeMapInterface (.valid (.obj (statMembers s vp))) [] =
      .ok objMap := hmap
  obtain ⟨objJSON, hsome, hnone, heq⟩ :=
    UnmarshalJSON_obj_of_passes {} (statMembers s vp) _ objMap h1 h2
  have hsc := scalars_after_assignments {}
    { Capacity := s.Capacity, Filters := s.Filters, Links := s.Links,
      RelatedEntity := s.RelatedEntity, Reserved := s.Reserved, Values := s.Values }
    objMap objJSON (statMembers s vp) hmap
  refine ⟨((({} : StatApiDTO).assignNested
    { Capacity := s.Capacity, Filters := s.Filters, Links := s.Links,
      RelatedEntity := s.RelatedEntity, Reserved := s.Reserved, Values := s.Values }).assignScalars
    objMap).assignValue objJSON, by simp only [StatApiDTO.decode, heq], ?_, ?_, ?_⟩
  · refine hsc.2.2.1.trans ?_
    unfold scalarString
    rw [heldExact_name_statMembers s vp hvp]
    exact scalarString_omitEmptyString "name" s.Name
  · refine hsc.2.2.2.2.1.trans ?_
    unfold scalarString
    rw [heldExact_units_statMembers s vp hvp]
    exact scalarString_omitEmptyString "units" s.Units
  · rw [hv]
    by_cases hm : m = 0
    · simp only [hm, if_true] at hheld
      rw [assignValue_nil _ _ (hnone hheld), hm]
      exact GoFloat.eq_zero e
    · simp only [hm, if_false] at hheld
      have hval1 := (hsome _ hheld).symm.trans (valueInterface_num _ hval)
      simp only [Except.ok.injEq] at hval1
      rw [assignValue_float _ _ _ hval1, formatFloat_toFloat]
      exact GoFloat.eq_self m e


/-- The encoding of a stat with a finite `Value`. -/
theorem StatApiDTO_toJSON_finite (s : StatApiDTO) (m e : Int) (hv : s.Value = .finite m e) :
    s.toJSON = .ok (.obj (statMembers s
      (if m = 0 then [] else [("value", .num (formatFloat m e))]))) := by
  simp only [StatApiDTO.toJSON, hv, omitEmptyFloat_finite, bind, Except.bind, pure, Except.pure]

/-- The encoder succeeds on a stat exactly when its `Value` is finite. -/
theorem StatApiDTO_toJSON_ok_iff (s : StatApiDTO) :
    (∃ j, s.toJSON = .ok j) ↔ s.Value.isFinite = true := by
  cases hv : s.Value with
  | finite m e => simp only [StatApiDTO_toJSON_finite s m e hv, GoFloat.isFinite, iff_true]; exact ⟨_, rfl⟩
  | posInf =>
    simp [StatApiDTO.toJSON, hv, omitEmptyFloat, GoFloat.isZero, marshalFloat, Except.map,
      bind, Except.bind, GoFloat.isFinite]
  | negInf =>
    simp [StatApiDTO.toJSON, hv, omitEmptyFloat, GoFloat.isZero, marshalFloat, Except.map,
      bind, Except.bind, GoFloat.isFinite]
  | nan =>
    simp [StatApiDTO.toJSON, hv, omitEmptyFloat, GoFloat.isZero, marshalFloat, Except.map,
      bind, Except.bind, GoFloat.isFinite]

/-- The encoder succeeds on a slice exactly when it does on every element. -/
theorem marshalElems_ok_iff {α : Type} (enc : α → Except GoError JSON) (l : List α) :
    (∃ js, marshalElems enc l = .ok js) ↔ ∀ x ∈ l, ∃ j, enc x = .ok j := by
  induction l with
  | nil => simp [marshalElems]
  | cons x rest ih =>
    simp only [List.mem_cons, forall_eq_or_imp, ← ih]
    cases hx : enc x with
    | error err => simp [marshalElems, hx, bind, Except.bind]
    | ok j =>
      cases hr : marshalElems enc rest with
      | error err => simp [marshalElems, hx, hr, bind, Except.bind]
      | ok js => simp [marshalElems, hx, hr, bind, Except.bind, pure, Except.pure]

/-- The encoding of a resource whose stats encode. -/
theorem ResourceApiDTO_toJSON_ok (r : ResourceApiDTO) (sjs : List JSON)
    (h : marshalElems StatApiDTO.toJSON r.Stats = .ok sjs) :
    r.toJSON = .ok (.obj (resourceMembers r sjs)) := by
  simp only [ResourceApiDTO.toJSON, h, bind, Except.bind, pure, Except.pure]

/-- The encoder succeeds on a resource exactly when the `Value` of each of its
stats is finite. -/
theorem ResourceApiDTO_toJSON_ok_iff (r : ResourceApiDTO) :
    (∃ j, r.toJSON = .ok j) ↔ ∀ s ∈ r.Stats, s.Value.isFinite = true := by
  simp only [← StatApiDTO_toJSON_ok_iff, ← marshalElems_ok_iff]
  cases hs : marshalElems StatApiDTO.toJSON r.Stats with
  | error err => simp [ResourceApiDTO.toJSON, hs, bind, Except.bind]
  | ok sjs => simp [ResourceApiDTO_toJSON_ok r sjs hs]

/-- The encoder succeeds on a resource list exactly when no stat of it has a
`Value` that is not finite. -/
theorem marshalResources_ok_iff (rs : List ResourceApiDTO) :
    (∃ js, marshalElems ResourceApiDTO.toJSON rs = .ok js) ↔ hasNonFiniteStat rs = false := by
  rw [marshalElems_ok_iff]
  simp only [ResourceApiDTO_toJSON_ok_iff, hasNonFiniteStat, List.any_eq_false,
    List.any_eq_true, Bool.not_eq_true', not_exists, not_and, Bool.not_eq_false]

/-- The elements the encoder wrote for a slice decode to a slice related to it
element by element, when each element does. -/
theorem decodeElems_marshalElems {α : Type} (enc : α → Except GoError JSON)
    (decodeElem : JSON → α → Except GoError α) (zero : α) (R : α → α → Prop) (P : α → Prop)
    (hstep : ∀ x j, P x → enc x = .ok j → ∃ y, decodeElem j zero = .ok y ∧ R y x) :
    ∀ (l : List α) (js : List JSON), (∀ x ∈ l, P x) → marshalElems enc l = .ok js →
      ∃ ys, decodeElems zero decodeElem js [] = .ok ys ∧ List.Forall₂ R ys l := by
  intro l
  induction l with
  | nil =>
    intro js _ h
    simp only [marshalElems, Except.ok.injEq] at h
    subst h
    exact ⟨[], rfl, List.Forall₂.nil⟩
  | cons x rest ih =>
    intro js hP h
    cases hx : enc x with
    | error err => simp [marshalElems, hx, bind, Except.bind] at h
    | ok j =>
      cases hr : marshalElems enc rest with
      | error err => simp [marshalElems, hx, hr, bind, Except.bind] at h
      | ok js1 =>
        simp only [marshalElems, hx, hr, bind, Except.bind, pure, Except.pure,
          Except.ok.injEq] at h
        subst h
        obtain ⟨y, hy, hR⟩ := hstep x j (hP x (List.mem_cons_self _ _)) hx
        obtain ⟨ys, hys, hRs⟩ := ih js1 (fun z hz => hP z (List.mem_cons_of_mem _ hz)) hr
        refine ⟨y :: ys, ?_, List.Forall₂.cons hR hRs⟩
        simp only [decodeElems, List.headD_nil, List.tail_nil, hy, hys, bind, Except.bind]
        rfl


/-- A resource decodes from what the encoder wrote for it, with the stats their
decoder returns. -/
theorem ResourceApiDTO_decode_members (r : ResourceApiDTO) (sjs : List JSON)
    (ys : List StatApiDTO)
    (hys : decodeSlice "[]api.StatApiDTO" {} StatApiDTO.decode (.arr sjs) [] = .ok ys) :
    ResourceApiDTO.decode (.obj (resourceMembers r sjs)) {} =
      .ok ({ Provider := r.Provider, Stats := ys, Template := r.Template, Type_ := r.Type_ } :
        ResourceApiDTO) := by
  have h1 : ResourceApiDTO.decode (.obj ([("provider", r.Provider.toJSON)]))
      ({} : ResourceApiDTO) =
      .ok ({ Provider := r.Provider } : ResourceApiDTO) :=
    (decodeStruct_single _ _ _ _ "provider" _ _ (by rfl)).trans (by
      show Except.map _ (BaseApiDTO.decode _ {}) = _
      rw [BaseApiDTO_decode_toJSON _]
      rfl)
  have h2 : ResourceApiDTO.decode (.obj (omitEmptyArray "stats" sjs))
      ({ Provider := r.Provider } : ResourceApiDTO) =
      .ok ({ Provider := r.Provider, Stats := ys } : ResourceApiDTO) :=
    (decodeStruct_omitEmptyArray _ _ _ _ "stats" _ _ (by rfl) (by rfl)).trans (by
      show Except.map _ (decodeSlice _ _ StatApiDTO.decode (.arr _) []) = _
      rw [hys]
      rfl)
  have h3 : ResourceApiDTO.decode (.obj (omitEmptyString "template" r.Template))
      ({ Provider := r.Provider, Stats := ys } : ResourceApiDTO) =
      .ok ({ Provider := r.Provider, Stats := ys, Template := r.Template } : ResourceApiDTO) :=
    (decodeStruct_omitEmptyString _ _ _ _ "template" _ _ (by rfl) (by rfl)).trans (by rfl)
  have h4 : ResourceApiDTO.decode (.obj (omitEmptyString "type" r.Type_))
      ({ Provider := r.Provider, Stats := ys, Template := r.Template } : ResourceApiDTO) =
      .ok ({ Provider := r.Provider, Stats := ys, Template := r.Template,
             Type_ := r.Type_ } : ResourceApiDTO) :=
    (decodeStruct_omitEmptyString _ _ _ _ "type" _ _ (by rfl) (by rfl)).trans (by rfl)
  have g2 := decodeStruct_append_ok _ _ _ _ _ _ _ _ h1 h2
  have g3 := decodeStruct_append_ok _ _ _ _ _ _ _ _ g2 h3
  have g4 := decodeStruct_append_ok _ _ _ _ _ _ _ _ g3 h4
  exact g4

/-- A representable stat decodes from its encoding to a stat of the same `Name`,
`Units` and `Value`. -/
theorem StatApiDTO_round_trip (s : StatApiDTO) (j : JSON) (hrep : s.Representable = true)
    (hj : s.toJSON = .ok j) : ∃ y, StatApiDTO.decode j {} = .ok y ∧ SameStat y s := by
  have hfin := (StatApiDTO_toJSON_ok_iff s).mp ⟨j, hj⟩
  cases hv : s.Value with
  | finite m e =>
    rw [StatApiDTO_toJSON_finite s m e hv] at hj
    simp only [Except.ok.injEq] at hj
    subst hj
    exact StatApiDTO_decode_statMembers s m e hrep hv
  | posInf => rw [hv] at hfin; cases hfin
  | negInf => rw [hv] at hfin; cases hfin
  | nan => rw [hv] at hfin; cases hfin

/-- A resource of representable stats decodes from its encoding to a resource
with the same stats in the same order. -/
theorem ResourceApiDTO_round_trip (r : ResourceApiDTO) (j : JSON)
    (hrep : r.Stats.all StatApiDTO.Representable = true) (hj : r.toJSON = .ok j) :
    ∃ y, ResourceApiDTO.decode j {} = .ok y ∧ List.Forall₂ SameStat y.Stats r.Stats := by
  cases hs : marshalElems StatApiDTO.toJSON r.Stats with
  | error err => simp [ResourceApiDTO.toJSON, hs, bind, Except.bind] at hj
  | ok sjs =>
    rw [ResourceApiDTO_toJSON_ok r sjs hs] at hj
    simp only [Except.ok.injEq] at hj
    subst hj
    obtain ⟨ys, hys, hR⟩ := decodeElems_marshalElems StatApiDTO.toJSON StatApiDTO.decode {}
      SameStat (fun s => s.Representable = true)
      (fun x j hx hj => StatApiDTO_round_trip x j hx hj) r.Stats sjs
      (by simpa only [List.all_eq_true] using hrep) hs
    exact ⟨_, ResourceApiDTO_decode_members r sjs ys hys, hR⟩

/-- A resource list of representable stats decodes from its encoding to a list
with the same stats in the same order. -/
theorem decodeResources_round_trip (rs : List ResourceApiDTO) (js : List JSON)
    (hrep : representableResources rs = true)
    (hjs : marshalElems ResourceApiDTO.toJSON rs = .ok js) :
    ∃ ys, decodeResources (.arr js) [] = .ok ys ∧ SameStats ys rs :=
  decodeElems_marshalElems ResourceApiDTO.toJSON ResourceApiDTO.decode {}
    (fun y r => List.Forall₂ SameStat y.Stats r.Stats)
    (fun r => r.Stats.all StatApiDTO.Representable = true)
    (fun x j hx hj => ResourceApiDTO_round_trip x j hx hj) rs js
    (by simpa only [representableResources, List.all_eq_true] using hrep) hjs

/-- The numbers of a representable template. -/
theorem TemplateApiDTO_representable (t : TemplateApiDTO) (h : t.Representable = true) :
    t.Price.inRange = true ∧ representableResources t.ComputeResources = true
      ∧ representableResources t.InfrastructureResources = true
      ∧ representableResources t.NetworkResources = true
      ∧ representableResources t.StorageResources = true := by
  simpa only [TemplateApiDTO.Representable, Bool.and_eq_true, and_assoc] using h

/-- The two ways the conversion of a representable template ends: with the
error of the encoder, when the template holds a float that is not finite; with
an input DTO of the same stats, when it holds none. -/
theorem TemplateApiInputDTO_cases (t : TemplateApiDTO) (hrep : t.Representable = true) :
    (t.containsNonFiniteFloat = true
      ∧ ∃ err, TemplateApiDTO.TemplateApiInputDTO (some t) = .error err)
    ∨ (t.containsNonFiniteFloat = false
      ∧ ∃ r, TemplateApiDTO.TemplateApiInputDTO (some t) = .ok (some r)
        ∧ SameStats r.ComputeResources t.ComputeResources
        ∧ SameStats r.InfrastructureResources t.InfrastructureResources
        ∧ SameStats r.NetworkResources t.NetworkResources
        ∧ SameStats r.StorageResources t.StorageResources) := by
  obtain ⟨hprice, hrc, hri, hrn, hrs⟩ := TemplateApiDTO_representable t hrep
  rcases TemplateApiDTO_toJSON_cases t with
    ⟨err, herr⟩ | ⟨cj, ij, nj, sj, m, e, hc, hi, hn, hP, hs⟩
  · refine .inl ⟨?_, err, TemplateApiInputDTO_of_marshal_error t err herr⟩
    by_contra hcon
    rw [Bool.not_eq_true] at hcon
    simp only [TemplateApiDTO.containsNonFiniteFloat, Bool.or_eq_false_iff,
      Bool.not_eq_false', and_assoc] at hcon
    obtain ⟨hp, h1, h2, h3, h4⟩ := hcon
    obtain ⟨cj, hc⟩ := (marshalResources_ok_iff _).mpr h1
    obtain ⟨ij, hi⟩ := (marshalResources_ok_iff _).mpr h2
    obtain ⟨nj, hn⟩ := (marshalResources_ok_iff _).mpr h3
    obtain ⟨sj, hs⟩ := (marshalResources_ok_iff _).mpr h4
    cases hP : t.Price with
    | finite m e =>
      rw [TemplateApiDTO_toJSON_ok t cj ij nj sj m e hc hi hn hP hs] at herr
      cases herr
    | posInf => rw [hP] at hp; cases hp
    | negInf => rw [hP] at hp; cases hp
    | nan => rw [hP] at hp; cases hp
  · obtain ⟨xc, hxc, hsc⟩ := decodeResources_round_trip _ cj hrc hc
    obtain ⟨xi, hxi, hsi⟩ := decodeResources_round_trip _ ij hri hi
    obtain ⟨xn, hxn, hsn⟩ := decodeResources_round_trip _ nj hrn hn
    obtain ⟨xs, hxs, hss⟩ := decodeResources_round_trip _ sj hrs hs
    rw [hP] at hprice
    have hdec := (templateDecoded_ok_iff t (decodeResources (.arr cj) [])
      (decodeResources (.arr ij) []) (decodeResources (.arr nj) []) (priceOf m e)
      (decodeResources (.arr sj) []) _).mpr
      ⟨xc, xi, xn, _, xs, hxc, hxi, hxn, priceOf_inRange m e hprice, hxs, rfl⟩
    refine .inr ⟨?_,
      { ClassName := t.ClassName, CmdWithArgs := t.CmdWithArgs, ComputeResources := xc,
        DeploymentProfileId := t.DeploymentProfile.UUID, Description := t.Description,
        DisplayName := t.DisplayName, Image := t.Image, ImageTag := t.ImageTag,
        InfrastructureResources := xi, NetworkResources := xn,
        Price := if m = 0 then .finite 0 0 else .finite m e, StorageResources := xs,
        Vendor := t.Vendor }, ?_, hsc, hsi, hsn, hss⟩
    · simp only [TemplateApiDTO.containsNonFiniteFloat, hP, GoFloat.isFinite, Bool.not_true,
        (marshalResources_ok_iff _).mp ⟨cj, hc⟩, (marshalResources_ok_iff _).mp ⟨ij, hi⟩,
        (marshalResources_ok_iff _).mp ⟨nj, hn⟩, (marshalResources_ok_iff _).mp ⟨sj, hs⟩,
        Bool.or_self]
    · rw [TemplateApiInputDTO_of_marshalled t cj ij nj sj m e hc hi hn hP hs, hdec]

/-- C30: for every non-nil `TemplateApiDTO` `t` (with numbers the Go types hold),
`TemplateApiInputDTO` returns an error if and only if `t` contains a float that
is not finite, its `Price` or the `Value` of some stat in its compute,
infrastructure, network or storage resources; otherwise it returns an input
DTO, and whenever it returns one, each resource list of the result has the same
stats in the same order, with equal `Name`, `Units` and `Value`. -/
theorem TemplateApiInputDTO_error_iff (t : TemplateApiDTO) (hrep : t.Representable = true) :
    ((∃ err, TemplateApiDTO.TemplateApiInputDTO (some t) = .error err)
      ↔ t.containsNonFiniteFloat = true)
    ∧ (t.containsNonFiniteFloat = false →
        ∃ r, TemplateApiDTO.TemplateApiInputDTO (some t) = .ok (some r))
    ∧ (∀ r, TemplateApiDTO.TemplateApiInputDTO (some t) = .ok (some r) →
        SameStats r.ComputeResources t.ComputeResources
        ∧ SameStats r.InfrastructureResources t.InfrastructureResources
        ∧ SameStats r.NetworkResources t.NetworkResources
        ∧ SameStats r.StorageResources t.StorageResources) := by
  rcases TemplateApiInputDTO_cases t hrep with ⟨hcon, err, herr⟩ | ⟨hcon, r0, hr0, hsame⟩
  · refine ⟨⟨fun _ => hcon, fun _ => ⟨err, herr⟩⟩, ?_, ?_⟩
    · intro h
      rw [hcon] at h
      cases h
    · intro r hr
      rw [herr] at hr
      cases hr
  · refine ⟨⟨?_, ?_⟩, fun _ => ⟨r0, hr0⟩, ?_⟩
    · rintro ⟨err, herr⟩
      rw [hr0] at herr
      cases herr
    · intro h
      rw [hcon] at h
      cases h
    · intro r hr
      rw [hr0] at hr
      simp only [Except.ok.injEq, Option.some.injEq] at hr
      subst hr
      exact hsame

/-- C30 on a template of finite floats: the conversion returns an input DTO. -/
theorem TemplateApiInputDTO_error_iff_witness :
    sizedTemplate.Representable = true
    ∧ sizedTemplate.containsNonFiniteFloat = false
    ∧ ∃ r, TemplateApiDTO.TemplateApiInputDTO (some sizedTemplate) = .ok (some r) :=
  ⟨by decide, by decide,
    (TemplateApiInputDTO_error_iff sizedTemplate (by decide)).2.1 (by decide)⟩


end Turbonomic
